import Mathlib

/-!
NetAVR: the ARP resolver, the checksums, UDP dispatch and ICMP echo, the port
binding tables, the demultiplexer, the timers, the clock and the calendar.

A shallow embedding of `src/net/arp.c`, of the checksum functions of
`src/net/ip.c`, `src/net/icmp.c` and `src/net/udp.c`, of `udp_decode`,
`udp_bind`, `udp_unbind`, `icmp_decode` and `icmp_echo_reply`, of `tcp_bind`
and `tcp_decode` of `src/net/tcp.c`, of `net_decode` of `src/net/net.c`, of
`echo_udp` of `src/app/echo.c`, of `src/lib/timer.c`, of `clock_tick` and
`clock_set_time` of `src/lib/clock.c`, of `time_decode` of `src/lib/date.c`,
and of the helpers they call from `src/net/ip.c`, `src/net/mac.c`,
`src/net/util.c` and `src/net/queue.c`.

Conventions of the embedding.

* `uint8_t` is `Fin 256`.  Where C computes on `uint8_t` operands the operands
  are first promoted to `int` (C99 6.3.1.1), so `arp_time - entry->time` is a
  difference of integers in the range -255..255; it is an `Int` here and is
  only reduced modulo 256 where the C code stores it into a `uint8_t`.
* The static variables of a translation unit (`arp_time`, `arp_table`,
  `ip_host_addr`, ...) are fields of an explicit state that is passed in and
  returned.
* A packet buffer `uint8_t*` is the memory it points to: a total map from the
  byte offset to the octet stored there.  The length argument is separate, as
  in C.
* The target is a little-endian AVR: a `uint16_t` structure member at offset
  `o` has its low byte at `o` and its high byte at `o + 1`; `int` is 16 bits
  wide.
* A function that can fail to return a value has an `Option` or `Except`
  value: `none` is a loop that never ends (in `time_decode` also a read
  outside a table), `Except.error` names the fault.
* Blocks obtained from `calloc` (port bindings, timers): what `calloc` returns
  is an argument of the function that calls it.  `free` ends the life of a
  block and leaves every pointer to it as it is; a read or write through
  `NULL` or through a pointer to a block that is not live is a fault.
-/

namespace NetAVR

/-! ## Machine integers -/

/-- An octet, the C type `uint8_t`. -/
abbrev Byte := Fin 256

/-- Conversion of a C `int` to `uint8_t`: the value modulo 2^8. -/
def to_uint8 (z : Int) : Byte := ⟨(z % 256).toNat, by omega⟩

/-- The low octet of an unsigned value: the value modulo 2^8. -/
def low_byte (n : Nat) : Byte := ⟨n % 256, Nat.mod_lt n (by decide)⟩

/-! ## Packet buffers -/

/-- The memory behind a `uint8_t* packet`: the octet at each byte offset. -/
abbrev Buffer := Nat → Byte

/-- Assignment to a `uint8_t` member at offset `o`. -/
def store_u8 (packet : Buffer) (o : Nat) (v : Byte) : Buffer :=
  fun i => if i = o then v else packet i

/-- Read of a `uint16_t` member at offset `o` (little-endian host). -/
def load_u16 (packet : Buffer) (o : Nat) : Nat :=
  (packet o).val + 256 * (packet (o + 1)).val

/-- Assignment to a `uint16_t` member at offset `o` (little-endian host). -/
def store_u16 (packet : Buffer) (o : Nat) (v : Nat) : Buffer :=
  fun i => if i = o then low_byte v else if i = o + 1 then low_byte (v >>> 8) else packet i

/-- The value of the two octets at offset `o` read as a big-endian
(network order) 16-bit field. -/
def wire_u16 (packet : Buffer) (o : Nat) : Nat :=
  256 * (packet o).val + (packet (o + 1)).val

/-! ## Addresses (`ip.h`, `mac.h`) -/

/-- The type `ip_addr_t`, `uint8_t[4]`. -/
structure ip_addr_t where
  a0 : Byte
  a1 : Byte
  a2 : Byte
  a3 : Byte
deriving DecidableEq

/-- The type `mac_addr_t`, `uint8_t[6]`. -/
structure mac_addr_t where
  m0 : Byte
  m1 : Byte
  m2 : Byte
  m3 : Byte
  m4 : Byte
  m5 : Byte
deriving DecidableEq

/-- The constant `ip_broadcast_addr` of `ip.h`. -/
def ip_broadcast_addr : ip_addr_t := ⟨0xFF, 0xFF, 0xFF, 0xFF⟩

/-- The constant `mac_broadcast_addr` of `mac.h`. -/
def mac_broadcast_addr : mac_addr_t := ⟨0xFF, 0xFF, 0xFF, 0xFF, 0xFF, 0xFF⟩

/-- The address written by `memset(ip_addr, 0, 4)`. -/
def ip_zero_addr : ip_addr_t := ⟨0, 0, 0, 0⟩

/-- The address written by `memset(mac_addr, 0x00, 6)`. -/
def mac_zero_addr : mac_addr_t := ⟨0, 0, 0, 0, 0, 0⟩

/-- The function `ip_addr_is_empty` of `ip.c`:
`!(ip_addr[0] | ip_addr[1] | ip_addr[2] | ip_addr[3])`. -/
def ip_addr_is_empty (ip_addr : ip_addr_t) : Bool :=
  (ip_addr.a0.val ||| ip_addr.a1.val ||| ip_addr.a2.val ||| ip_addr.a3.val) == 0

/-- The function `ip_addr_compare` of `ip.c`: octet-wise equality. -/
def ip_addr_compare (ip_addr_a ip_addr_b : ip_addr_t) : Bool :=
  ip_addr_a.a0 == ip_addr_b.a0 && ip_addr_a.a1 == ip_addr_b.a1 &&
  ip_addr_a.a2 == ip_addr_b.a2 && ip_addr_a.a3 == ip_addr_b.a3

/-- The function `ip_mask_compare` of `ip.c`: octet-wise equality under the
netmask. -/
def ip_mask_compare (ip_addr_a ip_addr_b netmask : ip_addr_t) : Bool :=
  (ip_addr_a.a0.val &&& netmask.a0.val) == (ip_addr_b.a0.val &&& netmask.a0.val) &&
  (ip_addr_a.a1.val &&& netmask.a1.val) == (ip_addr_b.a1.val &&& netmask.a1.val) &&
  (ip_addr_a.a2.val &&& netmask.a2.val) == (ip_addr_b.a2.val &&& netmask.a2.val) &&
  (ip_addr_a.a3.val &&& netmask.a3.val) == (ip_addr_b.a3.val &&& netmask.a3.val)

/-- The function `htons` of `util.c` on a `uint16_t`:
`((x >> 8) & 0xff) | ((x & 0xff) << 8)`. -/
def htons (hostshort : Nat) : Nat :=
  ((hostshort >>> 8) &&& 0xff) ||| ((hostshort &&& 0xff) <<< 8)

/-- The six octets at offset `o` read as a `mac_addr_t` member. -/
def load_mac (packet : Buffer) (o : Nat) : mac_addr_t :=
  ⟨packet o, packet (o + 1), packet (o + 2), packet (o + 3), packet (o + 4), packet (o + 5)⟩

/-- A six-byte `memcpy` or `memset` to the `mac_addr_t` member at offset `o`. -/
def store_mac (packet : Buffer) (o : Nat) (mac_addr : mac_addr_t) : Buffer :=
  fun i =>
    if i = o then mac_addr.m0 else if i = o + 1 then mac_addr.m1
    else if i = o + 2 then mac_addr.m2 else if i = o + 3 then mac_addr.m3
    else if i = o + 4 then mac_addr.m4 else if i = o + 5 then mac_addr.m5
    else packet i

/-- The four octets at offset `o` read as an `ip_addr_t` member. -/
def load_ip (packet : Buffer) (o : Nat) : ip_addr_t :=
  ⟨packet o, packet (o + 1), packet (o + 2), packet (o + 3)⟩

/-- A four-byte `memcpy` to the `ip_addr_t` member at offset `o`. -/
def store_ip (packet : Buffer) (o : Nat) (ip_addr : ip_addr_t) : Buffer :=
  fun i =>
    if i = o then ip_addr.a0 else if i = o + 1 then ip_addr.a1
    else if i = o + 2 then ip_addr.a2 else if i = o + 3 then ip_addr.a3
    else packet i

/-! ### Member offsets of the packed header structures

`mac_header_t`: `dest_addr` 0, `src_addr` 6, `type` 12 (14 bytes).
`arp_header_t`: `mac` 0, `hardware_type` 14, `protocol_type` 16,
`hardware_length` 18, `protocol_length` 19, `opcode` 20, `mac_src_addr` 22,
`ip_src_addr` 28, `mac_dest_addr` 32, `ip_dest_addr` 38 (42 bytes).
`ip_header_t`: `mac` 0, `version` 14, `services` 15, `length` 16, `id` 18,
`offset` 20, `ttl` 22, `protocol` 23, `checksum` 24, `src_addr` 26,
`dest_addr` 30 (34 bytes). -/

/-- Offset of `mac_header_t.dest_addr`. -/
@[simp]
abbrev mac_dest_addr_off : Nat := 0

/-- Offset of `mac_header_t.src_addr`. -/
@[simp]
abbrev mac_src_addr_off : Nat := 6

/-- Offset of `mac_header_t.type`. -/
@[simp]
abbrev mac_type_off : Nat := 12

/-- Offset of `arp_header_t.hardware_type`. -/
@[simp]
abbrev arp_hardware_type_off : Nat := 14

/-- Offset of `arp_header_t.protocol_type`. -/
@[simp]
abbrev arp_protocol_type_off : Nat := 16

/-- Offset of `arp_header_t.hardware_length`. -/
@[simp]
abbrev arp_hardware_length_off : Nat := 18

/-- Offset of `arp_header_t.protocol_length`. -/
@[simp]
abbrev arp_protocol_length_off : Nat := 19

/-- Offset of `arp_header_t.opcode`. -/
@[simp]
abbrev arp_opcode_off : Nat := 20

/-- Offset of `arp_header_t.mac_src_addr`. -/
@[simp]
abbrev arp_mac_src_addr_off : Nat := 22

/-- Offset of `arp_header_t.ip_src_addr`. -/
@[simp]
abbrev arp_ip_src_addr_off : Nat := 28

/-- Offset of `arp_header_t.mac_dest_addr`. -/
@[simp]
abbrev arp_mac_dest_addr_off : Nat := 32

/-- Offset of `arp_header_t.ip_dest_addr`. -/
@[simp]
abbrev arp_ip_dest_addr_off : Nat := 38

/-- The value of `sizeof(struct arp_header_t)`. -/
@[simp]
abbrev sizeof_arp_header_t : Nat := 42

/-- Offset of `ip_header_t.dest_addr`. -/
@[simp]
abbrev ip_dest_addr_off : Nat := 30

/-- The static variables of `mac.c` and `ip.c`, read through
`mac_get_host_addr`, `ip_get_host_addr`, `ip_get_netmask` and
`ip_get_default_router`. -/
structure host_config where
  mac_host_addr : mac_addr_t
  ip_host_addr : ip_addr_t
  ip_default_router : ip_addr_t
  ip_netmask : ip_addr_t

/-! ## The ARP table (`arp.h`, `arp.c`) -/

/-- The constant `ARP_TABLE_SIZE`. -/
abbrev ARP_TABLE_SIZE : Nat := 10

/-- The constant `ARP_ENTRY_MAX_AGE`. -/
def ARP_ENTRY_MAX_AGE : Int := 120

/-- The constant `ARP_HARDWARE_TYPE`. -/
def ARP_HARDWARE_TYPE : Nat := 1

/-- The constant `ARP_OPCODE_REQUEST`. -/
def ARP_OPCODE_REQUEST : Nat := 1

/-- The constant `ARP_OPCODE_REPLY`. -/
def ARP_OPCODE_REPLY : Nat := 2

/-- The constant `MAC_TYPE_ARP`. -/
def MAC_TYPE_ARP : Nat := 0x0806

/-- The constant `MAC_TYPE_IP4`. -/
def MAC_TYPE_IP4 : Nat := 0x0800

/-- The structure `arp_entry_t`. -/
structure arp_entry_t where
  time : Byte
  mac_addr : mac_addr_t
  ip_addr : ip_addr_t
deriving DecidableEq

/-- The static variables of `arp.c`: `arp_time` and `arp_table`. -/
structure arp_state where
  arp_time : Byte
  arp_table : Fin ARP_TABLE_SIZE → arp_entry_t

/-- The function `arp_init`: `memset(arp_table[i].ip_addr, 0, 4)` for every
slot; nothing else is written. -/
def arp_init (s : arp_state) : arp_state :=
  { s with arp_table := fun i => { (s.arp_table i) with ip_addr := ip_zero_addr } }

/-- The loop `for(i = 0; i < n; i++) { if(stop i) break; }` entered at index
`i` with `fuel` iterations left.  The value is `i` as the loop leaves it: the
first index at which `stop` holds, or `n` when there is none. -/
def scan_loop {n : Nat} (stop : Fin n → Bool) : Nat → Nat → Nat
  | 0, i => i
  | fuel + 1, i =>
    if h : i < n then
      if stop ⟨i, h⟩ then i else scan_loop stop fuel (i + 1)
    else i

/-- The third loop of `arp_update` (lines 104-111), entered at index `i` with
the locals `max_aged_time` and `max_aged_entry`; the value is
`max_aged_entry` after the loop.  The comparison
`(arp_time - entry->time) > max_aged_time` is made on promoted `int`s; the
assignment to `max_aged_time` converts back to `uint8_t`. -/
def arp_oldest_loop (arp_time : Byte) (arp_table : Fin ARP_TABLE_SIZE → arp_entry_t) :
    Nat → Nat → Byte → Fin ARP_TABLE_SIZE → Fin ARP_TABLE_SIZE
  | 0, _, _, max_aged_entry => max_aged_entry
  | fuel + 1, i, max_aged_time, max_aged_entry =>
    if h : i < ARP_TABLE_SIZE then
      if ((arp_time.val : Int) - ((arp_table ⟨i, h⟩).time.val : Int)) > (max_aged_time.val : Int) then
        arp_oldest_loop arp_time arp_table fuel (i + 1)
          (to_uint8 ((arp_time.val : Int) - ((arp_table ⟨i, h⟩).time.val : Int))) ⟨i, h⟩
      else
        arp_oldest_loop arp_time arp_table fuel (i + 1) max_aged_time max_aged_entry
    else max_aged_entry

/-- The function `arp_update`.  The first loop returns from inside on the
first in-use slot whose address equals `ip_addr`; the second loop breaks on
the first unused slot; both leave `i <= ARP_TABLE_SIZE`, so the test
`i == ARP_TABLE_SIZE` is the failure of `i < ARP_TABLE_SIZE`. -/
def arp_update (s : arp_state) (ip_addr : ip_addr_t) (mac_addr : mac_addr_t) : arp_state :=
  let i := scan_loop (fun j => !ip_addr_is_empty (s.arp_table j).ip_addr &&
    ip_addr_compare (s.arp_table j).ip_addr ip_addr) ARP_TABLE_SIZE 0
  if h : i < ARP_TABLE_SIZE then
    { s with arp_table := (Function.update s.arp_table ⟨i, h⟩
        { (s.arp_table ⟨i, h⟩) with mac_addr := mac_addr, time := s.arp_time }) }
  else
    let i := scan_loop (fun j => ip_addr_is_empty (s.arp_table j).ip_addr) ARP_TABLE_SIZE 0
    let entry : Fin ARP_TABLE_SIZE :=
      if h : i < ARP_TABLE_SIZE then ⟨i, h⟩
      else arp_oldest_loop s.arp_time s.arp_table ARP_TABLE_SIZE 0 0 0
    { s with arp_table := (Function.update s.arp_table entry
        { time := s.arp_time, mac_addr := mac_addr, ip_addr := ip_addr }) }

/-- The function `arp_flush`: `arp_time++` on a `uint8_t`, then every in-use
entry with `arp_time - entry->time >= ARP_ENTRY_MAX_AGE` (a comparison of
promoted `int`s) has its address zeroed.  The first component is the value
returned, always `true`. -/
def arp_flush (s : arp_state) : Bool × arp_state :=
  let arp_time := to_uint8 ((s.arp_time.val : Int) + 1)
  (true,
   { arp_time := arp_time,
     arp_table := (fun i =>
       if !ip_addr_is_empty (s.arp_table i).ip_addr &&
          decide ((arp_time.val : Int) - ((s.arp_table i).time.val : Int) ≥ ARP_ENTRY_MAX_AGE) then
         { (s.arp_table i) with ip_addr := ip_zero_addr }
       else s.arp_table i) })

/-- The function `arp_decode`.  The components of the value are the length
returned, the ARP state and the packet buffer after the call. -/
def arp_decode (cfg : host_config) (s : arp_state) (length : Nat) (packet : Buffer) :
    Nat × arp_state × Buffer :=
  if length < sizeof_arp_header_t then (0, s, packet)
  else
    let opcode := htons (load_u16 packet arp_opcode_off)
    if opcode = ARP_OPCODE_REQUEST then
      if !ip_addr_compare (load_ip packet arp_ip_dest_addr_off) cfg.ip_host_addr then
        (0, s, packet)
      else
        let s1 := arp_update s (load_ip packet arp_ip_src_addr_off)
          (load_mac packet arp_mac_src_addr_off)
        let p1 := store_mac packet arp_mac_dest_addr_off (load_mac packet arp_mac_src_addr_off)
        let p2 := store_mac p1 mac_dest_addr_off (load_mac p1 arp_mac_src_addr_off)
        let p3 := store_mac p2 arp_mac_src_addr_off cfg.mac_host_addr
        let p4 := store_mac p3 mac_src_addr_off cfg.mac_host_addr
        let p5 := store_ip p4 arp_ip_dest_addr_off (load_ip p4 arp_ip_src_addr_off)
        let p6 := store_ip p5 arp_ip_src_addr_off cfg.ip_host_addr
        let p7 := store_u16 p6 arp_opcode_off (htons ARP_OPCODE_REPLY)
        (sizeof_arp_header_t, s1, p7)
    else if opcode = ARP_OPCODE_REPLY then
      if ip_addr_compare (load_ip packet arp_ip_dest_addr_off) cfg.ip_host_addr then
        (0, arp_update s (load_ip packet arp_ip_src_addr_off)
          (load_mac packet arp_mac_src_addr_off), packet)
      else (0, s, packet)
    else (0, s, packet)

/-- The function `queue_packet` of `queue.c`: a stub that stores nothing and
returns `false`. -/
def queue_packet (_length : Nat) (_packet : Buffer) : Bool := false

/-- The function `queue_get_table` of `queue.c`, "the current queue table":
a stub that returns `NULL`, the pointer 0. -/
def queue_get_table : Nat := 0

/-- Lines 311-318 of `arp_encode`, the code after the `if`/`else`: the source
MAC and the packet type are set and `length` is returned. -/
def arp_encode_finish (cfg : host_config) (length : Nat) (packet : Buffer) : Nat × Buffer :=
  let p1 := store_mac packet mac_src_addr_off cfg.mac_host_addr
  let p2 := store_u16 p1 mac_type_off (htons MAC_TYPE_IP4)
  (length, p2)

/-- The function `arp_encode`.  The components of the value are the length
returned and the packet buffer after the call; the ARP state is only read.
The lookup loop compares `dest_ip_addr` with the address of every slot and
leaves `i <= ARP_TABLE_SIZE`, so `i == ARP_TABLE_SIZE` is the failure of
`i < ARP_TABLE_SIZE`; the value of `queue_packet` is discarded as in the
source. -/
def arp_encode (cfg : host_config) (s : arp_state) (length : Nat) (packet : Buffer) :
    Nat × Buffer :=
  if ip_addr_compare (load_ip packet ip_dest_addr_off) ip_broadcast_addr then
    arp_encode_finish cfg length (store_mac packet mac_dest_addr_off mac_broadcast_addr)
  else
    let dest_ip_addr :=
      if !ip_mask_compare (load_ip packet ip_dest_addr_off) cfg.ip_host_addr cfg.ip_netmask then
        cfg.ip_default_router
      else load_ip packet ip_dest_addr_off
    let i := scan_loop (fun j => ip_addr_compare dest_ip_addr (s.arp_table j).ip_addr)
      ARP_TABLE_SIZE 0
    if h : i < ARP_TABLE_SIZE then
      arp_encode_finish cfg length
        (store_mac packet mac_dest_addr_off (s.arp_table ⟨i, h⟩).mac_addr)
    else
      let _queued := queue_packet length packet
      let p1 := store_mac packet mac_dest_addr_off mac_broadcast_addr
      let p2 := store_mac p1 arp_mac_dest_addr_off mac_zero_addr
      let p3 := store_mac p2 mac_src_addr_off cfg.mac_host_addr
      let p4 := store_mac p3 arp_mac_src_addr_off cfg.mac_host_addr
      let p5 := store_ip p4 arp_ip_dest_addr_off dest_ip_addr
      let p6 := store_ip p5 arp_ip_src_addr_off cfg.ip_host_addr
      let p7 := store_u16 p6 arp_opcode_off (htons ARP_OPCODE_REQUEST)
      let p8 := store_u16 p7 arp_hardware_type_off (htons ARP_HARDWARE_TYPE)
      let p9 := store_u8 p8 arp_hardware_length_off 6
      let p10 := store_u16 p9 arp_protocol_type_off (htons MAC_TYPE_IP4)
      let p11 := store_u8 p10 arp_protocol_length_off 4
      let p12 := store_u16 p11 mac_type_off (htons MAC_TYPE_ARP)
      (sizeof_arp_header_t, p12)

/-! ## Runs of the ARP module -/

/-- An entry of the table is in use when its address is not empty, the test
the source makes with `ip_addr_is_empty`. -/
def arp_in_use (entry : arp_entry_t) : Prop := ip_addr_is_empty entry.ip_addr = false

/-- The table invariant: no two slots in use hold the same address. -/
def arp_unique (arp_table : Fin ARP_TABLE_SIZE → arp_entry_t) : Prop :=
  ∀ i j, arp_in_use (arp_table i) → (arp_table i).ip_addr = (arp_table j).ip_addr → i = j

/-- A call that changes the ARP state.  `decode` carries the host
configuration in force at the call, which may have been reset in between. -/
inductive arp_call where
  | update (ip_addr : ip_addr_t) (mac_addr : mac_addr_t)
  | flush
  | decode (cfg : host_config) (length : Nat) (packet : Buffer)

/-- The ARP state after one call. -/
def arp_step (s : arp_state) : arp_call → arp_state
  | .update ip_addr mac_addr => arp_update s ip_addr mac_addr
  | .flush => (arp_flush s).2
  | .decode cfg length packet => (arp_decode cfg s length packet).2.1

/-- The ARP state after a sequence of calls, made in order. -/
def arp_run (s : arp_state) (calls : List arp_call) : arp_state :=
  calls.foldl arp_step s

/-- The ARP state after `k` consecutive calls of `arp_flush`. -/
def arp_flush_times : Nat → arp_state → arp_state
  | 0, s => s
  | k + 1, s => arp_flush_times k (arp_flush s).2

/-- The age of an entry as the spec defines it: `arp_time - time` taken
modulo 256. -/
def modular_age (arp_time : Byte) (entry : arp_entry_t) : Nat :=
  (arp_time.val + 256 - entry.time.val) % 256

/-- The address `arp_encode` resolves for a destination that is not the
broadcast address: the destination itself when it is on the host's subnet
(`ip_mask_compare`), the default router otherwise. -/
def arp_target (cfg : host_config) (dest_addr : ip_addr_t) : ip_addr_t :=
  if ip_mask_compare dest_addr cfg.ip_host_addr cfg.ip_netmask then dest_addr
  else cfg.ip_default_router

/-! ## Checksums (`ip.c`, `icmp.c`, `udp.c`)

On the AVR target `int` and `unsigned int` are 16 bits wide and `uint16_t` is
`unsigned int`; `uint32_t` is `unsigned long`.  A value of type `int` is kept
in the range -32768..32767 by `to_int16` (a left shift that leaves the range
wraps, as avr-gcc compiles it), and an `int` added to a `uint32_t` is first
converted to `uint32_t`, that is taken modulo 2^32, which sign-extends a
negative value. -/

/-- The constant `IP_PROTOCOL_UDP`. -/
def IP_PROTOCOL_UDP : Nat := 17

/-- The constant `MAC_DEFAULT_HEADER_LENGTH`. -/
abbrev MAC_DEFAULT_HEADER_LENGTH : Nat := 14

/-- The constant `IP_DEFAULT_HEADER_LENGTH`. -/
abbrev IP_DEFAULT_HEADER_LENGTH : Nat := 20

/-- The constant `UDP_DEFAULT_HEADER_LENGTH`. -/
abbrev UDP_DEFAULT_HEADER_LENGTH : Nat := 8

/-- The constant `ICMP_DEFAULT_HEADER_LENGTH`. -/
abbrev ICMP_DEFAULT_HEADER_LENGTH : Nat := 8

/-- Conversion to `uint16_t`: the value modulo 2^16. -/
def to_uint16 (n : Nat) : Nat := n % 65536

/-- The value of an `int` expression on the target: the two's complement
16-bit value, in -32768..32767. -/
def to_int16 (z : Int) : Int := (z + 32768) % 65536 - 32768

/-- Conversion of an `int` to `uint32_t`: the value modulo 2^32. -/
def to_uint32 (z : Int) : Nat := (z % 4294967296).toNat

/-- The pointer `packet + o`: the memory seen from offset `o`. -/
def buffer_at (packet : Buffer) (o : Nat) : Buffer := fun i => packet (o + i)

/-- The loop
`for(i = 0; i < length; i += 2) sum += ((packet[i] << 8) & 0xFF00) + packet[i + 1];`
of `ip_checksum`, `icmp_checksum` and `udp_checksum`, entered at `i` with
`fuel` iterations left.  `i` is a `uint16_t`, so `i += 2` is taken modulo
2^16; `sum` is a `uint32_t`; the mask makes the added word an
`unsigned int`.  The value is `sum` after the loop, or `none` when the fuel
runs out before the loop ends. -/
def checksum_loop (length : Nat) (packet : Buffer) : Nat → Nat → Nat → Option Nat
  | 0, _, _ => none
  | fuel + 1, i, sum =>
    if i < length then
      checksum_loop length packet fuel ((i + 2) % 65536)
        ((sum + ((((packet i).val <<< 8) &&& 0xFF00) + (packet (i + 1)).val)) % 4294967296)
    else some sum

/-- Fuel for `checksum_loop`: a loop over `length <= 65534` bytes ends within
32767 iterations; with `length = 65535` the counter wraps from 65534 to 0 and
the loop never ends. -/
def CHECKSUM_FUEL : Nat := 32768

/-- The loop `while(sum >> 16) sum = (sum & 0xFFFF) + (sum >> 16);` on the
`uint32_t sum`, with `fuel` iterations left.  Two iterations bring every
32-bit value below 2^16. -/
def checksum_fold : Nat → Nat → Nat
  | 0, sum => sum
  | fuel + 1, sum =>
    if sum >>> 16 ≠ 0 then
      checksum_fold fuel (((sum &&& 0xFFFF) + (sum >>> 16)) % 4294967296)
    else sum

/-- The statements after the first loop, shared by the three checksum
functions up to the pseudo header: `sum = ~sum; return (uint16_t)(sum);` after
the carries are folded. -/
def checksum_finish (sum : Nat) : Nat :=
  to_uint16 (4294967295 - checksum_fold 2 sum)

/-- The statement `if(length % 2) sum += ((packet[length] << 8) & 0xFF00);`. -/
def checksum_pad (length : Nat) (packet : Buffer) (sum : Nat) : Nat :=
  if length % 2 ≠ 0 then (sum + (((packet length).val <<< 8) &&& 0xFF00)) % 4294967296
  else sum

/-- The function `ip_checksum` of `ip.c`; `none` when the call does not
return. -/
def ip_checksum (length : Nat) (packet : Buffer) : Option Nat :=
  match checksum_loop length packet CHECKSUM_FUEL 0 0 with
  | none => none
  | some sum => some (checksum_finish (checksum_pad length packet sum))

/-- The function `icmp_checksum` of `icmp.c`, the same statements as
`ip_checksum`. -/
def icmp_checksum (length : Nat) (packet : Buffer) : Option Nat :=
  match checksum_loop length packet CHECKSUM_FUEL 0 0 with
  | none => none
  | some sum => some (checksum_finish (checksum_pad length packet sum))

/-- The value that `sum += (addr[i] << 8) + addr[i + 1];` adds to the
`uint32_t sum`: the operand is an `int`, computed in 16 bits and converted to
`uint32_t`. -/
def pseudo_header_word (hi lo : Byte) : Nat :=
  to_uint32 (to_int16 (to_int16 ((hi.val : Int) * 256) + (lo.val : Int)))

/-- The function `udp_checksum` of `udp.c`; `none` when the call does not
return.  `length + IP_PROTOCOL_UDP` is an `unsigned int` sum; the second loop
runs for `i = 0` and `i = 2` and adds the source word before the destination
word. -/
def udp_checksum (length : Nat) (packet : Buffer) (src_addr dest_addr : ip_addr_t) :
    Option Nat :=
  match checksum_loop length packet CHECKSUM_FUEL 0 (to_uint16 (length + IP_PROTOCOL_UDP)) with
  | none => none
  | some sum =>
    let s0 := checksum_pad length packet sum
    let s1 := (s0 + pseudo_header_word src_addr.a0 src_addr.a1) % 4294967296
    let s2 := (s1 + pseudo_header_word dest_addr.a0 dest_addr.a1) % 4294967296
    let s3 := (s2 + pseudo_header_word src_addr.a2 src_addr.a3) % 4294967296
    let s4 := (s3 + pseudo_header_word dest_addr.a2 dest_addr.a3) % 4294967296
    some (checksum_finish s4)

/-! ### The checksum of the specification -/

/-- The sum of the first `n` octets read as big-endian 16-bit words, the last
word padded with a zero octet when `n` is odd: an octet at an even offset
counts 256 times. -/
def be_word_sum (bytes : Buffer) : Nat → Nat
  | 0 => 0
  | n + 1 => be_word_sum bytes n +
      (if n % 2 = 0 then 256 * (bytes n).val else (bytes n).val)

/-- The 16-bit one's-complement sum of a total: the carries out of the low 16
bits are added back in (end-around carry). -/
def ones_complement_fold (total : Nat) : Nat :=
  if total = 0 then 0 else (total - 1) % 65535 + 1

/-- The Internet checksum of the first `n` octets: the 16-bit complement of
the one's-complement sum of their big-endian words. -/
def inet_checksum (bytes : Buffer) (n : Nat) : Nat :=
  65535 - ones_complement_fold (be_word_sum bytes n)

/-- The big-endian 16-bit word of two octets. -/
def be_word (hi lo : Byte) : Nat := 256 * hi.val + lo.val

/-- The UDP checksum of the specification: the pseudo-header words (source and
destination address, protocol 17, the length) and the first `n` octets of the
datagram. -/
def udp_checksum_spec (bytes : Buffer) (n : Nat) (src_addr dest_addr : ip_addr_t) : Nat :=
  65535 - ones_complement_fold
    (be_word src_addr.a0 src_addr.a1 + be_word src_addr.a2 src_addr.a3 +
     be_word dest_addr.a0 dest_addr.a1 + be_word dest_addr.a2 dest_addr.a3 +
     0x0011 + n + be_word_sum bytes n)

/-- The buffer with the value `v` stored in network byte order (high octet
first) in the two octets at offset `o`. -/
def store_wire_u16 (packet : Buffer) (o : Nat) (v : Nat) : Buffer :=
  fun i => if i = o then low_byte (v / 256) else if i = o + 1 then low_byte v else packet i

/-! ## Faults -/

/-- The ways a call can fail to return a value: a read through a null
pointer, a read through a pointer whose block was passed to `free`, or a loop
that never ends. -/
inductive c_fault where
  | null_dereference
  | use_after_free
  | no_return
deriving DecidableEq

/-! ## UDP (`udp.h`, `udp.c`)

`udp_header_t`: `ip` 0, `src_port` 34, `dest_port` 36, `length` 38,
`checksum` 40 (42 bytes). -/

/-- The constant `UDP_MAX_BINDINGS`. -/
abbrev UDP_MAX_BINDINGS : Nat := 10

/-- Offset of `ip_header_t.src_addr`. -/
@[simp]
abbrev ip_src_addr_off : Nat := 26

/-- Offset of `udp_header_t.src_port`. -/
@[simp]
abbrev udp_src_port_off : Nat := 34

/-- Offset of `udp_header_t.dest_port`. -/
@[simp]
abbrev udp_dest_port_off : Nat := 36

/-- Offset of `udp_header_t.length`. -/
@[simp]
abbrev udp_length_off : Nat := 38

/-- Offset of `udp_header_t.checksum`. -/
@[simp]
abbrev udp_checksum_off : Nat := 40

/-- The value of `sizeof(struct udp_header_t)`. -/
@[simp]
abbrev sizeof_udp_header_t : Nat := 42

/-- The type `udp_inbound_t`.  A callback receives the memory at `udp_header`
and the pointer `data`, given as its offset from `udp_header`; the value is
the `uint16_t` returned and the memory after the call. -/
abbrev udp_inbound_t := Buffer → Nat → Nat × Buffer

/-- The structure `udp_bind_t`. -/
structure udp_bind_t where
  port : Nat
  callback : udp_inbound_t

/-- What an element of `udp_bindings` holds: `NULL`, a pointer to an allocated
`udp_bind_t`, or a pointer to a `udp_bind_t` that was passed to `free`. -/
inductive udp_slot where
  | null
  | live (binding : udp_bind_t)
  | freed (binding : udp_bind_t)

/-- What a call of `udp_decode` leaves: the value returned, the packet buffer
and the slot whose callback was invoked, if any. -/
structure udp_result where
  value : Nat
  packet : Buffer
  invoked : Option (Fin UDP_MAX_BINDINGS)

/-- The loop
`for(; (id < UDP_MAX_BINDINGS) && (udp_bindings[id]->port != port); id++)`
of `udp_decode`, entered at `id` with `fuel` iterations left.  The condition
reads `udp_bindings[id]->port` without a test of the pointer. -/
def udp_decode_lookup (udp_bindings : Fin UDP_MAX_BINDINGS → udp_slot) (port : Nat) :
    Nat → Nat → Except c_fault Nat
  | 0, id => .ok id
  | fuel + 1, id =>
    if h : id < UDP_MAX_BINDINGS then
      match udp_bindings ⟨id, h⟩ with
      | .null => .error .null_dereference
      | .freed _ => .error .use_after_free
      | .live binding =>
        if binding.port ≠ port then udp_decode_lookup udp_bindings port fuel (id + 1)
        else .ok id
    else .ok id

/-- Lines 124-128 of `udp_decode`: the data pointer is `packet + 42` and the
callback of `udp_bindings[id]` is called. -/
def udp_decode_call (udp_bindings : Fin UDP_MAX_BINDINGS → udp_slot)
    (id : Fin UDP_MAX_BINDINGS) (packet : Buffer) : Except c_fault udp_result :=
  match udp_bindings id with
  | .null => .error .null_dereference
  | .freed _ => .error .use_after_free
  | .live binding =>
    .ok { value := (binding.callback packet
            (MAC_DEFAULT_HEADER_LENGTH + IP_DEFAULT_HEADER_LENGTH + UDP_DEFAULT_HEADER_LENGTH)).1,
          packet := (binding.callback packet
            (MAC_DEFAULT_HEADER_LENGTH + IP_DEFAULT_HEADER_LENGTH + UDP_DEFAULT_HEADER_LENGTH)).2,
          invoked := some id }

/-- The function `udp_decode`.  The lookup leaves `id <= UDP_MAX_BINDINGS`, so
`id == UDP_MAX_BINDINGS` is the failure of `id < UDP_MAX_BINDINGS`. -/
def udp_decode (udp_bindings : Fin UDP_MAX_BINDINGS → udp_slot) (length : Nat)
    (packet : Buffer) : Except c_fault udp_result :=
  if length < sizeof_udp_header_t then .ok { value := 0, packet := packet, invoked := none }
  else
    match udp_decode_lookup udp_bindings (htons (load_u16 packet udp_dest_port_off))
        UDP_MAX_BINDINGS 0 with
    | .error fault => .error fault
    | .ok id =>
      if h : id < UDP_MAX_BINDINGS then
        let checksum := htons (load_u16 packet udp_checksum_off)
        if checksum ≠ 0 then
          let p1 := store_u16 packet udp_checksum_off 0
          match udp_checksum (htons (load_u16 p1 udp_length_off))
              (buffer_at p1 (MAC_DEFAULT_HEADER_LENGTH + IP_DEFAULT_HEADER_LENGTH))
              (load_ip p1 ip_src_addr_off) (load_ip p1 ip_dest_addr_off) with
          | none => .error .no_return
          | some computed =>
            if checksum ≠ computed then .ok { value := 0, packet := p1, invoked := none }
            else udp_decode_call udp_bindings ⟨id, h⟩ p1
        else udp_decode_call udp_bindings ⟨id, h⟩ packet
      else .ok { value := 0, packet := packet, invoked := none }

/-- The function `echo_udp` of `echo.c`.  `sizeof`, `htons` and the
subtraction are `unsigned int` values, so the length returned is taken modulo
2^16. -/
def echo_udp (cfg : host_config) : udp_inbound_t := fun udp_header _data =>
  let p1 := store_u16 udp_header udp_dest_port_off (load_u16 udp_header udp_src_port_off)
  let p2 := store_u16 p1 udp_src_port_off (htons 7)
  let p3 := store_mac p2 mac_dest_addr_off (load_mac p2 mac_src_addr_off)
  let p4 := store_mac p3 mac_src_addr_off cfg.mac_host_addr
  let p5 := store_ip p4 ip_dest_addr_off (load_ip p4 ip_src_addr_off)
  let p6 := store_ip p5 ip_src_addr_off cfg.ip_host_addr
  (to_uint16 (sizeof_udp_header_t +
      to_uint16 (htons (load_u16 p6 udp_length_off) + (65536 - UDP_DEFAULT_HEADER_LENGTH))),
   p6)

/-! ## ICMP (`icmp.h`, `icmp.c`)

`icmp_header_t`: `ip` 0, `type` 34, `code` 35, `checksum` 36, `id` 38,
`sequence` 40, `padding[56]` 42 (98 bytes). -/

/-- The constant `ICMP_TYPE_ECHO_REPLY`. -/
def ICMP_TYPE_ECHO_REPLY : Byte := 0

/-- The constant `ICMP_CODE_ECHO_REPLY`. -/
def ICMP_CODE_ECHO_REPLY : Byte := 0

/-- The constant `ICMP_TYPE_ECHO_REQUEST`. -/
def ICMP_TYPE_ECHO_REQUEST : Byte := 8

/-- Offset of `icmp_header_t.type`. -/
@[simp]
abbrev icmp_type_off : Nat := 34

/-- Offset of `icmp_header_t.code`. -/
@[simp]
abbrev icmp_code_off : Nat := 35

/-- Offset of `icmp_header_t.checksum`. -/
@[simp]
abbrev icmp_checksum_off : Nat := 36

/-- The value of `sizeof(struct icmp_header_t)`. -/
@[simp]
abbrev sizeof_icmp_header_t : Nat := 98

/-- Lines 112-127 of `icmp_echo_reply`: the buffer after the addresses are
swapped, `code` and `type` are set and the checksum field is cleared.  The
source assigns `ICMP_TYPE_ECHO_REPLY` to `code` and `ICMP_CODE_ECHO_REPLY` to
`type`. -/
def icmp_echo_reply_fields (cfg : host_config) (packet : Buffer) : Buffer :=
  let p1 := store_mac packet mac_dest_addr_off (load_mac packet mac_src_addr_off)
  let p2 := store_mac p1 mac_src_addr_off cfg.mac_host_addr
  let p3 := store_ip p2 ip_dest_addr_off (load_ip p2 ip_src_addr_off)
  let p4 := store_ip p3 ip_src_addr_off cfg.ip_host_addr
  let p5 := store_u8 p4 icmp_code_off ICMP_TYPE_ECHO_REPLY
  let p6 := store_u8 p5 icmp_type_off ICMP_CODE_ECHO_REPLY
  store_u16 p6 icmp_checksum_off 0

/-- The function `icmp_echo_reply`; `none` when the call does not return.
The argument `length` is not used by the source; the checksum is taken over
`ICMP_DEFAULT_HEADER_LENGTH + 56` octets and `sizeof(struct icmp_header_t)`
is returned. -/
def icmp_echo_reply (cfg : host_config) (_length : Nat) (packet : Buffer) :
    Option (Nat × Buffer) :=
  match icmp_checksum (ICMP_DEFAULT_HEADER_LENGTH + 56)
      (buffer_at (icmp_echo_reply_fields cfg packet)
        (MAC_DEFAULT_HEADER_LENGTH + IP_DEFAULT_HEADER_LENGTH)) with
  | none => none
  | some checksum =>
    some (sizeof_icmp_header_t,
      store_u16 (icmp_echo_reply_fields cfg packet) icmp_checksum_off (htons checksum))

/-- The function `icmp_decode`; `none` when the call does not return.  The
components of the value are the length returned and the packet buffer after
the call. -/
def icmp_decode (cfg : host_config) (length : Nat) (packet : Buffer) : Option (Nat × Buffer) :=
  if length < sizeof_icmp_header_t then some (0, packet)
  else if packet icmp_type_off = ICMP_TYPE_ECHO_REQUEST then
    if packet icmp_code_off = 0 then icmp_echo_reply cfg length packet
    else some (0, packet)
  else some (0, packet)

/-! ## UDP port bindings (`udp.c`) -/

/-- The loop
`for(; (id < UDP_MAX_BINDINGS) && (udp_bindings[id] != NULL); id++)` of
`udp_bind`, entered at `id` with `fuel` iterations left.  A slot whose block was
passed to `free` still holds a pointer that is not `NULL`. -/
def udp_bind_lookup (udp_bindings : Fin UDP_MAX_BINDINGS → udp_slot) : Nat → Nat → Nat
  | 0, id => id
  | fuel + 1, id =>
    if h : id < UDP_MAX_BINDINGS then
      match udp_bindings ⟨id, h⟩ with
      | .null => id
      | .live _ => udp_bind_lookup udp_bindings fuel (id + 1)
      | .freed _ => udp_bind_lookup udp_bindings fuel (id + 1)
    else id

/-- The function `udp_bind`.  `allocated` tells whether `calloc` returned a
block.  The components of the value are the `bool` returned and the table
after the call. -/
def udp_bind (udp_bindings : Fin UDP_MAX_BINDINGS → udp_slot) (allocated : Bool)
    (port : Nat) (callback : udp_inbound_t) : Bool × (Fin UDP_MAX_BINDINGS → udp_slot) :=
  let id := udp_bind_lookup udp_bindings UDP_MAX_BINDINGS 0
  if h : id < UDP_MAX_BINDINGS then
    if allocated then
      (true, Function.update udp_bindings ⟨id, h⟩ (.live { port := port, callback := callback }))
    else (false, Function.update udp_bindings ⟨id, h⟩ .null)
  else (false, udp_bindings)

/-- The function `udp_unbind`.  Its loop is the loop of `udp_decode` with the
argument `port` in the place of the destination port.  `free(udp_bindings[id])`
ends the life of the block and leaves the pointer in the slot as it is. -/
def udp_unbind (udp_bindings : Fin UDP_MAX_BINDINGS → udp_slot) (port : Nat) :
    Except c_fault (Bool × (Fin UDP_MAX_BINDINGS → udp_slot)) :=
  match udp_decode_lookup udp_bindings port UDP_MAX_BINDINGS 0 with
  | .error fault => .error fault
  | .ok id =>
    if h : id < UDP_MAX_BINDINGS then
      match udp_bindings ⟨id, h⟩ with
      | .null => .ok (true, udp_bindings)
      | .live binding => .ok (true, Function.update udp_bindings ⟨id, h⟩ (.freed binding))
      | .freed _ => .error .use_after_free
    else .ok (false, udp_bindings)

/-- A call of the binding interface of `udp.c`. -/
inductive udp_call where
  | bind (allocated : Bool) (port : Nat) (callback : udp_inbound_t)
  | unbind (port : Nat)

/-- The table after one call; `none` when the call has no defined result. -/
def udp_step (udp_bindings : Fin UDP_MAX_BINDINGS → udp_slot) :
    udp_call → Option (Fin UDP_MAX_BINDINGS → udp_slot)
  | .bind allocated port callback => some (udp_bind udp_bindings allocated port callback).2
  | .unbind port =>
    match udp_unbind udp_bindings port with
    | .error _ => none
    | .ok r => some r.2

/-- The table after a sequence of calls, each of which returns. -/
def udp_run (udp_bindings : Fin UDP_MAX_BINDINGS → udp_slot) :
    List udp_call → Option (Fin UDP_MAX_BINDINGS → udp_slot)
  | [] => some udp_bindings
  | call :: calls =>
    match udp_step udp_bindings call with
    | none => none
    | some t => udp_run t calls

/-- What can be observed of a slot without a call of its callback: whether
the pointer is `NULL`, whether its block is live, and the port stored in the
block. -/
inductive slot_view where
  | null
  | live (port : Nat)
  | freed (port : Nat)
deriving DecidableEq

/-- The view of a slot. -/
def udp_slot.view : udp_slot → slot_view
  | .null => .null
  | .live binding => .live binding.port
  | .freed binding => .freed binding.port

/-- The number of slots that hold `NULL`, the slots `udp_bind` can fill. -/
def udp_free_slots (udp_bindings : Fin UDP_MAX_BINDINGS → udp_slot) : Nat :=
  ((List.finRange UDP_MAX_BINDINGS).filter fun i =>
    match udp_bindings i with
    | .null => true
    | _ => false).length

/-! ## TCP port bindings and `tcp_decode` (`tcp.h`, `tcp.c`)

`tcp_header_t`: `ip` 0, `src_port` 34, `dest_port` 36, `seq_no` 38, `ack_no`
42, `offset` 46, `flags` 47, `window` 48, `checksum` 50, `urgent` 52
(54 bytes). -/

/-- The constant `TCP_MAX_BINDINGS`. -/
abbrev TCP_MAX_BINDINGS : Nat := 10

/-- Offset of `tcp_header_t.dest_port`. -/
@[simp]
abbrev tcp_dest_port_off : Nat := 36

/-- The value of `sizeof(struct tcp_header_t)`. -/
@[simp]
abbrev sizeof_tcp_header_t : Nat := 54

/-- The type `tcp_inbound_t`, as `udp_inbound_t`. -/
abbrev tcp_inbound_t := Buffer → Nat → Nat × Buffer

/-- The structure `tcp_bind_t`.  The member `sessions` is `NULL` in every
block `tcp_bind` fills (`calloc` zeroes it) and is read nowhere. -/
structure tcp_bind_t where
  port : Nat
  callback : tcp_inbound_t

/-- What an element of `tcp_bindings` holds: `NULL`, a pointer to an allocated
`tcp_bind_t`, or a pointer to a `tcp_bind_t` that was passed to `free`. -/
inductive tcp_slot where
  | null
  | live (binding : tcp_bind_t)
  | freed (binding : tcp_bind_t)

/-- The loop
`for(; (id < TCP_MAX_BINDINGS) && (tcp_bindings[id] == NULL); id++)` of
`tcp_bind`, entered at `id` with `fuel` iterations left: it goes on while the
slot holds `NULL`. -/
def tcp_bind_lookup (tcp_bindings : Fin TCP_MAX_BINDINGS → tcp_slot) : Nat → Nat → Nat
  | 0, id => id
  | fuel + 1, id =>
    if h : id < TCP_MAX_BINDINGS then
      match tcp_bindings ⟨id, h⟩ with
      | .null => tcp_bind_lookup tcp_bindings fuel (id + 1)
      | .live _ => id
      | .freed _ => id
    else id

/-- The function `tcp_bind`.  `allocated` tells whether `calloc` returned a
block.  The components of the value are the `bool` returned and the table
after the call; the last statement of the source is `return false`. -/
def tcp_bind (tcp_bindings : Fin TCP_MAX_BINDINGS → tcp_slot) (allocated : Bool)
    (port : Nat) (callback : tcp_inbound_t) : Bool × (Fin TCP_MAX_BINDINGS → tcp_slot) :=
  let id := tcp_bind_lookup tcp_bindings TCP_MAX_BINDINGS 0
  if h : id < TCP_MAX_BINDINGS then
    if allocated then
      (false, Function.update tcp_bindings ⟨id, h⟩ (.live { port := port, callback := callback }))
    else (false, Function.update tcp_bindings ⟨id, h⟩ .null)
  else (false, tcp_bindings)

/-- What can be observed of a slot of `tcp_bindings` without a call of its
callback. -/
def tcp_slot.view : tcp_slot → slot_view
  | .null => .null
  | .live binding => .live binding.port
  | .freed binding => .freed binding.port

/-- The loop
`for(; (id < TCP_MAX_BINDINGS) && (tcp_bindings[id]->port != port); id++)` of
`tcp_decode`, entered at `id` with `fuel` iterations left. -/
def tcp_decode_lookup (tcp_bindings : Fin TCP_MAX_BINDINGS → tcp_slot) (port : Nat) :
    Nat → Nat → Except c_fault Nat
  | 0, id => .ok id
  | fuel + 1, id =>
    if h : id < TCP_MAX_BINDINGS then
      match tcp_bindings ⟨id, h⟩ with
      | .null => .error .null_dereference
      | .freed _ => .error .use_after_free
      | .live binding =>
        if binding.port ≠ port then tcp_decode_lookup tcp_bindings port fuel (id + 1)
        else .ok id
    else .ok id

/-- The function `tcp_decode`: the value returned.  The packet buffer is not
written; after the lookup both paths return 0. -/
def tcp_decode (tcp_bindings : Fin TCP_MAX_BINDINGS → tcp_slot) (length : Nat)
    (packet : Buffer) : Except c_fault Nat :=
  if length < sizeof_tcp_header_t then .ok 0
  else
    match tcp_decode_lookup tcp_bindings (htons (load_u16 packet tcp_dest_port_off))
        TCP_MAX_BINDINGS 0 with
    | .error fault => .error fault
    | .ok id => if id = TCP_MAX_BINDINGS then .ok 0 else .ok 0

/-! ## The demultiplexer (`net.c`) -/

/-- The constant `IP_PROTOCOL_ICMP`. -/
def IP_PROTOCOL_ICMP : Nat := 1

/-- The constant `IP_PROTOCOL_TCP`. -/
def IP_PROTOCOL_TCP : Nat := 6

/-- Offset of `ip_header_t.protocol`. -/
@[simp]
abbrev ip_protocol_off : Nat := 23

/-- The value of `sizeof(struct mac_header_t)`. -/
@[simp]
abbrev sizeof_mac_header_t : Nat := 14

/-- The value of `sizeof(struct ip_header_t)`. -/
@[simp]
abbrev sizeof_ip_header_t : Nat := 34

/-- The state the decoders work on: the static variables of `arp.c`, `udp.c`
and `tcp.c`. -/
structure net_state where
  arp : arp_state
  udp_bindings : Fin UDP_MAX_BINDINGS → udp_slot
  tcp_bindings : Fin TCP_MAX_BINDINGS → tcp_slot

/-- The function `net_decode`.  The components of the value are the length
returned, the state and the packet buffer after the call; a `switch` without
a matching `case` falls to the final `return 0`. -/
def net_decode (cfg : host_config) (s : net_state) (length : Nat) (packet : Buffer) :
    Except c_fault (Nat × net_state × Buffer) :=
  if length < sizeof_mac_header_t then .ok (0, s, packet)
  else if htons (load_u16 packet mac_type_off) = MAC_TYPE_ARP then
    .ok ((arp_decode cfg s.arp length packet).1,
         { s with arp := (arp_decode cfg s.arp length packet).2.1 },
         (arp_decode cfg s.arp length packet).2.2)
  else if htons (load_u16 packet mac_type_off) = MAC_TYPE_IP4 then
    if length < sizeof_ip_header_t then .ok (0, s, packet)
    else if (packet ip_protocol_off).val = IP_PROTOCOL_ICMP then
      match icmp_decode cfg length packet with
      | none => .error .no_return
      | some r => .ok (r.1, s, r.2)
    else if (packet ip_protocol_off).val = IP_PROTOCOL_UDP then
      match udp_decode s.udp_bindings length packet with
      | .error fault => .error fault
      | .ok r => .ok (r.value, s, r.packet)
    else if (packet ip_protocol_off).val = IP_PROTOCOL_TCP then
      match tcp_decode s.tcp_bindings length packet with
      | .error fault => .error fault
      | .ok value => .ok (value, s, packet)
    else .ok (0, s, packet)
  else .ok (0, s, packet)

/-! ## Runs of the binding interface -/

/-- No two slots with a live binding hold the same port. -/
def udp_unique (udp_bindings : Fin UDP_MAX_BINDINGS → udp_slot) : Prop :=
  ∀ (i j : Fin UDP_MAX_BINDINGS) (port : Nat),
    (udp_bindings i).view = .live port → (udp_bindings j).view = .live port → i = j

/-- Whether every `udp_bind` of the sequence, run from the given table, is
called for a port that no live binding holds at the time of the call. -/
def udp_calls_fresh (udp_bindings : Fin UDP_MAX_BINDINGS → udp_slot) : List udp_call → Bool
  | [] => true
  | call :: calls =>
    (match call with
     | .bind _ port _ =>
       decide (∀ i : Fin UDP_MAX_BINDINGS, (udp_bindings i).view ≠ .live port)
     | .unbind _ => true) &&
    (match udp_step udp_bindings call with
     | none => true
     | some t => udp_calls_fresh t calls)

/-- The views of the ten slots of a table, in slot order. -/
def udp_table_view (udp_bindings : Fin UDP_MAX_BINDINGS → udp_slot) : List slot_view :=
  List.ofFn fun i => (udp_bindings i).view

/-- The views of the ten slots of `tcp_bindings`, in slot order. -/
def tcp_table_view (tcp_bindings : Fin TCP_MAX_BINDINGS → tcp_slot) : List slot_view :=
  List.ofFn fun i => (tcp_bindings i).view

/-! ## Timers (`lib/clock.h`, `lib/timer.h`, `lib/timer.c`)

The `timer_t` blocks live on the heap and are linked through `prev` and
`next`; `timer_table` points to the first block.  A pointer is the address of
the block, 0 for `NULL`.  A read or write through `NULL` or through a pointer
to a block that is not live (never allocated, or passed to `free`) is a
fault.  Each loop that follows `next` pointers has a bound `fuel` on its
iterations; `no_return` is a loop that has not ended within the bound. -/

/-- The type `timer_callback_t`: a pointer to a function, compared by
address.  What a call of the function does is given by the argument `run` of
`timer_periodic`. -/
abbrev timer_callback_t := Nat

/-- The structure `timer_t`; `start` and `interval` are `clock_timestamp_t`
(`uint32_t`). -/
structure timer_t where
  start : Nat
  interval : Nat
  callback : timer_callback_t
  prev : Nat
  next : Nat
deriving DecidableEq

/-- The live `timer_t` blocks by address, and the static variable
`timer_table`. -/
structure timer_state where
  heap : Nat → Option timer_t
  timer_table : Nat

/-- A read of the block `timer` points to. -/
def timer_read (s : timer_state) (timer : Nat) : Except c_fault timer_t :=
  if timer = 0 then .error .null_dereference
  else
    match s.heap timer with
    | none => .error .use_after_free
    | some t => .ok t

/-- The state with the block at `timer` replaced. -/
def timer_write (s : timer_state) (timer : Nat) (t : timer_t) : timer_state :=
  { s with heap := Function.update s.heap timer (some t) }

/-- The assignment `timer->next = next`. -/
def timer_set_next (s : timer_state) (timer next : Nat) : Except c_fault timer_state :=
  match timer_read s timer with
  | .error fault => .error fault
  | .ok t => .ok (timer_write s timer { t with next := next })

/-- The assignment `timer->prev = prev`. -/
def timer_set_prev (s : timer_state) (timer prev : Nat) : Except c_fault timer_state :=
  match timer_read s timer with
  | .error fault => .error fault
  | .ok t => .ok (timer_write s timer { t with prev := prev })

/-- The assignment `timer->start = start`. -/
def timer_set_start (s : timer_state) (timer start : Nat) : Except c_fault timer_state :=
  match timer_read s timer with
  | .error fault => .error fault
  | .ok t => .ok (timer_write s timer { t with start := start })

/-- The loop of `timer_get`, entered with `timer` and `fuel` iterations
left. -/
def timer_get_loop (s : timer_state) (callback : timer_callback_t) :
    Nat → Nat → Except c_fault Nat
  | 0, _ => .error .no_return
  | fuel + 1, timer =>
    if timer = 0 then .ok 0
    else
      match timer_read s timer with
      | .error fault => .error fault
      | .ok t =>
        if t.callback = callback then .ok timer
        else timer_get_loop s callback fuel t.next

/-- The function `timer_get`: the pointer returned, 0 for `NULL`. -/
def timer_get (fuel : Nat) (s : timer_state) (callback : timer_callback_t) :
    Except c_fault Nat :=
  timer_get_loop s callback fuel s.timer_table

/-- The statements that take the block `timer` out of the list and free it,
in `timer_clear` (lines 81-90) and again in `timer_periodic` (lines
167-176):
`if (timer->prev != NULL) timer->prev->next = timer->next;`
`if (timer->next != NULL) timer->next->prev = timer->prev;`
`if (timer == timer_table) timer_table = timer->next;`
`free (timer);`. -/
def timer_unlink (s : timer_state) (timer : Nat) : Except c_fault timer_state :=
  match timer_read s timer with
  | .error fault => .error fault
  | .ok t =>
    match (if t.prev ≠ 0 then timer_set_next s t.prev t.next else .ok s) with
    | .error fault => .error fault
    | .ok s1 =>
      match timer_read s1 timer with
      | .error fault => .error fault
      | .ok t1 =>
        match (if t1.next ≠ 0 then timer_set_prev s1 t1.next t1.prev else .ok s1) with
        | .error fault => .error fault
        | .ok s2 =>
          match timer_read s2 timer with
          | .error fault => .error fault
          | .ok t2 =>
            .ok { heap := Function.update s2.heap timer none,
                  timer_table := if timer = s2.timer_table then t2.next else s2.timer_table }

/-- The function `timer_clear`. -/
def timer_clear (fuel : Nat) (s : timer_state) (callback : timer_callback_t) :
    Except c_fault timer_state :=
  match timer_get fuel s callback with
  | .error fault => .error fault
  | .ok timer => if timer = 0 then .ok s else timer_unlink s timer

/-- The function `timer_set` called when `clock_time ()` is `now`; `timer` is
the pointer `calloc` returns, 0 when it fails.  The source writes through the
pointer without a test. -/
def timer_set (fuel : Nat) (s : timer_state) (timer : Nat) (now : Nat)
    (callback : timer_callback_t) (interval : Nat) : Except c_fault timer_state :=
  match timer_clear fuel s callback with
  | .error fault => .error fault
  | .ok s1 =>
    if timer = 0 then .error .null_dereference
    else
      let s2 := timer_write s1 timer
        { start := now, interval := interval, callback := callback, prev := 0, next := 0 }
      if s2.timer_table = 0 then .ok { s2 with timer_table := timer }
      else
        match timer_set_prev s2 s2.timer_table timer with
        | .error fault => .error fault
        | .ok s3 =>
          match timer_set_next s3 timer s3.timer_table with
          | .error fault => .error fault
          | .ok s4 => .ok { s4 with timer_table := timer }

/-- The function `timer_reset`: `timer->start += timer->interval` on
`uint32_t`. -/
def timer_reset (fuel : Nat) (s : timer_state) (callback : timer_callback_t) :
    Except c_fault timer_state :=
  match timer_get fuel s callback with
  | .error fault => .error fault
  | .ok timer =>
    if timer = 0 then .ok s
    else
      match timer_read s timer with
      | .error fault => .error fault
      | .ok t => timer_set_start s timer (to_uint32 ((t.start : Int) + (t.interval : Int)))

/-- The function `timer_restart` called when `clock_time ()` is `now`. -/
def timer_restart (fuel : Nat) (s : timer_state) (now : Nat) (callback : timer_callback_t) :
    Except c_fault timer_state :=
  match timer_get fuel s callback with
  | .error fault => .error fault
  | .ok timer => if timer = 0 then .ok s else timer_set_start s timer now

/-- What a call of `timer_periodic` leaves: the timer state, the state the
callbacks work on, and the calls made, in order, each with the value the
callback returned. -/
structure timer_sweep (W : Type) where
  state : timer_state
  world : W
  calls : List (timer_callback_t × Bool)

/-- What a call of a callback does: it may fault, or it returns a `bool` and
leaves a timer state and a state of its own. -/
abbrev timer_run_t (W : Type) :=
  timer_callback_t → timer_state → W → Except c_fault (Bool × timer_state × W)

/-- The result of the rest of a sweep, with one more call at the front of
its log. -/
def timer_logged {W : Type} (call : timer_callback_t × Bool) :
    Except c_fault (timer_sweep W) → Except c_fault (timer_sweep W)
  | .error fault => .error fault
  | .ok r => .ok { r with calls := call :: r.calls }

/-- The loop of `timer_periodic` while `clock_time ()` is `now`, entered with
`timer` and `fuel` iterations left.  `timer_next` is read before the callback
is called; the test `(clock_time () - timer->start) < timer->interval` is
made on `uint32_t`. -/
def timer_periodic_loop {W : Type} (run : timer_run_t W) (now : Nat) :
    Nat → Nat → timer_state → W → Except c_fault (timer_sweep W)
  | 0, _, _, _ => .error .no_return
  | fuel + 1, timer, s, world =>
    if timer = 0 then .ok { state := s, world := world, calls := [] }
    else
      match timer_read s timer with
      | .error fault => .error fault
      | .ok t =>
        if to_uint32 ((now : Int) - (t.start : Int)) < t.interval then
          timer_periodic_loop run now fuel t.next s world
        else
          match run t.callback s world with
          | .error fault => .error fault
          | .ok r =>
            if !r.1 then
              match timer_unlink r.2.1 timer with
              | .error fault => .error fault
              | .ok s2 =>
                timer_logged (t.callback, false)
                  (timer_periodic_loop run now fuel t.next s2 r.2.2)
            else
              match timer_read r.2.1 timer with
              | .error fault => .error fault
              | .ok t1 =>
                match timer_set_start r.2.1 timer
                    (to_uint32 ((t1.start : Int) + (t1.interval : Int))) with
                | .error fault => .error fault
                | .ok s2 =>
                  timer_logged (t.callback, true)
                    (timer_periodic_loop run now fuel t.next s2 r.2.2)

/-- The function `timer_periodic`. -/
def timer_periodic {W : Type} (fuel : Nat) (run : timer_run_t W) (now : Nat)
    (s : timer_state) (world : W) : Except c_fault (timer_sweep W) :=
  timer_periodic_loop run now fuel s.timer_table s world

/-- Callbacks that do not touch the timers: `run callback world` is the
value returned and the state the callback leaves. -/
def timer_callbacks {W : Type} (run : timer_callback_t → W → Bool × W) : timer_run_t W :=
  fun callback s world => .ok ((run callback world).1, s, (run callback world).2)

/-! ### The timer list of a state -/

/-- The members `start`, `interval` and `callback` of a timer. -/
structure timer_entry where
  start : Nat
  interval : Nat
  callback : timer_callback_t
deriving DecidableEq

/-- The members `start`, `interval` and `callback` of a block. -/
def timer_t.entry (t : timer_t) : timer_entry :=
  { start := t.start, interval := t.interval, callback := t.callback }

/-- The blocks from the pointer `p` on, followed through `next` to `NULL`,
are live, have the listed addresses and members, and each `prev` points to
the block before, `q` for the first. -/
def timer_chain (heap : Nat → Option timer_t) : Nat → Nat → List (Nat × timer_entry) → Prop
  | _, p, [] => p = 0
  | q, p, x :: rest =>
    p = x.1 ∧ x.1 ≠ 0 ∧
      ∃ t, heap x.1 = some t ∧ t.entry = x.2 ∧ t.prev = q ∧ timer_chain heap x.1 t.next rest

/-- The timer list of a state: the blocks reached from `timer_table`, with
their addresses and members, form a well-linked list without a repeated
block. -/
def timer_list (s : timer_state) (l : List (Nat × timer_entry)) : Prop :=
  timer_chain s.heap 0 s.timer_table l ∧ (l.map Prod.fst).Nodup

/-- The heap after the block `t` at `timer` is taken out of its list and
freed: the neighbours point to each other. -/
def timer_heap_unlink (heap : Nat → Option timer_t) (timer : Nat) (t : timer_t) :
    Nat → Option timer_t :=
  fun b =>
    if b = timer then none
    else if t.next ≠ 0 ∧ b = t.next then (heap b).map fun n => { n with prev := t.prev }
    else if t.prev ≠ 0 ∧ b = t.prev then (heap b).map fun p => { p with next := t.next }
    else heap b

/-- The list with the first element that has the property replaced by its
image under `f`. -/
def list_update_first {α : Type} (p : α → Bool) (f : α → α) : List α → List α
  | [] => []
  | x :: rest => if p x then f x :: rest else x :: list_update_first p f rest

/-- A timer of the list with `start` replaced. -/
def timer_with_start (x : Nat × timer_entry) (start : Nat) : Nat × timer_entry :=
  (x.1, { x.2 with start := start })

/-- A timer of the list after `timer->start += timer->interval`. -/
def timer_advanced (x : Nat × timer_entry) : Nat × timer_entry :=
  timer_with_start x (to_uint32 ((x.2.start : Int) + (x.2.interval : Int)))

/-- What a sweep leaves of a timer, by the outcome of the sweep for it:
`none` when its callback was not called, `some b` when it was called and
returned `b`. -/
def timer_after (x : (Nat × timer_entry) × Option Bool) : Option (Nat × timer_entry) :=
  match x.2 with
  | none => some x.1
  | some true => some (timer_advanced x.1)
  | some false => none

/-- Whether `timer_periodic` run at `now` finds the timer due:
`(now - start) mod 2^32 >= interval`. -/
def timer_due (now : Nat) (x : Nat × timer_entry) : Bool :=
  decide (x.2.interval ≤ to_uint32 ((now : Int) - (x.2.start : Int)))

/-- The sweep of the specification over the timers `l` with callbacks that
work on a state of their own: the timers are visited in list order; the
callback of a timer that is due is called once, on the state the calls before
it left, and a timer that is not due is passed over.  The value is the
outcome per timer (`none` when the callback is not called, `some b` when it
is called and returns `b`) and the state the callbacks leave. -/
def timer_sweep_outcomes {W : Type} (run : timer_callback_t → W → Bool × W) (now : Nat) :
    List (Nat × timer_entry) → W → List (Option Bool) × W
  | [], world => ([], world)
  | x :: rest, world =>
    if timer_due now x then
      (some (run x.2.callback world).1 ::
          (timer_sweep_outcomes run now rest (run x.2.callback world).2).1,
        (timer_sweep_outcomes run now rest (run x.2.callback world).2).2)
    else
      (none :: (timer_sweep_outcomes run now rest world).1,
        (timer_sweep_outcomes run now rest world).2)

/-! ### Runs of the timer module -/

/-- The timer state at program start: `timer_table` is `NULL` and no block
is allocated. -/
def timer_boot : timer_state := { heap := fun _ => none, timer_table := 0 }

/-- A call of the interface of `timer.c`, with the value of `clock_time ()`
during the call where the function reads it and, for `timer_set`, the pointer
`calloc` returns. -/
inductive timer_call where
  | set (timer : Nat) (now : Nat) (callback : timer_callback_t) (interval : Nat)
  | clear (callback : timer_callback_t)
  | reset (callback : timer_callback_t)
  | restart (now : Nat) (callback : timer_callback_t)
  | get (callback : timer_callback_t)
  | periodic (now : Nat)

/-- What one call of the interface leaves. -/
def timer_step {W : Type} (fuel : Nat) (run : timer_run_t W) (s : timer_state) (world : W) :
    timer_call → Except c_fault (timer_sweep W)
  | .set timer now callback interval =>
    match timer_set fuel s timer now callback interval with
    | .error fault => .error fault
    | .ok s2 => .ok { state := s2, world := world, calls := [] }
  | .clear callback =>
    match timer_clear fuel s callback with
    | .error fault => .error fault
    | .ok s2 => .ok { state := s2, world := world, calls := [] }
  | .reset callback =>
    match timer_reset fuel s callback with
    | .error fault => .error fault
    | .ok s2 => .ok { state := s2, world := world, calls := [] }
  | .restart now callback =>
    match timer_restart fuel s now callback with
    | .error fault => .error fault
    | .ok s2 => .ok { state := s2, world := world, calls := [] }
  | .get callback =>
    match timer_get fuel s callback with
    | .error fault => .error fault
    | .ok _ => .ok { state := s, world := world, calls := [] }
  | .periodic now => timer_periodic fuel run now s world

/-- Whether `timer` can be what `calloc` returns in `timer_set (callback, _)`
called in the state `s`: `NULL`, or the address of a block that is not live
after the `timer_clear (callback)` that comes first. -/
def timer_calloc (fuel : Nat) (s : timer_state) (callback : timer_callback_t) (timer : Nat) :
    Bool :=
  timer == 0 ||
    match timer_clear fuel s callback with
    | .error _ => true
    | .ok s1 => (s1.heap timer).isNone

/-- The timer state and the state of the callbacks after a sequence of
calls; `none` when a call does not return or when a pointer given for
`calloc` is not one `calloc` can return. -/
def timer_run {W : Type} (fuel : Nat) (run : timer_run_t W) :
    timer_state → W → List timer_call → Option (timer_state × W)
  | s, world, [] => some (s, world)
  | s, world, call :: calls =>
    if (match call with
        | .set timer _ callback _ => timer_calloc fuel s callback timer
        | _ => true) then
      match timer_step fuel run s world call with
      | .error _ => none
      | .ok r => timer_run fuel run r.state r.world calls
    else none

/-- At most one timer of the list per callback. -/
def timer_unique (l : List (Nat × timer_entry)) : Prop :=
  (l.map fun x => x.2.callback).Nodup

/-! ## Byte order of 32-bit values (`net/util.c`) -/

/-- The function `htonl` of `util.c` on a `uint32_t`:
`((x & 0xff000000) >> 24) | ((x & 0x00ff0000) >> 8) | ((x & 0x0000ff00) << 8) | ((x & 0x000000ff) << 24)`.
The shifts to the left are made on `uint32_t`, modulo 2^32. -/
def htonl (hostlong : Nat) : Nat :=
  ((((hostlong &&& 0xff000000) >>> 24) ||| ((hostlong &&& 0x00ff0000) >>> 8)) |||
      (((hostlong &&& 0x0000ff00) <<< 8) % 4294967296)) |||
    (((hostlong &&& 0x000000ff) <<< 24) % 4294967296)

/-! ## The clock (`lib/clock.h`, `lib/clock.c`) -/

/-- The static variables of `clock.c`: `timestamp`, a `clock_timestamp_t`
(`uint32_t`) that counts seconds, and `microtime`, a `clock_microtime_t`
(`uint16_t`) that counts the milliseconds of the current second. -/
structure clock_state where
  timestamp : Nat
  microtime : Nat
deriving DecidableEq

/-- The function `clock_tick`: `microtime++` on `uint16_t`, and when
`microtime == 1000` then `microtime = 0` and `timestamp++` on `uint32_t`. -/
def clock_tick (s : clock_state) : clock_state :=
  let s1 : clock_state := { s with microtime := (s.microtime + 1) % 65536 }
  if s1.microtime = 1000 then
    { timestamp := (s1.timestamp + 1) % 4294967296, microtime := 0 }
  else s1

/-- The function `clock_set_time` with the `clock_timestamp_t` argument
`time`. -/
def clock_set_time (_s : clock_state) (time : Nat) : clock_state :=
  { timestamp := time, microtime := 0 }

/-- The state after `ticks` consecutive calls of `clock_tick`. -/
def clock_ticks : Nat → clock_state → clock_state
  | 0, s => s
  | ticks + 1, s => clock_ticks ticks (clock_tick s)

/-! ## Dates (`lib/date.h`, `lib/date.c`)

`timestamp_t` is `clock_timestamp_t`, a `uint32_t`.  The two loops of
`time_decode` have a bound `fuel` on their iterations; `none` is a loop that
has not ended within the bound, or a read outside `_month_tab`. -/

/-- The structure `datetime_t`: `sec`, `min`, `hour`, `day_of_week`,
`day_of_month` and `month` are `uint8_t`, `day_of_year` and `year` are
`uint16_t`. -/
structure datetime_t where
  sec : Nat
  min : Nat
  hour : Nat
  day_of_week : Nat
  day_of_month : Nat
  day_of_year : Nat
  month : Nat
  year : Nat
  daylight_saving : Bool
deriving DecidableEq

/-- The table `_month_tab[2][12]`. -/
def _month_tab : List (List Nat) :=
  [[31, 28, 31, 30, 31, 30, 31, 31, 30, 31, 30, 31],
   [31, 29, 31, 30, 31, 30, 31, 31, 30, 31, 30, 31]]

/-- The function `year_is_leap`:
`!(year % 4) && ((year % 100) || !(year % 400))`. -/
def year_is_leap (year : Nat) : Bool :=
  (!(year % 4 != 0)) && ((year % 100 != 0) || !(year % 400 != 0))

/-- The function `year_day_count`. -/
def year_day_count (year : Nat) : Nat :=
  if year_is_leap year then 366 else 365

/-- The function `month_day_count`: the byte
`_month_tab[year_is_leap(year)][month]`, `none` when `month` is outside the
row. -/
def month_day_count (year month : Nat) : Option Nat :=
  (_month_tab.getD (if year_is_leap year then 1 else 0) [])[month]?

/-- The loop `while(date >= (uint32_t) year_day_count(year)) { date -=
year_day_count(year++); }` of `time_decode`, entered with `date` and `year`
and `fuel` iterations left; `year` is a `uint16_t`.  The value is `date` and
`year` after the loop. -/
def time_decode_years : Nat → Nat → Nat → Option (Nat × Nat)
  | 0, _, _ => none
  | fuel + 1, date, year =>
    if date ≥ year_day_count year then
      time_decode_years fuel (date - year_day_count year) ((year + 1) % 65536)
    else some (date, year)

/-- The loop `while(date >= (uint32_t) month_day_count(year, datetime->month))
{ date -= month_day_count(year, datetime->month++); }` of `time_decode`,
entered with `date` and `month` and `fuel` iterations left; `month` is a
`uint8_t`.  The value is `date` and `month` after the loop. -/
def time_decode_months (year : Nat) : Nat → Nat → Nat → Option (Nat × Nat)
  | 0, _, _ => none
  | fuel + 1, date, month =>
    match month_day_count year month with
    | none => none
    | some days =>
      if date ≥ days then time_decode_months year fuel (date - days) ((month + 1) % 256)
      else some (date, month)

/-- The function `time_decode`: the structure it fills for the `uint32_t`
value `timestamp`.  The assignments to the members convert to `uint8_t` and
`uint16_t`, and `year - 1900` is computed on `uint16_t`. -/
def time_decode (fuel : Nat) (timestamp : Nat) : Option datetime_t :=
  let time := timestamp % 86400
  let date := timestamp / 86400
  match time_decode_years fuel date 1970 with
  | none => none
  | some (date1, year) =>
    match time_decode_months year fuel date1 0 with
    | none => none
    | some (date2, month) =>
      some
        { sec := time % 60 % 256,
          min := time % 3600 / 60 % 256,
          hour := time / 3600 % 256,
          day_of_week := (date + 4) % 7 % 256,
          day_of_month := (date2 + 1) % 256,
          day_of_year := date1 % 65536,
          month := month,
          year := (year + 65536 - 1900) % 65536,
          daylight_saving := false }

/-! ### The Gregorian calendar of the specification -/

/-- The leap years of the Gregorian calendar: the years divisible by 4,
except those divisible by 100 and not by 400. -/
def gregorian_leap (year : Nat) : Bool :=
  decide (4 ∣ year ∧ (¬ 100 ∣ year ∨ 400 ∣ year))

/-- The number of days of a year of the Gregorian calendar. -/
def gregorian_year_length (year : Nat) : Nat :=
  if gregorian_leap year then 366 else 365

/-- The number of days of the month `month` (1 for January to 12 for
December) of a year of the Gregorian calendar. -/
def gregorian_month_length (year month : Nat) : Nat :=
  if month = 2 then (if gregorian_leap year then 29 else 28)
  else if month = 4 ∨ month = 6 ∨ month = 9 ∨ month = 11 then 30
  else 31

/-- The number of days from 1970-01-01 to the first of January of the year
`1970 + n`: the lengths of the years between. -/
def gregorian_days_to_year : Nat → Nat
  | 0 => 0
  | n + 1 => gregorian_days_to_year n + gregorian_year_length (1970 + n)

/-- The number of days from the first of January of `year` to the first day
of the month that follows its first `months` months. -/
def gregorian_days_to_month (year : Nat) : Nat → Nat
  | 0 => 0
  | months + 1 => gregorian_days_to_month year months + gregorian_month_length year (months + 1)

/-- The zero-based day within its year of the Gregorian date `year`-`month`-`day`
(`month` from 1, `day` from 1). -/
def gregorian_day_of_year (year month day : Nat) : Nat :=
  gregorian_days_to_month year (month - 1) + (day - 1)

/-- The number of days from 1970-01-01 to the Gregorian date
`year`-`month`-`day` (`year` from 1970, `month` from 1, `day` from 1). -/
def gregorian_days_from_epoch (year month day : Nat) : Nat :=
  gregorian_days_to_year (year - 1970) + gregorian_day_of_year year month day

/-! ## Concrete configurations

The scenarios of the specification: host `10.0.1.30/255.255.255.0` with the
default router `10.0.1.1`. -/

/-- The buffer that holds the listed octets from offset 0 and zero behind
them. -/
def buffer_of (bytes : List Byte) : Buffer := fun i => bytes.getD i 0

/-- The ARP state at program start: static storage is zero-initialised. -/
def arp_boot : arp_state :=
  { arp_time := 0, arp_table := fun _ => ⟨0, mac_zero_addr, ip_zero_addr⟩ }

/-- The host configuration of the scenarios. -/
def sample_host : host_config :=
  { mac_host_addr := ⟨0x02, 0x00, 0x00, 0x00, 0x00, 0x30⟩,
    ip_host_addr := ⟨10, 0, 1, 30⟩,
    ip_default_router := ⟨10, 0, 1, 1⟩,
    ip_netmask := ⟨255, 255, 255, 0⟩ }

/-- The MAC address `aa:aa:aa:aa:aa:xx`. -/
def sample_mac (x : Byte) : mac_addr_t := ⟨0xAA, 0xAA, 0xAA, 0xAA, 0xAA, x⟩

/-- The frame of scenario S2: a broadcast ARP request from
`10.0.1.50 / aa:aa:aa:aa:aa:05` for `10.0.1.30`. -/
def sample_arp_request : Buffer :=
  buffer_of [0xFF, 0xFF, 0xFF, 0xFF, 0xFF, 0xFF, 0xAA, 0xAA, 0xAA, 0xAA, 0xAA, 0x05,
    0x08, 0x06, 0x00, 0x01, 0x08, 0x00, 0x06, 0x04, 0x00, 0x01,
    0xAA, 0xAA, 0xAA, 0xAA, 0xAA, 0x05, 10, 0, 1, 50,
    0, 0, 0, 0, 0, 0, 10, 0, 1, 30]

/-- An outbound 47-byte UDP frame from the host to `dest_addr` with the
payload `hello`, as handed to `arp_encode`: the MAC addresses are not filled
in yet. -/
def sample_udp_frame (dest_addr : ip_addr_t) : Buffer :=
  buffer_of [0, 0, 0, 0, 0, 0, 0, 0, 0, 0, 0, 0, 0x08, 0x00,
    0x45, 0x00, 0x00, 0x21, 0x00, 0x01, 0x00, 0x00, 0x40, 0x11, 0x00, 0x00,
    10, 0, 1, 30, dest_addr.a0, dest_addr.a1, dest_addr.a2, dest_addr.a3,
    0x04, 0x00, 0x00, 0x07, 0x00, 0x0D, 0x00, 0x00, 0x68, 0x65, 0x6C, 0x6C, 0x6F]

/-- The state 200 aging ticks after `arp_init`, nothing learnt yet:
`arp_time` is 200. -/
def arp_late_state : arp_state := arp_flush_times 200 (arp_init arp_boot)

/-- The binding of `10.0.1.2` learnt at `arp_time` 200 and aged by 119 ticks:
`arp_time` has wrapped to 63. -/
def arp_wrapped_state : arp_state :=
  arp_flush_times 119 (arp_update arp_late_state ⟨10, 0, 1, 2⟩ (sample_mac 2))

/-- A full table: `10.0.1.100` learnt at `arp_time` 250, `10.0.1.101` learnt
6 ticks later at `arp_time` 0 and, 5 ticks later at `arp_time` 5,
`10.0.1.102` to `10.0.1.109`. -/
def arp_full_state : arp_state :=
  arp_run
    (arp_flush_times 5 (arp_update
      (arp_flush_times 6 (arp_update
        (arp_flush_times 250 (arp_init arp_boot)) ⟨10, 0, 1, 100⟩ (sample_mac 100)))
      ⟨10, 0, 1, 101⟩ (sample_mac 101)))
    [.update ⟨10, 0, 1, 102⟩ (sample_mac 102), .update ⟨10, 0, 1, 103⟩ (sample_mac 103),
     .update ⟨10, 0, 1, 104⟩ (sample_mac 104), .update ⟨10, 0, 1, 105⟩ (sample_mac 105),
     .update ⟨10, 0, 1, 106⟩ (sample_mac 106), .update ⟨10, 0, 1, 107⟩ (sample_mac 107),
     .update ⟨10, 0, 1, 108⟩ (sample_mac 108), .update ⟨10, 0, 1, 109⟩ (sample_mac 109)]

/-- The 20-byte IPv4 header of scenario S1 (`10.0.1.100` to `10.0.1.30`,
protocol 1, total length 84) with the checksum field zero. -/
def sample_ip_header : Buffer :=
  buffer_of [0x45, 0x00, 0x00, 0x54, 0x00, 0x01, 0x00, 0x00, 0x40, 0x01, 0x00, 0x00,
    10, 0, 1, 100, 10, 0, 1, 30]

/-- The UDP datagram of scenario S5 (source port 1024, destination port 7,
length 13, checksum field zero, payload `hello`) followed in memory by the
octet `x`. -/
def sample_udp_datagram (x : Byte) : Buffer :=
  buffer_of [0x04, 0x00, 0x00, 0x07, 0x00, 0x0D, 0x00, 0x00, 0x68, 0x65, 0x6C, 0x6C, 0x6F, x]

/-- An inbound 47-byte UDP frame from `10.0.1.100 / aa:aa:aa:aa:aa:01` to the
host, source port 1024, destination port `port`, payload `hello`, with the
UDP checksum field `checksum`. -/
def sample_udp_request (port checksum : Nat) : Buffer :=
  buffer_of [0x02, 0x00, 0x00, 0x00, 0x00, 0x30, 0xAA, 0xAA, 0xAA, 0xAA, 0xAA, 0x01, 0x08, 0x00,
    0x45, 0x00, 0x00, 0x21, 0x00, 0x01, 0x00, 0x00, 0x40, 0x11, 0x64, 0x4A,
    10, 0, 1, 100, 10, 0, 1, 30,
    0x04, 0x00, low_byte (port / 256), low_byte port, 0x00, 0x0D,
    low_byte (checksum / 256), low_byte checksum, 0x68, 0x65, 0x6C, 0x6C, 0x6F]

/-- The binding table after `udp_bind(7, echo_udp)` on the empty table. -/
def sample_udp_bindings : Fin UDP_MAX_BINDINGS → udp_slot :=
  fun i => if i = 0 then .live { port := 7, callback := echo_udp sample_host } else .null

/-- An ICMP echo request frame from `10.0.1.100 / aa:aa:aa:aa:aa:01` to the
host with identifier 1, sequence number 1 and the given payload; the IP total
length is 28 plus the payload length and both checksums are those of the
specification. -/
def sample_echo_request (payload : List Byte) : Buffer :=
  let ip_header : List Byte :=
    [0x45, 0x00, low_byte ((28 + payload.length) / 256), low_byte (28 + payload.length),
     0x00, 0x01, 0x00, 0x00, 0x40, 0x01, 0x00, 0x00, 10, 0, 1, 100, 10, 0, 1, 30]
  let icmp : List Byte := [0x08, 0x00, 0x00, 0x00, 0x00, 0x01, 0x00, 0x01] ++ payload
  let frame := buffer_of
    ([0x02, 0x00, 0x00, 0x00, 0x00, 0x30, 0xAA, 0xAA, 0xAA, 0xAA, 0xAA, 0x01, 0x08, 0x00]
      ++ ip_header ++ icmp)
  store_wire_u16
    (store_wire_u16 frame 24 (inet_checksum (buffer_of ip_header) 20))
    36 (inet_checksum (buffer_of icmp) (8 + payload.length))

/-- The state after `arp_init` and `udp_bind(7, echo_udp)`, as `main` sets it
up; no TCP port is bound. -/
def sample_net_state : net_state :=
  { arp := arp_init arp_boot, udp_bindings := sample_udp_bindings,
    tcp_bindings := fun _ => .null }

/-- A 60-byte frame to the host with the ethertype `ethertype` and the IP
protocol field `protocol`. -/
def sample_frame (ethertype : Nat) (protocol : Byte) : Buffer :=
  buffer_of [0x02, 0x00, 0x00, 0x00, 0x00, 0x30, 0xAA, 0xAA, 0xAA, 0xAA, 0xAA, 0x01,
    low_byte (ethertype / 256), low_byte ethertype,
    0x45, 0x00, 0x00, 0x2E, 0x00, 0x01, 0x00, 0x00, 0x40, protocol, 0x00, 0x00,
    10, 0, 1, 100, 10, 0, 1, 30]

/-- A received 42-byte UDP frame without payload from
`10.0.1.100 / aa:aa:aa:aa:aa:01` to port 7 of the host, with the UDP length
field `udp_length` and the checksum field `checksum`, followed in the packet
buffer by the octets `behind`, which are not part of the frame. -/
def sample_udp_header (udp_length checksum : Nat) (behind : List Byte) : Buffer :=
  buffer_of ([0x02, 0x00, 0x00, 0x00, 0x00, 0x30, 0xAA, 0xAA, 0xAA, 0xAA, 0xAA, 0x01, 0x08, 0x00,
    0x45, 0x00, 0x00, 0x1C, 0x00, 0x01, 0x00, 0x00, 0x40, 0x11, 0x64, 0x4F,
    10, 0, 1, 100, 10, 0, 1, 30,
    0x04, 0x00, 0x00, 0x07, low_byte (udp_length / 256), low_byte udp_length,
    low_byte (checksum / 256), low_byte checksum] ++ behind)

/-- The reply length and the slot whose callback was called, for a call of
`udp_decode` that returns. -/
def udp_outcome (r : Except c_fault udp_result) :
    Option (Nat × Option (Fin UDP_MAX_BINDINGS)) :=
  match r with
  | .error _ => none
  | .ok result => some (result.value, result.invoked)

/-- The table after `udp_bind(port, echo_udp)` for each port of the list in
turn, every `calloc` returning a block. -/
def udp_bind_ports (udp_bindings : Fin UDP_MAX_BINDINGS → udp_slot) :
    List Nat → Fin UDP_MAX_BINDINGS → udp_slot
  | [] => udp_bindings
  | port :: ports =>
    udp_bind_ports (udp_bind udp_bindings true port (echo_udp sample_host)).2 ports

/-- The full table: ports 1 to 10 bound in this order on the empty table. -/
def sample_full_bindings : Fin UDP_MAX_BINDINGS → udp_slot :=
  udp_bind_ports (fun _ => .null) [1, 2, 3, 4, 5, 6, 7, 8, 9, 10]

/-- The full table after `udp_unbind(1)`: the block of slot 0 was passed to
`free`, the pointer is still in the slot. -/
def sample_unbound_bindings : Fin UDP_MAX_BINDINGS → udp_slot :=
  Function.update sample_full_bindings 0
    (.freed { port := 1, callback := echo_udp sample_host })

/-- Callbacks for the scenarios: the state counts the calls made, and a
callback with an even address returns `false`, one with an odd address
`true`. -/
def sample_run : timer_callback_t → Nat → Bool × Nat :=
  fun callback world => (callback % 2 == 1, world + 1)

/-- Two timers: the block at address 2 (start 105, interval 5, callback 2) is
the first, the block at address 1 (start 100, interval 10, callback 1)
follows.  It is the state after `timer_set (1, 10)` at clock value 100 and
`timer_set (2, 5)` at clock value 105, `calloc` returning the addresses 1
and 2. -/
def sample_timers : timer_state :=
  { heap := fun a =>
      if a = 2 then some { start := 105, interval := 5, callback := 2, prev := 0, next := 1 }
      else if a = 1 then
        some { start := 100, interval := 10, callback := 1, prev := 2, next := 0 }
      else none,
    timer_table := 2 }

/-- The calls of a scenario: the timers of the callbacks 1 and 2 are set, the
sweep at clock value 111 calls both and removes the timer of 2, and a timer
for the callback 3 is set in the block `calloc` had handed out for 2. -/
def sample_timer_calls : List timer_call :=
  [.set 1 100 1 10, .set 2 105 2 5, .periodic 111, .set 2 112 3 7]

/-- The timer state after `sample_timer_calls`. -/
def sample_timer_state : timer_state :=
  ((timer_run 5 (timer_callbacks sample_run) timer_boot 0 sample_timer_calls).getD
    (timer_boot, 0)).1

/-- What is observed of a sweep that returns: the calls made, `timer_table`
and the blocks at the given addresses. -/
def timer_observe {W : Type} (addrs : List Nat) (r : Except c_fault (timer_sweep W)) :
    Option (List (timer_callback_t × Bool) × Nat × List (Option timer_t)) :=
  match r with
  | .error _ => none
  | .ok sweep => some (sweep.calls, sweep.state.timer_table, addrs.map sweep.state.heap)

/-- What a call that returns leaves; for a call that does not return, the
state at program start. -/
def timer_sweep_of {W : Type} (r : Except c_fault (timer_sweep W)) (world : W) :
    timer_sweep W :=
  match r with
  | .ok sweep => sweep
  | .error _ => { state := timer_boot, world := world, calls := [] }

/-- Callbacks that use the timer interface during the sweep: the callback
`actor` calls `timer_clear (victim)` and returns `result`; every other
callback returns `true`.  The state counts the calls made. -/
def sample_clearing_run (actor victim : timer_callback_t) (result : Bool) : timer_run_t Nat :=
  fun callback s world =>
    if callback = actor then
      match timer_clear 5 s victim with
      | .error fault => .error fault
      | .ok s1 => .ok (result, s1, world + 1)
    else .ok (true, s, world + 1)

/-- Callbacks that use the timer interface during the sweep: the callback 2
calls `timer_set (target, 7)` while `clock_time ()` is 111, `calloc`
returning `timer`, and returns `true`; every other callback returns `true`.
The state counts the calls made. -/
def sample_setting_run (timer : Nat) (target : timer_callback_t) : timer_run_t Nat :=
  fun callback s world =>
    if callback = 2 then
      match timer_set 5 s timer 111 target 7 with
      | .error fault => .error fault
      | .ok s1 => .ok (true, s1, world + 1)
    else .ok (true, s, world + 1)

/-- The fault of a call that does not return. -/
def timer_fault {W : Type} (r : Except c_fault (timer_sweep W)) : Option c_fault :=
  match r with
  | .error fault => some fault
  | .ok _ => none

/-- The host of the scenarios without a default router: `net_init` was
given `0.0.0.0` for it. -/
def sample_host_no_router : host_config :=
  { sample_host with ip_default_router := ip_zero_addr }

/-- The table in which the binding of `10.0.1.2`, learnt at `arp_time` 0,
has expired in the 120th call of `arp_flush`. -/
def arp_expired_state : arp_state :=
  arp_flush_times 120 (arp_update (arp_init arp_boot) ⟨10, 0, 1, 2⟩ (sample_mac 2))

/-- The table after `udp_bind(7, echo_udp)`, `udp_bind(9, echo_udp)` and
`udp_unbind(7)` on the empty table: the block of slot 0 was passed to `free`
and the pointer is still in the slot, slot 1 holds the binding of port 9. -/
def sample_rebound_bindings : Fin UDP_MAX_BINDINGS → udp_slot :=
  (udp_run (fun _ => .null)
    [.bind true 7 (echo_udp sample_host), .bind true 9 (echo_udp sample_host),
     .unbind 7]).getD (fun _ => .null)

/-! ## Auxiliary facts -/

theorem ip_addr_compare_iff (a b : ip_addr_t) : ip_addr_compare a b = true ↔ a = b := by
  cases a; cases b
  simp [ip_addr_compare, and_assoc]

theorem ip_addr_compare_eq_false_iff (a b : ip_addr_t) : ip_addr_compare a b = false ↔ a ≠ b := by
  rw [Ne, ← ip_addr_compare_iff]; simp

theorem nat_lor_eq_zero (a b : Nat) : a ||| b = 0 ↔ a = 0 ∧ b = 0 := by
  constructor
  · intro h
    have key : ∀ i, a.testBit i = false ∧ b.testBit i = false := by
      intro i
      have := congrArg (fun x => x.testBit i) h
      simpa [Nat.testBit_or] using this
    exact ⟨Nat.eq_of_testBit_eq (fun i => by simp [(key i).1]),
      Nat.eq_of_testBit_eq (fun i => by simp [(key i).2])⟩
  · rintro ⟨rfl, rfl⟩; rfl

theorem ip_addr_is_empty_iff (a : ip_addr_t) : ip_addr_is_empty a = true ↔ a = ip_zero_addr := by
  cases a with
  | mk a0 a1 a2 a3 =>
    simp [ip_addr_is_empty, ip_zero_addr, nat_lor_eq_zero, and_assoc, Fin.ext_iff]

theorem scan_loop_spec_aux {n : Nat} (stop : Fin n → Bool) :
    ∀ (fuel i : Nat), i + fuel = n →
      i ≤ scan_loop stop fuel i ∧ scan_loop stop fuel i ≤ n ∧
      (∀ h : scan_loop stop fuel i < n, stop ⟨scan_loop stop fuel i, h⟩ = true) ∧
      (∀ j : Fin n, i ≤ j.val → j.val < scan_loop stop fuel i → stop j = false) := by
  intro fuel
  induction fuel with
  | zero =>
    intro i hi
    simp only [scan_loop]
    refine ⟨le_refl _, by omega, fun h => by omega, fun j h1 h2 => by omega⟩
  | succ k ih =>
    intro i hi
    have hin : i < n := by omega
    by_cases hs : stop ⟨i, hin⟩ = true
    · have e : scan_loop stop (k + 1) i = i := by simp [scan_loop, hin, hs]
      rw [e]
      exact ⟨le_refl _, by omega, fun _ => hs, fun j h1 h2 => by omega⟩
    · have e : scan_loop stop (k + 1) i = scan_loop stop k (i + 1) := by
        simp [scan_loop, hin, hs]
      rw [e]
      obtain ⟨h1, h2, h3, h4⟩ := ih (i + 1) (by omega)
      refine ⟨by omega, h2, h3, fun j hj1 hj2 => ?_⟩
      by_cases hji : j.val = i
      · have : j = ⟨i, hin⟩ := Fin.ext hji
        rw [this]; simpa using hs
      · exact h4 j (by omega) hj2

theorem low_byte_val (n : Nat) : (low_byte n).val = n % 256 := rfl

theorem htons_load_u16 (p : Buffer) (o : Nat) : htons (load_u16 p o) = wire_u16 p o := by
  have h0 := (p o).isLt
  have h1 := (p (o + 1)).isLt
  unfold htons load_u16 wire_u16
  have e1 : ((p o).val + 256 * (p (o + 1)).val) >>> 8 = (p (o + 1)).val := by
    rw [Nat.shiftRight_eq_div_pow]; omega
  have e2 : ∀ x : Nat, x &&& 0xff = x % 256 := fun x => Nat.and_pow_two_sub_one_eq_mod x 8
  rw [e1, e2, e2, Nat.shiftLeft_eq]
  have e3 : (p (o + 1)).val % 256 = (p (o + 1)).val := Nat.mod_eq_of_lt h1
  have e4 : ((p o).val + 256 * (p (o + 1)).val) % 256 = (p o).val := by omega
  rw [e3, e4, Nat.lor_comm]
  have := Nat.mul_add_lt_is_or (i := 8) (b := (p (o + 1)).val) h1 (p o).val
  simp only [Nat.reducePow] at this
  rw [Nat.mul_comm (p o).val 256, ← this]

theorem scan_loop_le {n : Nat} (stop : Fin n → Bool) : scan_loop stop n 0 ≤ n :=
  (scan_loop_spec_aux stop n 0 (by omega)).2.1

theorem scan_loop_stop {n : Nat} (stop : Fin n → Bool) (h : scan_loop stop n 0 < n) :
    stop ⟨scan_loop stop n 0, h⟩ = true :=
  (scan_loop_spec_aux stop n 0 (by omega)).2.2.1 h

theorem scan_loop_before {n : Nat} (stop : Fin n → Bool) (j : Fin n)
    (h : j.val < scan_loop stop n 0) : stop j = false :=
  (scan_loop_spec_aux stop n 0 (by omega)).2.2.2 j (Nat.zero_le _) h

theorem scan_loop_eq_first {n : Nat} (stop : Fin n → Bool) (i : Fin n)
    (hi : stop i = true) (hlow : ∀ j : Fin n, j.val < i.val → stop j = false) :
    scan_loop stop n 0 = i.val := by
  rcases Nat.lt_trichotomy (scan_loop stop n 0) i.val with h | h | h
  · have hn : scan_loop stop n 0 < n := lt_trans h i.isLt
    have h1 := scan_loop_stop stop hn
    have h2 := hlow ⟨_, hn⟩ h
    rw [h1] at h2; cases h2
  · exact h
  · have := scan_loop_before stop i h
    rw [hi] at this; cases this

theorem scan_loop_eq_size {n : Nat} (stop : Fin n → Bool) (h : ∀ j, stop j = false) :
    scan_loop stop n 0 = n := by
  rcases Nat.lt_or_ge (scan_loop stop n 0) n with hlt | hge
  · have := scan_loop_stop stop hlt
    rw [h] at this; cases this
  · exact le_antisymm (scan_loop_le stop) hge

/-- The two ways `arp_update` ends: the refresh of the first in-use slot that
holds `ip_addr`, or, when no in-use slot holds it, the write of a whole entry
into the first unused slot or, on a full table, into some slot. -/
theorem arp_update_cases (s : arp_state) (ip_addr : ip_addr_t) (mac_addr : mac_addr_t) :
    (∃ i, arp_in_use (s.arp_table i) ∧ (s.arp_table i).ip_addr = ip_addr ∧
        (∀ j, j.val < i.val → ¬ (arp_in_use (s.arp_table j) ∧ (s.arp_table j).ip_addr = ip_addr)) ∧
        arp_update s ip_addr mac_addr =
          { arp_time := s.arp_time,
            arp_table := Function.update s.arp_table i
              { time := s.arp_time, mac_addr := mac_addr, ip_addr := (s.arp_table i).ip_addr } }) ∨
    ((∀ j, arp_in_use (s.arp_table j) → (s.arp_table j).ip_addr ≠ ip_addr) ∧
      ∃ e, ((ip_addr_is_empty (s.arp_table e).ip_addr = true ∧
              ∀ j, j.val < e.val → arp_in_use (s.arp_table j)) ∨
            (∀ j, arp_in_use (s.arp_table j))) ∧
        arp_update s ip_addr mac_addr =
          { arp_time := s.arp_time,
            arp_table := Function.update s.arp_table e
              { time := s.arp_time, mac_addr := mac_addr, ip_addr := ip_addr } }) := by
  by_cases h : scan_loop (fun j => !ip_addr_is_empty (s.arp_table j).ip_addr &&
      ip_addr_compare (s.arp_table j).ip_addr ip_addr) ARP_TABLE_SIZE 0 < ARP_TABLE_SIZE
  · left
    refine ⟨⟨_, h⟩, ?_, ?_, ?_, ?_⟩
    · have := scan_loop_stop _ h
      simp only [Bool.and_eq_true, Bool.not_eq_true'] at this
      exact this.1
    · have := scan_loop_stop _ h
      simp only [Bool.and_eq_true, Bool.not_eq_true'] at this
      exact (ip_addr_compare_iff _ _).1 this.2
    · intro j hj hc
      have := scan_loop_before (fun j => !ip_addr_is_empty (s.arp_table j).ip_addr &&
        ip_addr_compare (s.arp_table j).ip_addr ip_addr) j hj
      simp only [Bool.and_eq_false_imp, Bool.not_eq_true'] at this
      have h2 := this hc.1
      rw [(ip_addr_compare_iff _ _).2 hc.2] at h2; cases h2
    · simp only [arp_update, h, dite_true]
  · right
    have hmiss : ∀ j, arp_in_use (s.arp_table j) → (s.arp_table j).ip_addr ≠ ip_addr := by
      intro j hj hc
      apply h
      have hstop : (fun j => !ip_addr_is_empty (s.arp_table j).ip_addr &&
          ip_addr_compare (s.arp_table j).ip_addr ip_addr) j = true := by
        simp only [Bool.and_eq_true, Bool.not_eq_true']
        exact ⟨hj, (ip_addr_compare_iff _ _).2 hc⟩
      by_contra hge
      have := scan_loop_before _ j (lt_of_lt_of_le j.isLt (not_lt.1 hge))
      exact Bool.noConfusion (hstop.symm.trans this)
    refine ⟨hmiss, ?_⟩
    by_cases h2 : scan_loop (fun j => ip_addr_is_empty (s.arp_table j).ip_addr)
        ARP_TABLE_SIZE 0 < ARP_TABLE_SIZE
    · refine ⟨⟨_, h2⟩, Or.inl ⟨scan_loop_stop _ h2, fun j hj => ?_⟩, ?_⟩
      · exact scan_loop_before (fun j => ip_addr_is_empty (s.arp_table j).ip_addr) j hj
      · simp only [arp_update, h, h2, dite_true, dite_false]
    · refine ⟨arp_oldest_loop s.arp_time s.arp_table ARP_TABLE_SIZE 0 0 0, Or.inr fun j => ?_, ?_⟩
      · by_contra hc
        apply h2
        have hstop : (fun j => ip_addr_is_empty (s.arp_table j).ip_addr) j = true := by
          simpa [arp_in_use] using hc
        by_contra hge
        have := scan_loop_before _ j (lt_of_lt_of_le j.isLt (not_lt.1 hge))
        exact Bool.noConfusion (hstop.symm.trans this)
      · simp only [arp_update, h, h2, dite_false]

theorem arp_unique_init (s : arp_state) : arp_unique (arp_init s).arp_table := by
  intro i j hi _
  have : ip_addr_is_empty ip_zero_addr = true := by decide
  simp only [arp_in_use, arp_init] at hi
  rw [this] at hi; cases hi

theorem arp_unique_update (s : arp_state) (ip_addr : ip_addr_t) (mac_addr : mac_addr_t)
    (hu : arp_unique s.arp_table) : arp_unique (arp_update s ip_addr mac_addr).arp_table := by
  rcases arp_update_cases s ip_addr mac_addr with ⟨i, _, _, _, he⟩ | ⟨hmiss, e, _, he⟩
  · rw [he]
    intro a b ha hab
    have hip : ∀ k, ((Function.update s.arp_table i
        { time := s.arp_time, mac_addr := mac_addr, ip_addr := (s.arp_table i).ip_addr }) k).ip_addr
        = (s.arp_table k).ip_addr := by
      intro k
      by_cases hk : k = i
      · subst hk; simp
      · simp [Function.update_noteq hk]
    simp only [arp_in_use] at ha hab
    rw [hip] at ha hab
    rw [hip] at hab
    exact hu a b ha hab
  · rw [he]
    intro a b ha hab
    simp only [arp_in_use] at ha hab
    by_cases hae : a = e <;> by_cases hbe : b = e
    · rw [hae, hbe]
    · exfalso
      subst hae
      simp only [Function.update_same, Function.update_noteq hbe] at ha hab
      exact hmiss b (by rw [arp_in_use, ← hab]; exact ha) hab.symm
    · exfalso
      subst hbe
      simp only [Function.update_same, Function.update_noteq hae] at ha hab
      exact hmiss a ha hab
    · simp only [Function.update_noteq hae, Function.update_noteq hbe] at ha hab
      exact hu a b ha hab

theorem arp_unique_flush (s : arp_state) (hu : arp_unique s.arp_table) :
    arp_unique (arp_flush s).2.arp_table := by
  have hz : ip_addr_is_empty ip_zero_addr = true := by decide
  have key : ∀ k, arp_in_use ((arp_flush s).2.arp_table k) →
      (arp_flush s).2.arp_table k = s.arp_table k := by
    intro k hk
    simp only [arp_flush, arp_in_use] at hk ⊢
    split at hk
    · simp only [hz] at hk; cases hk
    · rename_i hc; simp only [hc]; rfl
  intro a b ha hab
  have ea := key a ha
  have hb : arp_in_use ((arp_flush s).2.arp_table b) := by
    rw [arp_in_use, ← hab]; exact ha
  have eb := key b hb
  rw [ea] at ha
  rw [ea, eb] at hab
  exact hu a b ha hab

theorem ip_addr_compare_eq_decide (a b : ip_addr_t) : ip_addr_compare a b = decide (a = b) := by
  by_cases h : a = b
  · simp [h, (ip_addr_compare_iff b b).2 rfl]
  · simp [h, (ip_addr_compare_eq_false_iff a b).2 h]

theorem arp_decode_state (cfg : host_config) (s : arp_state) (length : Nat) (packet : Buffer) :
    (arp_decode cfg s length packet).2.1 =
      if sizeof_arp_header_t ≤ length ∧
          (wire_u16 packet arp_opcode_off = ARP_OPCODE_REQUEST ∨
            wire_u16 packet arp_opcode_off = ARP_OPCODE_REPLY) ∧
          load_ip packet arp_ip_dest_addr_off = cfg.ip_host_addr
      then arp_update s (load_ip packet arp_ip_src_addr_off) (load_mac packet arp_mac_src_addr_off)
      else s := by
  have hne : ARP_OPCODE_REPLY ≠ ARP_OPCODE_REQUEST := by decide
  unfold arp_decode
  rw [htons_load_u16]
  simp only [ip_addr_compare_eq_decide]
  by_cases hl : length < sizeof_arp_header_t
  · have : ¬ sizeof_arp_header_t ≤ length := by omega
    simp [hl, this]
  · have hl2 : sizeof_arp_header_t ≤ length := by omega
    by_cases hc : load_ip packet arp_ip_dest_addr_off = cfg.ip_host_addr <;>
    by_cases h1 : wire_u16 packet arp_opcode_off = ARP_OPCODE_REQUEST <;>
    by_cases h2 : wire_u16 packet arp_opcode_off = ARP_OPCODE_REPLY <;>
    simp [hl, hl2, hc, h1, h2, hne]

theorem arp_unique_step (s : arp_state) (c : arp_call) (hu : arp_unique s.arp_table) :
    arp_unique (arp_step s c).arp_table := by
  cases c with
  | update ip_addr mac_addr => exact arp_unique_update s ip_addr mac_addr hu
  | flush => exact arp_unique_flush s hu
  | decode cfg length packet =>
    simp only [arp_step, arp_decode_state]
    split
    · exact arp_unique_update s _ _ hu
    · exact hu

theorem arp_unique_run (calls : List arp_call) :
    ∀ s : arp_state, arp_unique s.arp_table → arp_unique (arp_run s calls).arp_table := by
  induction calls with
  | nil => intro s hu; exact hu
  | cons c cs ih =>
    intro s hu
    exact ih (arp_step s c) (arp_unique_step s c hu)

theorem arp_encode_hit (cfg : host_config) (s : arp_state) (length : Nat) (packet : Buffer)
    (i : Fin ARP_TABLE_SIZE)
    (hb : load_ip packet ip_dest_addr_off ≠ ip_broadcast_addr)
    (hi : (s.arp_table i).ip_addr = arp_target cfg (load_ip packet ip_dest_addr_off))
    (hlow : ∀ j : Fin ARP_TABLE_SIZE, j.val < i.val →
      (s.arp_table j).ip_addr ≠ arp_target cfg (load_ip packet ip_dest_addr_off)) :
    arp_encode cfg s length packet =
      arp_encode_finish cfg length (store_mac packet mac_dest_addr_off (s.arp_table i).mac_addr) := by
  have hscan : scan_loop (fun j => ip_addr_compare
      (arp_target cfg (load_ip packet ip_dest_addr_off)) (s.arp_table j).ip_addr)
      ARP_TABLE_SIZE 0 = i.val := by
    apply scan_loop_eq_first
    · exact (ip_addr_compare_iff _ _).2 hi.symm
    · intro j hj
      exact (ip_addr_compare_eq_false_iff _ _).2 (fun h => hlow j hj h.symm)
  have hbc : ip_addr_compare (load_ip packet ip_dest_addr_off) ip_broadcast_addr = false :=
    (ip_addr_compare_eq_false_iff _ _).2 hb
  have htgt : (if (!ip_mask_compare (load_ip packet ip_dest_addr_off) cfg.ip_host_addr
      cfg.ip_netmask) = true then cfg.ip_default_router else load_ip packet ip_dest_addr_off)
      = arp_target cfg (load_ip packet ip_dest_addr_off) := by
    unfold arp_target
    cases ip_mask_compare (load_ip packet ip_dest_addr_off) cfg.ip_host_addr cfg.ip_netmask <;> rfl
  unfold arp_encode
  simp only [hbc, htgt, hscan, i.isLt, dite_true, Bool.false_eq_true, if_false, Fin.eta]

theorem arp_encode_miss (cfg : host_config) (s : arp_state) (length : Nat) (packet : Buffer)
    (hb : load_ip packet ip_dest_addr_off ≠ ip_broadcast_addr)
    (hmiss : ∀ j : Fin ARP_TABLE_SIZE,
      (s.arp_table j).ip_addr ≠ arp_target cfg (load_ip packet ip_dest_addr_off)) :
    arp_encode cfg s length packet =
      (sizeof_arp_header_t,
        store_u16 (store_u8 (store_u16 (store_u8 (store_u16 (store_u16
          (store_ip (store_ip (store_mac (store_mac (store_mac (store_mac packet
            mac_dest_addr_off mac_broadcast_addr)
            arp_mac_dest_addr_off mac_zero_addr)
            mac_src_addr_off cfg.mac_host_addr)
            arp_mac_src_addr_off cfg.mac_host_addr)
            arp_ip_dest_addr_off (arp_target cfg (load_ip packet ip_dest_addr_off)))
            arp_ip_src_addr_off cfg.ip_host_addr)
          arp_opcode_off (htons ARP_OPCODE_REQUEST))
          arp_hardware_type_off (htons ARP_HARDWARE_TYPE))
          arp_hardware_length_off 6)
          arp_protocol_type_off (htons MAC_TYPE_IP4))
          arp_protocol_length_off 4)
          mac_type_off (htons MAC_TYPE_ARP)) := by
  have hscan : scan_loop (fun j => ip_addr_compare
      (arp_target cfg (load_ip packet ip_dest_addr_off)) (s.arp_table j).ip_addr)
      ARP_TABLE_SIZE 0 = ARP_TABLE_SIZE := by
    apply scan_loop_eq_size
    intro j
    exact (ip_addr_compare_eq_false_iff _ _).2 (fun h => hmiss j h.symm)
  have hbc : ip_addr_compare (load_ip packet ip_dest_addr_off) ip_broadcast_addr = false :=
    (ip_addr_compare_eq_false_iff _ _).2 hb
  have htgt : (if (!ip_mask_compare (load_ip packet ip_dest_addr_off) cfg.ip_host_addr
      cfg.ip_netmask) = true then cfg.ip_default_router else load_ip packet ip_dest_addr_off)
      = arp_target cfg (load_ip packet ip_dest_addr_off) := by
    unfold arp_target
    cases ip_mask_compare (load_ip packet ip_dest_addr_off) cfg.ip_host_addr cfg.ip_netmask <;> rfl
  unfold arp_encode
  simp only [hbc, htgt, hscan, lt_irrefl, dite_false, Bool.false_eq_true, if_false]

theorem arp_encode_finish_fields (cfg : host_config) (length : Nat) (packet : Buffer) :
    (arp_encode_finish cfg length packet).1 = length ∧
    load_mac (arp_encode_finish cfg length packet).2 mac_dest_addr_off =
      load_mac packet mac_dest_addr_off ∧
    load_mac (arp_encode_finish cfg length packet).2 mac_src_addr_off = cfg.mac_host_addr ∧
    wire_u16 (arp_encode_finish cfg length packet).2 mac_type_off = MAC_TYPE_IP4 ∧
    ∀ k, 14 ≤ k → (arp_encode_finish cfg length packet).2 k = packet k := by
  have h8 : htons MAC_TYPE_IP4 = 8 := by decide
  refine ⟨rfl, ?_, ?_, ?_, ?_⟩
  · simp [arp_encode_finish, load_mac, store_mac, store_u16]
  · simp [arp_encode_finish, load_mac, store_mac, store_u16]
  · simp [arp_encode_finish, wire_u16, store_mac, store_u16, h8, low_byte]
    decide
  · intro k hk
    have : k ≠ 6 ∧ k ≠ 7 ∧ k ≠ 8 ∧ k ≠ 9 ∧ k ≠ 10 ∧ k ≠ 11 ∧ k ≠ 12 ∧ k ≠ 13 := by omega
    simp [arp_encode_finish, store_mac, store_u16, this]

theorem to_uint8_val (z : Int) : ((to_uint8 z).val : Int) = z % 256 := by
  simp only [to_uint8]
  omega

theorem arp_flush_late (s : arp_state)
    (h : ∀ i, ip_addr_is_empty (s.arp_table i).ip_addr = false →
      136 ≤ (s.arp_table i).time.val) :
    (arp_flush s).2 =
      { arp_time := to_uint8 ((s.arp_time.val : Int) + 1), arp_table := s.arp_table } := by
  simp only [arp_flush]
  congr 1
  funext i
  by_cases hu : ip_addr_is_empty (s.arp_table i).ip_addr = false
  · have h1 := h i hu
    have h2 := (to_uint8 ((s.arp_time.val : Int) + 1)).isLt
    have h3 : ¬ ((to_uint8 ((s.arp_time.val : Int) + 1)).val : Int) -
        ((s.arp_table i).time.val : Int) ≥ ARP_ENTRY_MAX_AGE := by
      simp only [ARP_ENTRY_MAX_AGE]; omega
    simp [hu, h3]
  · simp only [Bool.not_eq_false] at hu
    simp [hu]

theorem arp_flush_times_late (k : Nat) :
    ∀ s : arp_state,
      (∀ i, ip_addr_is_empty (s.arp_table i).ip_addr = false →
        136 ≤ (s.arp_table i).time.val) →
      arp_flush_times k s =
        { arp_time := to_uint8 ((s.arp_time.val : Int) + k), arp_table := s.arp_table } := by
  induction k with
  | zero =>
    intro s _
    simp only [arp_flush_times]
    have : to_uint8 ((s.arp_time.val : Int) + (0 : Nat)) = s.arp_time := by
      apply Fin.ext
      have := to_uint8_val ((s.arp_time.val : Int) + (0 : Nat))
      have := s.arp_time.isLt
      omega
    rw [this]
  | succ k ih =>
    intro s h
    simp only [arp_flush_times]
    rw [arp_flush_late s h, ih _ (by simpa using h)]
    congr 1
    apply Fin.ext
    have e1 := to_uint8_val ((s.arp_time.val : Int) + 1)
    have e2 := to_uint8_val (((to_uint8 ((s.arp_time.val : Int) + 1)).val : Int) + (k : Int))
    have e3 := to_uint8_val ((s.arp_time.val : Int) + ((k + 1 : Nat) : Int))
    simp only at e2 ⊢
    omega

theorem arp_decode_request_eq (cfg : host_config) (s : arp_state) (length : Nat)
    (packet : Buffer) (hlen : 42 ≤ length)
    (hop : wire_u16 packet arp_opcode_off = 1)
    (htgt : load_ip packet arp_ip_dest_addr_off = cfg.ip_host_addr) :
    arp_decode cfg s length packet =
      (42, arp_update s (load_ip packet arp_ip_src_addr_off) (load_mac packet arp_mac_src_addr_off),
        store_u16 (store_ip (store_ip (store_mac (store_mac (store_mac (store_mac packet
          arp_mac_dest_addr_off (load_mac packet arp_mac_src_addr_off))
          mac_dest_addr_off (load_mac packet arp_mac_src_addr_off))
          arp_mac_src_addr_off cfg.mac_host_addr)
          mac_src_addr_off cfg.mac_host_addr)
          arp_ip_dest_addr_off (load_ip packet arp_ip_src_addr_off))
          arp_ip_src_addr_off cfg.ip_host_addr)
          arp_opcode_off 512) := by
  have hl : ¬ length < sizeof_arp_header_t := by simp; omega
  have hcmp : ip_addr_compare (load_ip packet arp_ip_dest_addr_off) cfg.ip_host_addr = true :=
    (ip_addr_compare_iff _ _).2 htgt
  have e2 : htons ARP_OPCODE_REPLY = 512 := by decide
  have hop2 : htons (load_u16 packet arp_opcode_off) = ARP_OPCODE_REQUEST := by
    rw [htons_load_u16, hop]; rfl
  have m1 : load_mac (store_mac packet arp_mac_dest_addr_off
      (load_mac packet arp_mac_src_addr_off)) arp_mac_src_addr_off =
      load_mac packet arp_mac_src_addr_off := by
    simp [load_mac, store_mac]
  have m2 : load_ip (store_mac (store_mac (store_mac (store_mac packet
      arp_mac_dest_addr_off (load_mac packet arp_mac_src_addr_off))
      mac_dest_addr_off (load_mac packet arp_mac_src_addr_off))
      arp_mac_src_addr_off cfg.mac_host_addr)
      mac_src_addr_off cfg.mac_host_addr) arp_ip_src_addr_off =
      load_ip packet arp_ip_src_addr_off := by
    simp [load_ip, store_mac]
  unfold arp_decode
  simp only [hl, if_false, hop2, if_true, hcmp, Bool.not_true, Bool.false_eq_true, e2, m1, m2]

theorem arp_update_present (s : arp_state) (ip_addr : ip_addr_t) (mac_addr : mac_addr_t) :
    (arp_update s ip_addr mac_addr).arp_time = s.arp_time ∧
    ∃ i, (arp_update s ip_addr mac_addr).arp_table i =
      { time := s.arp_time, mac_addr := mac_addr, ip_addr := ip_addr } := by
  rcases arp_update_cases s ip_addr mac_addr with ⟨i, _, hip, _, he⟩ | ⟨_, e, _, he⟩
  · rw [he]; exact ⟨rfl, i, by simp [hip]⟩
  · rw [he]; exact ⟨rfl, e, by simp⟩

theorem arp_flush_entry_late (s : arp_state) (i : Fin ARP_TABLE_SIZE)
    (h : 136 ≤ (s.arp_table i).time.val) :
    (arp_flush s).2.arp_table i = s.arp_table i := by
  have h2 := (to_uint8 ((s.arp_time.val : Int) + 1)).isLt
  have h3 : ¬ ((to_uint8 ((s.arp_time.val : Int) + 1)).val : Int) -
      ((s.arp_table i).time.val : Int) ≥ ARP_ENTRY_MAX_AGE := by
    simp only [ARP_ENTRY_MAX_AGE]; omega
  simp [arp_flush, h3]

/-- An entry whose time stamp is 136 or more survives every number of
`arp_flush` calls: the promoted difference `arp_time - time` is at most 119. -/
theorem arp_flush_times_entry_late (k : Nat) :
    ∀ (s : arp_state) (i : Fin ARP_TABLE_SIZE), 136 ≤ (s.arp_table i).time.val →
      (arp_flush_times k s).arp_table i = s.arp_table i := by
  induction k with
  | zero => intro s i _; rfl
  | succ k ih =>
    intro s i h
    have e := arp_flush_entry_late s i h
    simp only [arp_flush_times]
    rw [ih (arp_flush s).2 i (by rw [e]; exact h), e]

/-- A binding learnt while `arp_time` is 136 or more is still in the table
after any number of `arp_flush` calls. -/
theorem arp_late_binding_never_expires (s : arp_state) (ip_addr : ip_addr_t)
    (mac_addr : mac_addr_t) (k : Nat) (h : 136 ≤ s.arp_time.val) :
    ∃ i, (arp_flush_times k (arp_update s ip_addr mac_addr)).arp_table i =
      { time := s.arp_time, mac_addr := mac_addr, ip_addr := ip_addr } := by
  obtain ⟨_, i, hi⟩ := arp_update_present s ip_addr mac_addr
  refine ⟨i, ?_⟩
  rw [arp_flush_times_entry_late k _ i (by rw [hi]; exact h), hi]

set_option maxRecDepth 100000 in
theorem shl8_mask : ∀ b : Byte, ((b.val <<< 8) &&& 0xFF00) = 256 * b.val := by
  decide

theorem be_word_sum_even_step (p : Buffer) (i : Nat) (h : i % 2 = 0) :
    be_word_sum p (i + 2) = be_word_sum p i + (256 * (p i).val + (p (i + 1)).val) := by
  have h1 : ¬ (i + 1) % 2 = 0 := by omega
  simp only [be_word_sum, h, h1, if_true, if_false]
  omega

theorem be_word_sum_mono (p : Buffer) (m : Nat) :
    ∀ n, m ≤ n → be_word_sum p m ≤ be_word_sum p n := by
  intro n h
  induction n with
  | zero =>
    have : m = 0 := by omega
    rw [this]
  | succ k ih =>
    by_cases hk : m = k + 1
    · rw [hk]
    · have := ih (by omega)
      simp only [be_word_sum]
      omega

theorem be_word_sum_le (p : Buffer) : ∀ k, be_word_sum p (2 * k) ≤ 65535 * k := by
  intro k
  induction k with
  | zero => simp [be_word_sum]
  | succ k ih =>
    have e : 2 * (k + 1) = 2 * k + 2 := by ring
    rw [e, be_word_sum_even_step p (2 * k) (by omega)]
    have h0 := (p (2 * k)).isLt
    have h1 := (p (2 * k + 1)).isLt
    omega

theorem be_word_sum_bound (p : Buffer) (n : Nat) (h : n ≤ 65534) :
    be_word_sum p (n + n % 2) ≤ 2147385345 := by
  have e : n + n % 2 = 2 * ((n + n % 2) / 2) := by omega
  rw [e]
  have := be_word_sum_le p ((n + n % 2) / 2)
  have : (n + n % 2) / 2 ≤ 32767 := by omega
  omega

theorem checksum_loop_eq (length : Nat) (p : Buffer) (hlen : length ≤ 65534) :
    ∀ (fuel i s : Nat), i % 2 = 0 → i ≤ length + length % 2 →
      (length + length % 2 - i) / 2 < fuel →
      s + be_word_sum p (length + length % 2) < 4294967296 →
      checksum_loop length p fuel i (s + be_word_sum p i) =
        some (s + be_word_sum p (length + length % 2)) := by
  intro fuel
  induction fuel with
  | zero => intro i s _ _ h; omega
  | succ fuel ih =>
    intro i s hev hi hfuel hsum
    by_cases hlt : i < length
    · have hi2 : i + 2 ≤ length + length % 2 := by omega
      have hmono := be_word_sum_mono p (i + 2) _ hi2
      have hstep := be_word_sum_even_step p i hev
      have e1 : (i + 2) % 65536 = i + 2 := by omega
      have e2 : (s + be_word_sum p i + ((((p i).val <<< 8) &&& 0xFF00) + (p (i + 1)).val))
          % 4294967296 = s + be_word_sum p (i + 2) := by
        rw [shl8_mask]; omega
      simp only [checksum_loop, hlt, if_true, e1, e2]
      exact ih (i + 2) s (by omega) hi2 (by omega) hsum
    · have e : i = length + length % 2 := by omega
      simp only [checksum_loop, hlt, if_false]
      rw [← e]

theorem checksum_loop_total (length : Nat) (p : Buffer) (acc : Nat)
    (hlen : length ≤ 65534) (hacc : acc ≤ 65535) :
    checksum_loop length p CHECKSUM_FUEL 0 acc =
      some (acc + be_word_sum p (length + length % 2)) := by
  have hb := be_word_sum_bound p length hlen
  have := checksum_loop_eq length p hlen CHECKSUM_FUEL 0 acc (by omega) (by omega)
    (by simp only [CHECKSUM_FUEL]; omega) (by omega)
  simpa [be_word_sum] using this

theorem ones_complement_fold_split (t : Nat) (h : 0 < t) :
    (t - 1) % 65535 = (t % 65536 + t / 65536 - 1) % 65535 := by
  have e : t - 1 = t % 65536 + t / 65536 - 1 + 65535 * (t / 65536) := by omega
  conv_lhs => rw [e]
  exact Nat.add_mul_mod_self_left _ _ _

theorem checksum_fold_small (a : Nat) (ha : a ≤ 131070) :
    checksum_fold 1 a = if a = 0 then 0 else (a - 1) % 65535 + 1 := by
  have m : ∀ x : Nat, x &&& 0xFFFF = x % 65536 := fun x => Nat.and_pow_two_sub_one_eq_mod x 16
  have d : ∀ x : Nat, x >>> 16 = x / 65536 := fun x => Nat.shiftRight_eq_div_pow x 16
  simp only [checksum_fold, m, d]
  have e : (a % 65536 + a / 65536) % 4294967296 = a % 65536 + a / 65536 := by omega
  rw [e]
  split_ifs <;> omega

theorem checksum_fold_eq (t : Nat) (h : t < 4294967296) :
    checksum_fold 2 t = ones_complement_fold t := by
  have m : ∀ x : Nat, x &&& 0xFFFF = x % 65536 := fun x => Nat.and_pow_two_sub_one_eq_mod x 16
  have d : ∀ x : Nat, x >>> 16 = x / 65536 := fun x => Nat.shiftRight_eq_div_pow x 16
  by_cases h0 : t = 0
  · subst h0; simp [checksum_fold, ones_complement_fold]
  · have key := ones_complement_fold_split t (by omega)
    have e : (t % 65536 + t / 65536) % 4294967296 = t % 65536 + t / 65536 := by omega
    have hs := checksum_fold_small (t % 65536 + t / 65536) (by omega)
    by_cases hc : t / 65536 = 0
    · have hlt : t < 65536 := by omega
      have e1 : checksum_fold 2 t = t := by
        simp only [checksum_fold, d, hc]; simp
      rw [e1]
      simp only [ones_complement_fold, if_neg h0]
      omega
    · have e1 : checksum_fold 2 t = checksum_fold 1 (t % 65536 + t / 65536) := by
        rw [checksum_fold]
        simp only [d, m, e]
        rw [if_pos hc]
      rw [e1, hs]
      simp only [ones_complement_fold, if_neg h0, key]
      have hne : ¬ (t % 65536 + t / 65536 = 0) := by omega
      rw [if_neg hne]

theorem ones_complement_fold_le (t : Nat) : ones_complement_fold t ≤ 65535 := by
  simp only [ones_complement_fold]
  split_ifs <;> omega

theorem checksum_finish_eq (t : Nat) (h : t < 4294967296) :
    checksum_finish t = 65535 - ones_complement_fold t := by
  have := ones_complement_fold_le t
  simp only [checksum_finish, checksum_fold_eq t h, to_uint16]
  omega

theorem checksum_roundtrip_arith (t : Nat) (h : t < 4294967296) :
    t + checksum_finish t < 4294967296 ∧ checksum_finish (t + checksum_finish t) = 0 := by
  have e := checksum_finish_eq t h
  have hf : ones_complement_fold t = if t = 0 then 0 else (t - 1) % 65535 + 1 := rfl
  have hlt : t + checksum_finish t < 4294967296 := by
    rw [e, hf]
    by_cases h0 : t = 0
    · simp [h0]
    · rw [if_neg h0]; omega
  refine ⟨hlt, ?_⟩
  rw [checksum_finish_eq _ hlt, e]
  have hg : ones_complement_fold (t + (65535 - ones_complement_fold t)) = 65535 := by
    by_cases h0 : t = 0
    · subst h0; simp [ones_complement_fold]
    · rw [hf, if_neg h0]
      have hne : ¬ (t + (65535 - ((t - 1) % 65535 + 1)) = 0) := by omega
      simp only [ones_complement_fold, if_neg hne]
      omega
  rw [hg]

theorem be_word_sum_store_wire_aux (p : Buffer) (o c : Nat) (ho : o % 2 = 0)
    (hc : c < 65536) (h0 : p o = 0) (h1 : p (o + 1) = 0) :
    ∀ n, be_word_sum (store_wire_u16 p o c) n =
      be_word_sum p n + (if n ≤ o then 0 else if n = o + 1 then 256 * (c / 256) else c) := by
  intro n
  induction n with
  | zero => simp [be_word_sum]
  | succ n ih =>
    simp only [be_word_sum, ih]
    by_cases hn : n = o
    · subst hn
      have e : (store_wire_u16 p n c n).val = c / 256 := by
        simp only [store_wire_u16, if_true, low_byte]; omega
      have z : (p n).val = 0 := by rw [h0]; rfl
      simp [e, z, ho]
    · by_cases hn1 : n = o + 1
      · subst hn1
        have e : (store_wire_u16 p o c (o + 1)).val = c % 256 := by
          simp [store_wire_u16, low_byte]
        have z : (p (o + 1)).val = 0 := by rw [h1]; rfl
        have hodd : ¬ (o + 1) % 2 = 0 := by omega
        simp only [e, z, hodd, if_false]
        have : ¬ (o + 1 ≤ o) := by omega
        simp only [this, if_false, if_true]
        have : ¬ (o + 1 + 1 ≤ o) := by omega
        have h3 : ¬ (o + 1 + 1 = o + 1) := by omega
        simp only [this, h3, if_false]
        omega
      · have e : store_wire_u16 p o c n = p n := by
          simp [store_wire_u16, hn, hn1]
        rw [e]
        by_cases hle : n ≤ o
        · have h2 : n + 1 ≤ o := by omega
          simp [hle, h2]
        · have h2 : ¬ (n + 1 ≤ o) := by omega
          have h3 : ¬ (n + 1 = o + 1) := by omega
          simp only [hle, hn1, h2, h3, if_false]
          omega

theorem be_word_sum_store_wire (p : Buffer) (o c n : Nat) (ho : o % 2 = 0)
    (hc : c < 65536) (h0 : p o = 0) (h1 : p (o + 1) = 0) (hn : o + 2 ≤ n) :
    be_word_sum (store_wire_u16 p o c) n = be_word_sum p n + c := by
  rw [be_word_sum_store_wire_aux p o c ho hc h0 h1 n]
  have a : ¬ (n ≤ o) := by omega
  have b : ¬ (n = o + 1) := by omega
  simp [a, b]

theorem checksum_pad_eq (length : Nat) (p : Buffer) (sum : Nat)
    (h : sum + 65280 < 4294967296) :
    checksum_pad length p sum =
      sum + (if length % 2 = 0 then 0 else 256 * (p length).val) := by
  have hb := (p length).isLt
  simp only [checksum_pad, shl8_mask]
  split_ifs <;> omega

/-- What `ip_checksum` computes for a length up to 65534: the folded and
complemented sum of the words of the first `length` octets rounded up to an
even number, plus, for an odd length, the octet behind the data once more as
a high octet. -/
theorem ip_checksum_eq (length : Nat) (p : Buffer) (hlen : length ≤ 65534) :
    ip_checksum length p =
      some (65535 - ones_complement_fold (be_word_sum p (length + length % 2) +
        (if length % 2 = 0 then 0 else 256 * (p length).val))) := by
  have hb := be_word_sum_bound p length hlen
  have hl := (p length).isLt
  simp only [ip_checksum, checksum_loop_total length p 0 hlen (by omega), Nat.zero_add]
  rw [checksum_pad_eq _ _ _ (by omega), checksum_finish_eq _ (by split_ifs <;> omega)]

theorem ip_checksum_even (length : Nat) (p : Buffer) (hlen : length ≤ 65534)
    (hev : length % 2 = 0) : ip_checksum length p = some (inet_checksum p length) := by
  rw [ip_checksum_eq length p hlen]
  simp [hev, inet_checksum]

theorem icmp_checksum_eq_ip (length : Nat) (p : Buffer) :
    icmp_checksum length p = ip_checksum length p := rfl

theorem ones_complement_fold_roundtrip (t : Nat) :
    ones_complement_fold (t + (65535 - ones_complement_fold t)) = 65535 := by
  have hf : ones_complement_fold t = if t = 0 then 0 else (t - 1) % 65535 + 1 := rfl
  by_cases h0 : t = 0
  · subst h0; simp [ones_complement_fold]
  · rw [hf, if_neg h0]
    have hne : ¬ (t + (65535 - ((t - 1) % 65535 + 1)) = 0) := by omega
    simp only [ones_complement_fold, if_neg hne]
    omega

theorem pseudo_header_word_lt (hi lo : Byte) : pseudo_header_word hi lo < 4294967296 := by
  simp only [pseudo_header_word, to_uint32]
  omega

/-- What `udp_checksum` computes for a length up to 65534. -/
theorem udp_checksum_eq (n : Nat) (d : Buffer) (src_addr dest_addr : ip_addr_t)
    (hn : n ≤ 65534) :
    udp_checksum n d src_addr dest_addr =
      some (checksum_finish
        ((to_uint16 (n + IP_PROTOCOL_UDP) + be_word_sum d (n + n % 2) +
          (if n % 2 = 0 then 0 else 256 * (d n).val) +
          pseudo_header_word src_addr.a0 src_addr.a1 +
          pseudo_header_word dest_addr.a0 dest_addr.a1 +
          pseudo_header_word src_addr.a2 src_addr.a3 +
          pseudo_header_word dest_addr.a2 dest_addr.a3) % 4294967296)) := by
  have hb := be_word_sum_bound d n hn
  have hl := (d n).isLt
  have hk : to_uint16 (n + IP_PROTOCOL_UDP) ≤ 65535 := by
    simp only [to_uint16]; omega
  simp only [udp_checksum, checksum_loop_total n d _ hn hk]
  rw [checksum_pad_eq _ _ _ (by omega)]
  refine congrArg some (congrArg checksum_finish ?_)
  omega

theorem store_wire_u16_other (p : Buffer) (o c i : Nat) (h1 : i ≠ o) (h2 : i ≠ o + 1) :
    store_wire_u16 p o c i = p i := by
  simp [store_wire_u16, h1, h2]

theorem checksum_finish_le (t : Nat) : checksum_finish t ≤ 65535 := by
  simp only [checksum_finish, to_uint16]; omega

theorem udp_decode_lookup_skip (udp_bindings : Fin UDP_MAX_BINDINGS → udp_slot) (port m : Nat)
    (hm : m ≤ UDP_MAX_BINDINGS)
    (hlow : ∀ j : Fin UDP_MAX_BINDINGS, j.val < m →
      ∃ b, udp_bindings j = .live b ∧ b.port ≠ port) :
    ∀ (d id fuel : Nat), id + d = m →
      udp_decode_lookup udp_bindings port (fuel + d) id =
        udp_decode_lookup udp_bindings port fuel m := by
  intro d
  induction d with
  | zero => intro id fuel h; simp only [Nat.add_zero] at h ⊢; rw [h]
  | succ d ih =>
    intro id fuel h
    have hid : id < UDP_MAX_BINDINGS := by omega
    obtain ⟨b, hb, hp⟩ := hlow ⟨id, hid⟩ (by simp; omega)
    have e : fuel + (d + 1) = (fuel + d) + 1 := by omega
    rw [e, udp_decode_lookup]
    simp only [hid, dite_true, hb, ne_eq, hp, not_false_eq_true, if_true]
    exact ih (id + 1) fuel (by omega)

theorem udp_decode_lookup_hit (udp_bindings : Fin UDP_MAX_BINDINGS → udp_slot) (port : Nat)
    (k : Fin UDP_MAX_BINDINGS) (binding : udp_bind_t)
    (hk : udp_bindings k = .live binding) (hport : binding.port = port)
    (hlow : ∀ j : Fin UDP_MAX_BINDINGS, j.val < k.val →
      ∃ b, udp_bindings j = .live b ∧ b.port ≠ port) :
    udp_decode_lookup udp_bindings port UDP_MAX_BINDINGS 0 = .ok k.val := by
  have hk10 := k.isLt
  have hskip := udp_decode_lookup_skip udp_bindings port k.val (by omega) hlow k.val 0
    (UDP_MAX_BINDINGS - k.val) (by omega)
  have e : UDP_MAX_BINDINGS - k.val + k.val = UDP_MAX_BINDINGS := by omega
  rw [e] at hskip
  rw [hskip]
  have e2 : UDP_MAX_BINDINGS - k.val = (UDP_MAX_BINDINGS - k.val - 1) + 1 := by omega
  rw [e2, udp_decode_lookup]
  simp [hk10, hk, hport]

theorem udp_decode_lookup_miss (udp_bindings : Fin UDP_MAX_BINDINGS → udp_slot) (port : Nat)
    (hall : ∀ j : Fin UDP_MAX_BINDINGS, ∃ b, udp_bindings j = .live b ∧ b.port ≠ port) :
    udp_decode_lookup udp_bindings port UDP_MAX_BINDINGS 0 = .ok UDP_MAX_BINDINGS := by
  have hskip := udp_decode_lookup_skip udp_bindings port UDP_MAX_BINDINGS (le_refl _)
    (fun j _ => hall j) UDP_MAX_BINDINGS 0 0 (by omega)
  simp only [Nat.zero_add] at hskip
  rw [hskip]
  rfl

/-- With all ten slots bound to other ports `udp_decode` drops the frame:
it returns 0, leaves the buffer as it is and calls nothing. -/
theorem udp_decode_unbound_full (udp_bindings : Fin UDP_MAX_BINDINGS → udp_slot)
    (length : Nat) (packet : Buffer)
    (hall : ∀ j : Fin UDP_MAX_BINDINGS,
      ∃ b, udp_bindings j = .live b ∧ b.port ≠ wire_u16 packet udp_dest_port_off) :
    udp_decode udp_bindings length packet =
      .ok { value := 0, packet := packet, invoked := none } := by
  unfold udp_decode
  rw [htons_load_u16, udp_decode_lookup_miss udp_bindings _ hall]
  split_ifs <;> simp

theorem udp_decode_eq (udp_bindings : Fin UDP_MAX_BINDINGS → udp_slot) (length : Nat)
    (packet : Buffer) (k : Fin UDP_MAX_BINDINGS) (binding : udp_bind_t)
    (hlen : 42 ≤ length)
    (hk : udp_bindings k = .live binding)
    (hport : binding.port = wire_u16 packet udp_dest_port_off)
    (hlow : ∀ j : Fin UDP_MAX_BINDINGS, j.val < k.val →
      ∃ b, udp_bindings j = .live b ∧ b.port ≠ wire_u16 packet udp_dest_port_off) :
    udp_decode udp_bindings length packet =
      if wire_u16 packet udp_checksum_off ≠ 0 then
        match udp_checksum (wire_u16 packet udp_length_off)
            (buffer_at (store_u16 packet udp_checksum_off 0) 34)
            (load_ip packet ip_src_addr_off) (load_ip packet ip_dest_addr_off) with
        | none => .error .no_return
        | some computed =>
          if wire_u16 packet udp_checksum_off ≠ computed then
            .ok { value := 0, packet := store_u16 packet udp_checksum_off 0, invoked := none }
          else
            .ok { value := (binding.callback (store_u16 packet udp_checksum_off 0) 42).1,
                  packet := (binding.callback (store_u16 packet udp_checksum_off 0) 42).2,
                  invoked := some k }
      else
        .ok { value := (binding.callback packet 42).1,
              packet := (binding.callback packet 42).2, invoked := some k } := by
  have hl : ¬ length < sizeof_udp_header_t := by simp; omega
  have e1 : load_u16 (store_u16 packet udp_checksum_off 0) udp_length_off =
      load_u16 packet udp_length_off := by
    simp [load_u16, store_u16]
  have e2 : load_ip (store_u16 packet udp_checksum_off 0) ip_src_addr_off =
      load_ip packet ip_src_addr_off := by
    simp [load_ip, store_u16]
  have e3 : load_ip (store_u16 packet udp_checksum_off 0) ip_dest_addr_off =
      load_ip packet ip_dest_addr_off := by
    simp [load_ip, store_u16]
  unfold udp_decode
  simp only [hl, if_false, htons_load_u16, e1, e2, e3,
    udp_decode_lookup_hit udp_bindings _ k binding hk hport hlow, k.isLt, dite_true,
    udp_decode_call, hk, Fin.eta]
  rfl

theorem htons_eq (c : Nat) (h : c < 65536) : htons c = 256 * (c % 256) + c / 256 := by
  have e := htons_load_u16 (fun i => if i = 0 then low_byte c else low_byte (c / 256)) 0
  have e1 : load_u16 (fun i => if i = 0 then low_byte c else low_byte (c / 256)) 0 = c := by
    simp only [load_u16, low_byte]
    simp
    omega
  have e2 : wire_u16 (fun i => if i = 0 then low_byte c else low_byte (c / 256)) 0 =
      256 * (c % 256) + c / 256 := by
    simp only [wire_u16, low_byte]
    simp
    omega
  rw [e1, e2] at e
  exact e

theorem store_u16_htons (p : Buffer) (o c : Nat) (h : c < 65536) :
    store_u16 p o (htons c) = store_wire_u16 p o c := by
  funext i
  have d : ∀ x : Nat, x >>> 8 = x / 256 := fun x => Nat.shiftRight_eq_div_pow x 8
  simp only [store_u16, store_wire_u16, htons_eq c h, d]
  by_cases h1 : i = o
  · simp only [h1, if_true]
    apply Fin.ext
    simp only [low_byte]
    omega
  · by_cases h2 : i = o + 1
    · subst h2
      have h3 : ¬ (o + 1 = o) := by omega
      have hq : c / 256 < 256 := by omega
      have hd : (256 * (c % 256) + c / 256) / 256 = c % 256 := by
        rw [Nat.mul_add_div (by decide), Nat.div_eq_of_lt hq, Nat.add_zero]
      simp only [h3, if_false, if_true, hd]
      apply Fin.ext
      simp only [low_byte]
      omega
    · simp only [h1, h2, if_false]

theorem ones_complement_fold_lt (t : Nat) : 65535 - ones_complement_fold t < 65536 := by
  omega

theorem icmp_echo_reply_eq (cfg : host_config) (length : Nat) (packet : Buffer) :
    icmp_echo_reply cfg length packet =
      some (98, store_wire_u16 (icmp_echo_reply_fields cfg packet) 36
        (65535 - ones_complement_fold
          (be_word_sum (buffer_at (icmp_echo_reply_fields cfg packet) 34) 64))) := by
  have e := ip_checksum_eq 64 (buffer_at (icmp_echo_reply_fields cfg packet) 34) (by omega)
  simp only [Nat.reduceMod, Nat.add_zero, if_true] at e
  unfold icmp_echo_reply
  simp only [icmp_checksum_eq_ip, ICMP_DEFAULT_HEADER_LENGTH, MAC_DEFAULT_HEADER_LENGTH,
    IP_DEFAULT_HEADER_LENGTH, Nat.reduceAdd, e]
  rw [store_u16_htons _ _ _ (ones_complement_fold_lt _)]

theorem icmp_decode_eq (cfg : host_config) (length : Nat) (packet : Buffer)
    (htype : packet icmp_type_off = 8) (hcode : packet icmp_code_off = 0) :
    icmp_decode cfg length packet =
      if length < 98 then some (0, packet)
      else some (98, store_wire_u16 (icmp_echo_reply_fields cfg packet) 36
        (65535 - ones_complement_fold
          (be_word_sum (buffer_at (icmp_echo_reply_fields cfg packet) 34) 64))) := by
  unfold icmp_decode
  simp only [sizeof_icmp_header_t, htype, hcode, ICMP_TYPE_ECHO_REQUEST, if_true,
    icmp_echo_reply_eq]

/-- With `length = 65535` the loop of the checksum functions never ends,
whatever the fuel: the even counter `i` stays below 65535 and wraps from 65534
to 0. -/
theorem checksum_loop_never_ends (p : Buffer) :
    ∀ (fuel i sum : Nat), i % 2 = 0 → i < 65536 →
      checksum_loop 65535 p fuel i sum = none := by
  intro fuel
  induction fuel with
  | zero => intro i sum _ _; rfl
  | succ fuel ih =>
    intro i sum hev hlt
    have h1 : i < 65535 := by omega
    simp only [checksum_loop, h1, if_true]
    exact ih _ _ (by omega) (by omega)

theorem udp_checksum_never_returns (p : Buffer) (src_addr dest_addr : ip_addr_t) :
    udp_checksum 65535 p src_addr dest_addr = none := by
  simp only [udp_checksum, checksum_loop_never_ends p CHECKSUM_FUEL 0 _ (by omega) (by omega)]

theorem ip_checksum_never_returns (p : Buffer) : ip_checksum 65535 p = none := by
  simp only [ip_checksum, checksum_loop_never_ends p CHECKSUM_FUEL 0 _ (by omega) (by omega)]

theorem pseudo_header_word_low (hi lo : Byte) (h : hi.val < 128) :
    pseudo_header_word hi lo = be_word hi lo := by
  have hl := lo.isLt
  simp only [pseudo_header_word, to_uint32, to_int16, be_word]
  omega

/-- Where `udp_checksum` and the checksum of the specification agree: an even
length whose sum with 17 stays below 2^16, and addresses whose first and third
octets are below 128. -/
theorem udp_checksum_even_low (n : Nat) (d : Buffer) (src_addr dest_addr : ip_addr_t)
    (hn : n + 17 < 65536) (hev : n % 2 = 0)
    (h0 : src_addr.a0.val < 128) (h2 : src_addr.a2.val < 128)
    (h0d : dest_addr.a0.val < 128) (h2d : dest_addr.a2.val < 128) :
    udp_checksum n d src_addr dest_addr = some (udp_checksum_spec d n src_addr dest_addr) := by
  have hb := be_word_sum_bound d n (by omega)
  have b1 := src_addr.a1.isLt
  have b3 := src_addr.a3.isLt
  have b1d := dest_addr.a1.isLt
  have b3d := dest_addr.a3.isLt
  rw [udp_checksum_eq n d src_addr dest_addr (by omega)]
  have en : n + n % 2 = n := by omega
  rw [en] at hb ⊢
  simp only [pseudo_header_word_low _ _ h0, pseudo_header_word_low _ _ h2,
    pseudo_header_word_low _ _ h0d, pseudo_header_word_low _ _ h2d, hev, if_true,
    Nat.add_zero, to_uint16, IP_PROTOCOL_UDP, udp_checksum_spec]
  have e : (n + 17) % 65536 = n + 17 := by omega
  simp only [be_word] at *
  rw [e, Nat.mod_eq_of_lt (by omega), checksum_finish_eq _ (by omega)]
  congr 3
  omega

theorem udp_bind_lookup_skip (udp_bindings : Fin UDP_MAX_BINDINGS → udp_slot) (m : Nat)
    (hm : m ≤ UDP_MAX_BINDINGS)
    (hlow : ∀ j : Fin UDP_MAX_BINDINGS, j.val < m → udp_bindings j ≠ .null) :
    ∀ (d id fuel : Nat), id + d = m →
      udp_bind_lookup udp_bindings (fuel + d) id = udp_bind_lookup udp_bindings fuel m := by
  intro d
  induction d with
  | zero => intro id fuel h; simp only [Nat.add_zero] at h ⊢; rw [h]
  | succ d ih =>
    intro id fuel h
    have hid : id < UDP_MAX_BINDINGS := by omega
    have hb := hlow ⟨id, hid⟩ (by simp; omega)
    have e : fuel + (d + 1) = (fuel + d) + 1 := by omega
    rw [e, udp_bind_lookup]
    simp only [hid, dite_true]
    cases hs : udp_bindings ⟨id, hid⟩ with
    | null => exact absurd hs hb
    | live b => exact ih (id + 1) fuel (by omega)
    | freed b => exact ih (id + 1) fuel (by omega)

theorem udp_bind_lookup_hit (udp_bindings : Fin UDP_MAX_BINDINGS → udp_slot)
    (k : Fin UDP_MAX_BINDINGS) (hk : udp_bindings k = .null)
    (hlow : ∀ j : Fin UDP_MAX_BINDINGS, j.val < k.val → udp_bindings j ≠ .null) :
    udp_bind_lookup udp_bindings UDP_MAX_BINDINGS 0 = k.val := by
  have hk10 := k.isLt
  have hskip := udp_bind_lookup_skip udp_bindings k.val (by omega) hlow k.val 0
    (UDP_MAX_BINDINGS - k.val) (by omega)
  have e : UDP_MAX_BINDINGS - k.val + k.val = UDP_MAX_BINDINGS := by omega
  rw [e] at hskip
  rw [hskip]
  have e2 : UDP_MAX_BINDINGS - k.val = (UDP_MAX_BINDINGS - k.val - 1) + 1 := by omega
  rw [e2, udp_bind_lookup]
  simp [hk10, hk]

theorem udp_bind_lookup_full (udp_bindings : Fin UDP_MAX_BINDINGS → udp_slot)
    (hall : ∀ j : Fin UDP_MAX_BINDINGS, udp_bindings j ≠ .null) :
    udp_bind_lookup udp_bindings UDP_MAX_BINDINGS 0 = UDP_MAX_BINDINGS := by
  have hskip := udp_bind_lookup_skip udp_bindings UDP_MAX_BINDINGS (le_refl _)
    (fun j _ => hall j) UDP_MAX_BINDINGS 0 0 (by omega)
  simp only [Nat.zero_add] at hskip
  rw [hskip]
  rfl

/-- The value and the table `udp_bind` leaves when the lowest slot that holds
`NULL` is `k`. -/
theorem udp_bind_eq (udp_bindings : Fin UDP_MAX_BINDINGS → udp_slot) (allocated : Bool)
    (port : Nat) (callback : udp_inbound_t)
    (k : Fin UDP_MAX_BINDINGS) (hk : udp_bindings k = .null)
    (hlow : ∀ j : Fin UDP_MAX_BINDINGS, j.val < k.val → udp_bindings j ≠ .null) :
    udp_bind udp_bindings allocated port callback =
      if allocated then
        (true, Function.update udp_bindings k (.live { port := port, callback := callback }))
      else (false, udp_bindings) := by
  unfold udp_bind
  simp only [udp_bind_lookup_hit udp_bindings k hk hlow, k.isLt, dite_true, Fin.eta]
  cases allocated
  · simp only [Bool.false_eq_true, if_false]
    rw [← hk, Function.update_eq_self]
  · simp only [if_true]

theorem udp_bind_full (udp_bindings : Fin UDP_MAX_BINDINGS → udp_slot) (allocated : Bool)
    (port : Nat) (callback : udp_inbound_t)
    (hall : ∀ j : Fin UDP_MAX_BINDINGS, udp_bindings j ≠ .null) :
    udp_bind udp_bindings allocated port callback = (false, udp_bindings) := by
  unfold udp_bind
  simp only [udp_bind_lookup_full udp_bindings hall, lt_irrefl, dite_false]

theorem udp_bind_lookup_eq_scan (udp_bindings : Fin UDP_MAX_BINDINGS → udp_slot) :
    ∀ (fuel id : Nat), udp_bind_lookup udp_bindings fuel id =
      scan_loop (fun j => decide ((udp_bindings j).view = .null)) fuel id := by
  intro fuel
  induction fuel with
  | zero => intro id; rfl
  | succ fuel ih =>
    intro id
    rw [udp_bind_lookup, scan_loop]
    by_cases hid : id < UDP_MAX_BINDINGS
    · simp only [hid, dite_true]
      cases hs : udp_bindings ⟨id, hid⟩ with
      | null => simp [udp_slot.view]
      | live b => simp [udp_slot.view, ih]
      | freed b => simp [udp_slot.view, ih]
    · simp only [hid, dite_false]

theorem udp_slot_view_null (slot : udp_slot) : slot.view = .null ↔ slot = .null := by
  cases slot <;> simp [udp_slot.view]

/-- The two ways `udp_bind` ends: the lowest slot that holds `NULL` is filled
(or left as it is when `calloc` fails), or no slot holds `NULL` and the call
is refused. -/
theorem udp_bind_cases (udp_bindings : Fin UDP_MAX_BINDINGS → udp_slot) (allocated : Bool)
    (port : Nat) (callback : udp_inbound_t) :
    (∃ k : Fin UDP_MAX_BINDINGS, udp_bindings k = .null ∧
      (∀ j : Fin UDP_MAX_BINDINGS, j.val < k.val → udp_bindings j ≠ .null) ∧
      udp_bind udp_bindings allocated port callback =
        if allocated then
          (true, Function.update udp_bindings k (.live { port := port, callback := callback }))
        else (false, udp_bindings)) ∨
    ((∀ j : Fin UDP_MAX_BINDINGS, udp_bindings j ≠ .null) ∧
      udp_bind udp_bindings allocated port callback = (false, udp_bindings)) := by
  by_cases h : scan_loop (fun j => decide ((udp_bindings j).view = .null)) UDP_MAX_BINDINGS 0 <
      UDP_MAX_BINDINGS
  · left
    have hk := scan_loop_stop _ h
    have hlow : ∀ j : Fin UDP_MAX_BINDINGS,
        j.val < scan_loop (fun j => decide ((udp_bindings j).view = .null)) UDP_MAX_BINDINGS 0 →
        udp_bindings j ≠ .null := by
      intro j hj hn
      have := scan_loop_before _ j hj
      simp [hn, udp_slot.view] at this
    have hk2 : udp_bindings ⟨_, h⟩ = .null := by
      simpa [udp_slot_view_null] using hk
    exact ⟨⟨_, h⟩, hk2, hlow, udp_bind_eq udp_bindings allocated port callback ⟨_, h⟩ hk2 hlow⟩
  · right
    have hall : ∀ j : Fin UDP_MAX_BINDINGS, udp_bindings j ≠ .null := by
      intro j hn
      have hj : j.val < scan_loop (fun j => decide ((udp_bindings j).view = .null))
          UDP_MAX_BINDINGS 0 := by omega
      have := scan_loop_before _ j hj
      simp [hn, udp_slot.view] at this
    exact ⟨hall, udp_bind_full udp_bindings allocated port callback hall⟩

/-- What `udp_unbind` leaves when it returns: the table as it was, or the
table with one live block freed and its pointer still in the slot. -/
theorem udp_unbind_cases (udp_bindings : Fin UDP_MAX_BINDINGS → udp_slot) (port : Nat)
    (r : Bool × (Fin UDP_MAX_BINDINGS → udp_slot))
    (h : udp_unbind udp_bindings port = .ok r) :
    r.2 = udp_bindings ∨
    ∃ (k : Fin UDP_MAX_BINDINGS) (binding : udp_bind_t), udp_bindings k = .live binding ∧
      r.2 = Function.update udp_bindings k (.freed binding) := by
  unfold udp_unbind at h
  split at h
  · cases h
  · rename_i id _
    by_cases hid : id < UDP_MAX_BINDINGS
    · simp only [hid, dite_true] at h
      split at h
      · cases h; exact Or.inl rfl
      · rename_i binding hb
        cases h
        exact Or.inr ⟨⟨id, hid⟩, binding, hb, rfl⟩
      · cases h
    · simp only [hid, dite_false] at h
      cases h; exact Or.inl rfl

theorem udp_unique_bind (udp_bindings : Fin UDP_MAX_BINDINGS → udp_slot) (allocated : Bool)
    (port : Nat) (callback : udp_inbound_t) (hu : udp_unique udp_bindings)
    (hfresh : ∀ i : Fin UDP_MAX_BINDINGS, (udp_bindings i).view ≠ .live port) :
    udp_unique (udp_bind udp_bindings allocated port callback).2 := by
  rcases udp_bind_cases udp_bindings allocated port callback with ⟨k, _, _, he⟩ | ⟨_, he⟩
  · rw [he]
    cases allocated
    · simpa using hu
    · simp only [if_true]
      intro i j p hi hj
      by_cases hik : i = k
      · by_cases hjk : j = k
        · rw [hik, hjk]
        · rw [hik, Function.update_same] at hi
          rw [Function.update_noteq hjk] at hj
          simp only [udp_slot.view, slot_view.live.injEq] at hi
          rw [← hi] at hj
          exact absurd hj (hfresh j)
      · by_cases hjk : j = k
        · rw [hjk, Function.update_same] at hj
          rw [Function.update_noteq hik] at hi
          simp only [udp_slot.view, slot_view.live.injEq] at hj
          rw [← hj] at hi
          exact absurd hi (hfresh i)
        · rw [Function.update_noteq hik] at hi
          rw [Function.update_noteq hjk] at hj
          exact hu i j p hi hj
  · rw [he]; exact hu

theorem udp_unique_unbind (udp_bindings : Fin UDP_MAX_BINDINGS → udp_slot) (port : Nat)
    (r : Bool × (Fin UDP_MAX_BINDINGS → udp_slot)) (hu : udp_unique udp_bindings)
    (h : udp_unbind udp_bindings port = .ok r) : udp_unique r.2 := by
  rcases udp_unbind_cases udp_bindings port r h with he | ⟨k, b, _, he⟩
  · rw [he]; exact hu
  · rw [he]
    have hlive : ∀ (i : Fin UDP_MAX_BINDINGS) (p : Nat),
        (Function.update udp_bindings k (.freed b) i).view = .live p →
        (udp_bindings i).view = .live p := by
      intro i p hi
      by_cases hik : i = k
      · rw [hik, Function.update_same] at hi
        simp [udp_slot.view] at hi
      · rwa [Function.update_noteq hik] at hi
    intro i j p hi hj
    exact hu i j p (hlive i p hi) (hlive j p hj)

theorem udp_unique_run : ∀ (calls : List udp_call)
    (udp_bindings t : Fin UDP_MAX_BINDINGS → udp_slot),
    udp_unique udp_bindings → udp_calls_fresh udp_bindings calls = true →
    udp_run udp_bindings calls = some t → udp_unique t := by
  intro calls
  induction calls with
  | nil =>
    intro udp_bindings t hu _ hrun
    simp only [udp_run, Option.some.injEq] at hrun
    rw [← hrun]; exact hu
  | cons call calls ih =>
    intro udp_bindings t hu hfresh hrun
    simp only [udp_calls_fresh, Bool.and_eq_true] at hfresh
    simp only [udp_run] at hrun
    cases call with
    | bind allocated port callback =>
      simp only [udp_step] at hrun hfresh
      exact ih _ t (udp_unique_bind udp_bindings allocated port callback hu
        (by simpa using hfresh.1)) hfresh.2 hrun
    | unbind port =>
      simp only [udp_step] at hrun hfresh
      cases hub : udp_unbind udp_bindings port with
      | error fault => simp [hub] at hrun
      | ok r =>
        simp only [hub] at hrun hfresh
        exact ih _ t (udp_unique_unbind udp_bindings port r hu hub) hfresh.2 hrun

theorem timer_chain_congr (heap heap2 : Nat → Option timer_t) :
    ∀ (l : List (Nat × timer_entry)) (q p : Nat),
      (∀ x ∈ l, heap2 x.1 = heap x.1) → timer_chain heap q p l → timer_chain heap2 q p l := by
  intro l
  induction l with
  | nil => intro q p _ h; exact h
  | cons x rest ih =>
    intro q p hsame h
    obtain ⟨h1, h2, t, h3, h4, h5, h6⟩ := h
    refine ⟨h1, h2, t, ?_, h4, h5, ?_⟩
    · rw [hsame x (List.mem_cons_self _ _)]; exact h3
    · exact ih x.1 t.next (fun y hy => hsame y (List.mem_cons_of_mem _ hy)) h6

theorem timer_chain_mem (heap : Nat → Option timer_t) :
    ∀ (l : List (Nat × timer_entry)) (q p : Nat), timer_chain heap q p l →
      ∀ x ∈ l, x.1 ≠ 0 ∧ ∃ t, heap x.1 = some t ∧ t.entry = x.2 := by
  intro l
  induction l with
  | nil => intro q p _ x hx; cases hx
  | cons y rest ih =>
    intro q p h x hx
    obtain ⟨_, h2, t, h3, h4, _, h6⟩ := h
    rcases List.mem_cons.1 hx with e | hm
    · rw [e]; exact ⟨h2, t, h3, h4⟩
    · exact ih y.1 t.next h6 x hm

theorem timer_chain_head (heap : Nat → Option timer_t) (l : List (Nat × timer_entry))
    (q p : Nat) (h : timer_chain heap q p l) : p = ((l.head?).map Prod.fst).getD 0 := by
  cases l with
  | nil => exact h
  | cons x rest => exact h.1

theorem timer_read_live (s : timer_state) (timer : Nat) (t : timer_t) (h0 : timer ≠ 0)
    (h : s.heap timer = some t) : timer_read s timer = .ok t := by
  simp [timer_read, h0, h]

/-- The pointer `timer_get` returns on a well-linked list: the address of the
first block with the callback, `NULL` when there is none. -/
theorem timer_get_loop_spec (s : timer_state) (callback : timer_callback_t) :
    ∀ (l : List (Nat × timer_entry)) (q p fuel : Nat),
      timer_chain s.heap q p l → l.length < fuel →
      timer_get_loop s callback fuel p =
        .ok (((l.find? fun x => decide (x.2.callback = callback)).map Prod.fst).getD 0) := by
  intro l
  induction l with
  | nil =>
    intro q p fuel h hf
    obtain ⟨k, rfl⟩ : ∃ k, fuel = k + 1 := ⟨fuel - 1, by simp at hf; omega⟩
    have hp : p = 0 := h
    simp [timer_get_loop, hp]
  | cons x rest ih =>
    intro q p fuel h hf
    obtain ⟨k, rfl⟩ : ∃ k, fuel = k + 1 := ⟨fuel - 1, by simp at hf; omega⟩
    obtain ⟨h1, h2, t, h3, h4, _, h6⟩ := h
    have hc : t.callback = x.2.callback := by rw [← h4]; rfl
    rw [timer_get_loop, h1]
    simp only [h2, if_false, timer_read_live s x.1 t h2 h3]
    by_cases hcb : x.2.callback = callback
    · simp [hc, hcb]
    · have := ih x.1 t.next k h6 (by simp at hf; omega)
      simp [hc, hcb, this]

theorem timer_state_eq (h1 h2 : Nat → Option timer_t) (t1 t2 : Nat) (hh : h1 = h2)
    (ht : t1 = t2) : timer_state.mk h1 t1 = timer_state.mk h2 t2 := by
  rw [hh, ht]

theorem timer_unlink_eq (s : timer_state) (timer : Nat) (t : timer_t)
    (h0 : timer ≠ 0) (ht : s.heap timer = some t)
    (hp : t.prev ≠ 0 → t.prev ≠ timer ∧ ∃ tp, s.heap t.prev = some tp)
    (hn : t.next ≠ 0 → t.next ≠ timer ∧ t.next ≠ t.prev ∧ ∃ tn, s.heap t.next = some tn) :
    timer_unlink s timer =
      .ok { heap := timer_heap_unlink s.heap timer t,
            timer_table := if timer = s.timer_table then t.next else s.timer_table } := by
  unfold timer_unlink
  rw [timer_read_live s timer t h0 ht]
  simp only
  by_cases hp0 : t.prev = 0
  · simp only [hp0, ne_eq, not_true_eq_false, if_false, timer_read_live s timer t h0 ht]
    by_cases hn0 : t.next = 0
    · simp only [hn0, ne_eq, not_true_eq_false, if_false, timer_read_live s timer t h0 ht]
      refine congrArg Except.ok (timer_state_eq _ _ _ _ ?_ (by simp [timer_write, hn0]))
      funext b
      simp only [timer_heap_unlink, hn0, hp0, ne_eq, not_true_eq_false, false_and, if_false,
        Function.update]
      by_cases hb : b = timer <;> simp [hb]
    · obtain ⟨hn1, _, tn, hn3⟩ := hn hn0
      have hr : timer_read (timer_write s t.next { tn with prev := 0 }) timer = .ok t := by
        apply timer_read_live _ _ _ h0
        simp [timer_write, Function.update, Ne.symm hn1, ht]
      simp only [hn0, ne_eq, not_false_eq_true, if_true, timer_set_prev,
        timer_read_live s t.next tn hn0 hn3, hr]
      refine congrArg Except.ok (timer_state_eq _ _ _ _ ?_ (by simp [timer_write, hn0]))
      funext b
      simp only [timer_heap_unlink, timer_write, hp0, hn0, ne_eq, not_true_eq_false,
        not_false_eq_true, true_and, false_and, if_false, Function.update]
      by_cases hb : b = timer
      · simp [hb]
      · by_cases hb2 : b = t.next
        · simp [hb, hb2, hn3, hn1]
        · simp [hb, hb2]
  · obtain ⟨hp1, tp, hp3⟩ := hp hp0
    have hr1 : timer_read (timer_write s t.prev { tp with next := t.next }) timer = .ok t := by
      apply timer_read_live _ _ _ h0
      simp [timer_write, Function.update, Ne.symm hp1, ht]
    simp only [hp0, ne_eq, not_false_eq_true, if_true, timer_set_next,
      timer_read_live s t.prev tp hp0 hp3, hr1]
    by_cases hn0 : t.next = 0
    · simp only [hn0, ne_eq, not_true_eq_false, if_false]
      have hr2 : timer_read (timer_write s t.prev { tp with next := 0 }) timer = .ok t := by
        apply timer_read_live _ _ _ h0
        simp [timer_write, Function.update, Ne.symm hp1, ht]
      simp only [hr2]
      refine congrArg Except.ok (timer_state_eq _ _ _ _ ?_ (by simp [timer_write, hn0]))
      funext b
      simp only [timer_heap_unlink, timer_write, hp0, hn0, ne_eq, not_true_eq_false,
        not_false_eq_true, true_and, false_and, if_false, Function.update]
      by_cases hb : b = timer
      · simp [hb]
      · by_cases hb2 : b = t.prev
        · simp [hb, hb2, hp3, hp1]
        · simp [hb, hb2]
    · obtain ⟨hn1, hn2, tn, hn3⟩ := hn hn0
      have hrn : timer_read (timer_write s t.prev { tp with next := t.next }) t.next =
          .ok tn := by
        apply timer_read_live _ _ _ hn0
        simp [timer_write, Function.update, hn2, hn3]
      have hr3 : timer_read (timer_write (timer_write s t.prev { tp with next := t.next })
          t.next { tn with prev := t.prev }) timer = .ok t := by
        apply timer_read_live _ _ _ h0
        simp [timer_write, Function.update, Ne.symm hp1, Ne.symm hn1, ht]
      simp only [hn0, ne_eq, not_false_eq_true, if_true, timer_set_prev, hrn, hr3]
      refine congrArg Except.ok (timer_state_eq _ _ _ _ ?_ (by simp [timer_write, hn0]))
      funext b
      simp only [timer_heap_unlink, timer_write, hp0, hn0, ne_eq, not_true_eq_false,
        not_false_eq_true, true_and, false_and, if_false, Function.update]
      by_cases hb : b = timer
      · simp [hb]
      · by_cases hb2 : b = t.next
        · simp [hb, hb2, hn3, hn1, hn2]
        · by_cases hb3 : b = t.prev
          · simp [hb, hb2, hb3, hp3, hp1, Ne.symm hn2]
          · simp [hb, hb2, hb3]

theorem timer_heap_unlink_other (heap : Nat → Option timer_t) (timer : Nat) (t : timer_t)
    (b : Nat) (h1 : b ≠ timer) (h2 : b ≠ t.next) (h3 : b ≠ t.prev) :
    timer_heap_unlink heap timer t b = heap b := by
  simp [timer_heap_unlink, h1, h2, h3]

/-- The part of the list behind the block that is taken out: its first block
gets the `prev` of the block taken out. -/
theorem timer_chain_unlink_behind (heap : Nat → Option timer_t) (timer : Nat) (t : timer_t)
    (l2 : List (Nat × timer_entry)) (h : timer_chain heap timer t.next l2)
    (hnd : (timer :: l2.map Prod.fst).Nodup) (hq : t.prev ∉ l2.map Prod.fst) :
    timer_chain (timer_heap_unlink heap timer t) t.prev t.next l2 := by
  cases l2 with
  | nil => exact h
  | cons n l3 =>
    obtain ⟨h1, h2, tn, h3, h4, _, h6⟩ := h
    simp only [List.map_cons, List.nodup_cons, List.mem_cons, not_or] at hnd hq
    have hnt : n.1 ≠ timer := fun e => hnd.1.1 e.symm
    have hnext0 : t.next ≠ 0 := by rw [h1]; exact h2
    refine ⟨h1, h2, { tn with prev := t.prev }, ?_, h4, rfl, ?_⟩
    · simp only [timer_heap_unlink]
      rw [if_neg hnt, if_pos ⟨hnext0, h1.symm⟩, h3]
      rfl
    · refine timer_chain_congr heap _ l3 n.1 tn.next (fun y hy => ?_) h6
      have hy1 : y.1 ∈ l3.map Prod.fst := List.mem_map_of_mem _ hy
      apply timer_heap_unlink_other
      · intro e; exact hnd.1.2 (e ▸ hy1)
      · intro e; rw [h1] at e; exact hnd.2.1 (e ▸ hy1)
      · intro e; exact hq.2 (e ▸ hy1)

/-- The block at the address of `x` in a well-linked list: its `prev` is the
block before it and the list goes on behind it. -/
theorem timer_chain_at (heap : Nat → Option timer_t) (x : Nat × timer_entry)
    (l2 : List (Nat × timer_entry)) :
    ∀ (l1 : List (Nat × timer_entry)) (q p : Nat), timer_chain heap q p (l1 ++ x :: l2) →
      ∃ t, heap x.1 = some t ∧ t.entry = x.2 ∧
        t.prev = ((l1.getLast?).map Prod.fst).getD q ∧ timer_chain heap x.1 t.next l2 := by
  intro l1
  induction l1 with
  | nil =>
    intro q p h
    obtain ⟨_, _, t, h3, h4, h5, h6⟩ := h
    exact ⟨t, h3, h4, by simpa using h5, h6⟩
  | cons b l1 ih =>
    intro q p h
    obtain ⟨_, _, tb, _, _, _, h6⟩ := h
    obtain ⟨t, h3, h4, h5, h7⟩ := ih b.1 tb.next h6
    refine ⟨t, h3, h4, ?_, h7⟩
    rw [h5]
    cases l1 with
    | nil => simp
    | cons c l1 =>
      rw [List.getLast?_cons_cons, List.getLast?_eq_getLast _ (List.cons_ne_nil c l1)]
      rfl

theorem timer_chain_unlink (heap : Nat → Option timer_t) (x : Nat × timer_entry) (t : timer_t)
    (l2 : List (Nat × timer_entry)) (ht : heap x.1 = some t) :
    ∀ (l1 : List (Nat × timer_entry)) (q p : Nat),
      timer_chain heap q p (l1 ++ x :: l2) →
      ((l1 ++ x :: l2).map Prod.fst).Nodup → q ∉ (l1 ++ x :: l2).map Prod.fst →
      timer_chain (timer_heap_unlink heap x.1 t) q (if p = x.1 then t.next else p)
        (l1 ++ l2) := by
  intro l1
  induction l1 with
  | nil =>
    intro q p h hnd hq
    obtain ⟨h1, _, t2, h3, _, h5, h6⟩ := h
    have et : t2 = t := by rw [ht] at h3; exact (Option.some.inj h3).symm
    subst et
    simp only [List.nil_append, List.map_cons, List.mem_cons, not_or] at hnd hq ⊢
    rw [if_pos h1, ← h5]
    exact timer_chain_unlink_behind heap x.1 t2 l2 h6 hnd (h5 ▸ hq.2)
  | cons b l1 ih =>
    intro q p h hnd hq
    have hall := h
    obtain ⟨h1, h2, tb, h3, h4, h5, h6⟩ := h
    simp only [List.cons_append, List.map_cons, List.nodup_cons, List.mem_cons, not_or] at hnd hq
    have hbx : b.1 ≠ x.1 := by
      intro e
      apply hnd.1
      rw [e]
      simp
    obtain ⟨t2, k3, _, k5, k7⟩ := timer_chain_at heap x l2 (b :: l1) q p hall
    have et : t2 = t := by rw [ht] at k3; exact (Option.some.inj k3).symm
    subst et
    have hih := ih b.1 tb.next h6 hnd.2 hnd.1
    have hnext : t2.next ≠ 0 → t2.next ∈ l2.map Prod.fst := by
      intro hne
      have := timer_chain_head heap l2 x.1 t2.next k7
      cases l2 with
      | nil => simp at this; exact absurd this hne
      | cons n l3 => simp at this; simp [this]
    have hbn : ¬ (t2.next ≠ 0 ∧ b.1 = t2.next) := by
      rintro ⟨hne, e⟩
      apply hnd.1
      rw [e]
      simp only [List.map_append, List.map_cons, List.mem_append, List.mem_cons]
      exact Or.inr (Or.inr (hnext hne))
    have hpx : p ≠ x.1 := by rw [h1]; exact hbx
    rw [if_neg hpx]
    refine ⟨h1, h2, { tb with next := if tb.next = x.1 then t2.next else tb.next }, ?_, h4, h5,
      hih⟩
    have hhead := timer_chain_head heap (l1 ++ x :: l2) b.1 tb.next h6
    cases l1 with
    | nil =>
      simp only [List.nil_append, List.head?_cons, Option.map_some', Option.getD_some] at hhead
      have hprev : t2.prev = b.1 := by simpa using k5
      simp [timer_heap_unlink, hbx, hbn, hprev, h2, h3, hhead]
    | cons c l1 =>
      simp only [List.cons_append, List.head?_cons, Option.map_some', Option.getD_some] at hhead
      have hcx : c.1 ≠ x.1 := by
        intro e
        have := hnd.2
        simp only [List.cons_append, List.map_cons, List.nodup_cons, List.map_append,
          List.mem_append, List.mem_cons, not_or] at this
        exact this.1.2.1 e
      have hprev : t2.prev ∈ (c :: l1).map Prod.fst := by
        rw [k5]
        have hne : (b :: c :: l1) ≠ [] := by simp
        rw [List.getLast?_eq_getLast _ hne]
        simp only [Option.map_some', Option.getD_some]
        rw [List.getLast_cons (by simp : (c :: l1) ≠ [])]
        exact List.mem_map_of_mem _ (List.getLast_mem _)
      have hbp : b.1 ≠ t2.prev := by
        intro e
        apply hnd.1
        rw [e]
        simp only [List.map_append, List.mem_append]
        exact Or.inl hprev
      have hne : ¬ tb.next = x.1 := by rw [hhead]; exact hcx
      simp [timer_heap_unlink, hbx, hbn, hbp, h3, hne]

theorem timer_list_at (s : timer_state) (l1 : List (Nat × timer_entry)) (x : Nat × timer_entry)
    (l2 : List (Nat × timer_entry)) (h : timer_list s (l1 ++ x :: l2)) :
    x.1 ≠ 0 ∧ ∃ t, s.heap x.1 = some t ∧ t.entry = x.2 ∧
      (t.prev ≠ 0 → t.prev ∈ l1.map Prod.fst) ∧ (t.next ≠ 0 → t.next ∈ l2.map Prod.fst) ∧
      t.next = ((l2.head?).map Prod.fst).getD 0 ∧
      timer_chain s.heap x.1 t.next l2 := by
  obtain ⟨hc, _⟩ := h
  have hx0 := (timer_chain_mem s.heap _ 0 s.timer_table hc x (by simp)).1
  obtain ⟨t, h3, h4, h5, h7⟩ := timer_chain_at s.heap x l2 l1 0 s.timer_table hc
  have hhead := timer_chain_head s.heap l2 x.1 t.next h7
  refine ⟨hx0, t, h3, h4, ?_, ?_, hhead, h7⟩
  · intro hne
    rw [h5] at hne ⊢
    cases hl : l1.getLast? with
    | none => simp [hl] at hne
    | some y =>
      simp only [Option.map_some', Option.getD_some]
      exact List.mem_map_of_mem _ (List.mem_of_getLast?_eq_some hl)
  · intro hne
    rw [hhead] at hne ⊢
    cases l2 with
    | nil => simp at hne
    | cons n l3 => simp

/-- Taking a block of the list out: `timer_unlink` returns, the list loses
that block and keeps the others with their members and their order, the block
is no longer live, and no block outside the list is written. -/
theorem timer_unlink_spec (s : timer_state) (l1 : List (Nat × timer_entry))
    (x : Nat × timer_entry) (l2 : List (Nat × timer_entry))
    (h : timer_list s (l1 ++ x :: l2)) :
    ∃ s2, timer_unlink s x.1 = .ok s2 ∧ timer_list s2 (l1 ++ l2) ∧ s2.heap x.1 = none ∧
      ∀ b, b ∉ (l1 ++ x :: l2).map Prod.fst → s2.heap b = s.heap b := by
  obtain ⟨hx0, t, ht, _, hprev, hnext, _, _⟩ := timer_list_at s l1 x l2 h
  obtain ⟨hc, hnd⟩ := h
  have hnd2 := hnd
  simp only [List.map_append, List.map_cons, List.nodup_append, List.nodup_cons,
    List.mem_cons] at hnd2
  obtain ⟨hn1, ⟨hn2, hn3⟩, hn4⟩ := hnd2
  have hlive : ∀ a, a ∈ (l1 ++ x :: l2).map Prod.fst → a ≠ 0 ∧ ∃ ta, s.heap a = some ta := by
    intro a ha
    obtain ⟨y, hy, rfl⟩ := List.mem_map.1 ha
    obtain ⟨k1, ta, k2, _⟩ := timer_chain_mem s.heap _ 0 s.timer_table hc y hy
    exact ⟨k1, ta, k2⟩
  have hp : t.prev ≠ 0 → t.prev ≠ x.1 ∧ ∃ tp, s.heap t.prev = some tp := by
    intro hne
    have hm := hprev hne
    refine ⟨fun e => ?_, (hlive t.prev (by simp [hm])).2⟩
    exact hn4 hm (by simp [e])
  have hn : t.next ≠ 0 → t.next ≠ x.1 ∧ t.next ≠ t.prev ∧ ∃ tn, s.heap t.next = some tn := by
    intro hne
    have hm := hnext hne
    refine ⟨fun e => hn2 (e ▸ hm), fun e => ?_, (hlive t.next (by simp [hm])).2⟩
    have hpne : t.prev ≠ 0 := by rw [← e]; exact hne
    exact hn4 (hprev hpne) (by simp [← e, hm])
  refine ⟨_, timer_unlink_eq s x.1 t hx0 ht hp hn, ⟨?_, ?_⟩, ?_, ?_⟩
  · have hq : (0 : Nat) ∉ (l1 ++ x :: l2).map Prod.fst := fun h0 => (hlive 0 h0).1 rfl
    have := timer_chain_unlink s.heap x t l2 ht l1 0 s.timer_table hc hnd hq
    simp only
    by_cases e : s.timer_table = x.1
    · rw [if_pos e] at this
      rw [if_pos e.symm]
      exact this
    · rw [if_neg e] at this
      rw [if_neg (fun e2 => e e2.symm)]
      exact this
  · simp only [List.map_append, List.nodup_append]
    exact ⟨hn1, hn3, fun a h1 h2 => hn4 h1 (List.mem_cons_of_mem _ h2)⟩
  · simp [timer_heap_unlink]
  · intro b hb
    simp only [List.map_append, List.map_cons, List.mem_append, List.mem_cons, not_or] at hb
    have h1 : b ≠ x.1 := hb.2.1
    have h2 : ¬ (t.next ≠ 0 ∧ b = t.next) := fun ⟨hne, e⟩ => hb.2.2 (e ▸ hnext hne)
    have h3 : ¬ (t.prev ≠ 0 ∧ b = t.prev) := fun ⟨hne, e⟩ => hb.1 (e ▸ hprev hne)
    simp only [timer_heap_unlink]
    rw [if_neg h1, if_neg h2, if_neg h3]

/-- A list either has no element with the property, or splits at the first
one. -/
theorem list_find_split {α : Type} (p : α → Bool) (l : List α) :
    (l.find? p = none ∧ l.eraseP p = l ∧ ∀ x ∈ l, p x = false) ∨
    ∃ l1 x l2, l = l1 ++ x :: l2 ∧ l.find? p = some x ∧ l.eraseP p = l1 ++ l2 ∧
      p x = true ∧ ∀ y ∈ l1, p y = false := by
  induction l with
  | nil => exact Or.inl ⟨rfl, rfl, fun x hx => by cases hx⟩
  | cons a l ih =>
    by_cases ha : p a = true
    · exact Or.inr ⟨[], a, l, rfl, by simp [List.find?, ha], by simp [List.eraseP, ha], ha,
        fun y hy => by cases hy⟩
    · have ha2 : p a = false := by simpa using ha
      rcases ih with ⟨h1, h2, h3⟩ | ⟨l1, x, l2, h1, h2, h3, h4, h5⟩
      · refine Or.inl ⟨by simp [List.find?, ha2, h1], by simp [List.eraseP, ha2, h2], ?_⟩
        intro x hx
        rcases List.mem_cons.1 hx with e | hm
        · rw [e]; exact ha2
        · exact h3 x hm
      · refine Or.inr ⟨a :: l1, x, l2, by rw [h1]; rfl, by simp [List.find?, ha2, h2],
          by simp [List.eraseP, ha2, h3], h4, ?_⟩
        intro y hy
        rcases List.mem_cons.1 hy with e | hm
        · rw [e]; exact ha2
        · exact h5 y hm

theorem timer_get_spec (fuel : Nat) (s : timer_state) (callback : timer_callback_t)
    (l : List (Nat × timer_entry)) (h : timer_list s l) (hf : l.length < fuel) :
    timer_get fuel s callback =
      .ok (((l.find? fun x => decide (x.2.callback = callback)).map Prod.fst).getD 0) :=
  timer_get_loop_spec s callback l 0 s.timer_table fuel h.1 hf

/-- The function `timer_clear` on a well-linked list: it returns, and the
list is the list before without the first timer of the callback. -/
theorem timer_clear_spec (fuel : Nat) (s : timer_state) (callback : timer_callback_t)
    (l : List (Nat × timer_entry)) (h : timer_list s l) (hf : l.length < fuel) :
    ∃ s2, timer_clear fuel s callback = .ok s2 ∧
      timer_list s2 (l.eraseP fun x => decide (x.2.callback = callback)) ∧
      (∀ b, b ∉ l.map Prod.fst → s2.heap b = s.heap b) ∧
      (∀ x ∈ l, x ∉ l.eraseP (fun x => decide (x.2.callback = callback)) →
        s2.heap x.1 = none) := by
  unfold timer_clear
  rw [timer_get_spec fuel s callback l h hf]
  rcases list_find_split (fun x : Nat × timer_entry => decide (x.2.callback = callback)) l with
    ⟨h1, h2, _⟩ | ⟨l1, x, l2, h1, h2, h3, _, _⟩
  · rw [h1, h2]
    exact ⟨s, by simp, h, fun _ _ => rfl, fun x hx hn => absurd hx hn⟩
  · rw [h2, h3]
    subst h1
    obtain ⟨s2, k1, k2, k3, k4⟩ := timer_unlink_spec s l1 x l2 h
    have hx0 := (timer_list_at s l1 x l2 h).1
    refine ⟨s2, by simp [hx0, k1], k2, k4, ?_⟩
    intro y hy hn
    have hnd := h.2
    rcases List.mem_append.1 hy with hm | hm
    · exact absurd (List.mem_append_left _ hm) hn
    · rcases List.mem_cons.1 hm with e | hm2
      · rw [e]; exact k3
      · exact absurd (List.mem_append_right _ hm2) hn

/-- The function `timer_set` on a well-linked list, `calloc` returning a
block that is not live: it returns, and the list is the new timer followed by
the list before without the first timer of the callback. -/
theorem timer_set_spec (fuel : Nat) (s : timer_state) (timer now : Nat)
    (callback : timer_callback_t) (interval : Nat) (l : List (Nat × timer_entry))
    (h : timer_list s l) (hf : l.length < fuel) (h0 : timer ≠ 0)
    (hfresh : ∀ s1, timer_clear fuel s callback = .ok s1 → s1.heap timer = none) :
    ∃ s2, timer_set fuel s timer now callback interval = .ok s2 ∧
      timer_list s2 ((timer, { start := now, interval := interval, callback := callback }) ::
        l.eraseP fun x => decide (x.2.callback = callback)) := by
  obtain ⟨s1, k1, k2, _, _⟩ := timer_clear_spec fuel s callback l h hf
  have hnone := hfresh s1 k1
  have hnot : timer ∉ (l.eraseP fun x => decide (x.2.callback = callback)).map Prod.fst := by
    intro hm
    obtain ⟨y, hy, e⟩ := List.mem_map.1 hm
    obtain ⟨_, ty, hty, _⟩ := timer_chain_mem s1.heap _ 0 s1.timer_table k2.1 y hy
    rw [e, hnone] at hty
    cases hty
  unfold timer_set
  rw [k1]
  simp only [h0, if_false]
  generalize (l.eraseP fun x => decide (x.2.callback = callback)) = l2 at k2 hnot
  cases l2 with
  | nil =>
    have ht : s1.timer_table = 0 := k2.1
    simp only [timer_write, ht, if_true]
    refine ⟨_, rfl, ⟨?_, by simp⟩⟩
    exact ⟨rfl, h0,
      { start := now, interval := interval, callback := callback, prev := 0, next := 0 },
      by simp [Function.update], rfl, rfl, rfl⟩
  | cons y r =>
    obtain ⟨⟨c1, c2, ty, c3, c4, c5, c6⟩, hnd⟩ := k2
    simp only [List.map_cons, List.mem_cons, not_or] at hnot
    simp only [List.map_cons, List.nodup_cons] at hnd
    have hyt : y.1 ≠ timer := fun e => hnot.1 e.symm
    have ht : ¬ s1.timer_table = 0 := by rw [c1]; exact c2
    have hr1 : timer_read (timer_write s1 timer
        { start := now, interval := interval, callback := callback, prev := 0, next := 0 })
        s1.timer_table = .ok ty := by
      apply timer_read_live
      · exact ht
      · rw [c1]
        simp [timer_write, Function.update, hyt, c3]
    simp only [timer_write] at hr1
    simp only [timer_write, ht, if_false, timer_set_prev, hr1, timer_set_next]
    have hr2 : timer_read
        { heap := Function.update (Function.update s1.heap timer
            (some { start := now, interval := interval, callback := callback, prev := 0,
                    next := 0 })) s1.timer_table (some { ty with prev := timer }),
          timer_table := s1.timer_table } timer =
        .ok { start := now, interval := interval, callback := callback, prev := 0,
              next := 0 } := by
      apply timer_read_live _ _ _ h0
      rw [c1]
      simp [Function.update, Ne.symm hyt]
    simp only [hr2]
    refine ⟨_, rfl, ⟨?_, ?_⟩⟩
    · refine ⟨rfl, h0,
        { start := now, interval := interval, callback := callback, prev := 0,
          next := s1.timer_table }, by simp [Function.update], rfl, rfl, ?_⟩
      refine ⟨c1, c2, { ty with prev := timer }, ?_, c4, rfl, ?_⟩
      · rw [c1]
        simp [Function.update, hyt]
      · refine timer_chain_congr s1.heap _ r y.1 ty.next (fun z hz => ?_) c6
        have hz1 : z.1 ∈ r.map Prod.fst := List.mem_map_of_mem _ hz
        have hzt : z.1 ≠ timer := fun e => hnot.2 (e ▸ hz1)
        have hzy : z.1 ≠ y.1 := fun e => hnd.1 (e ▸ hz1)
        rw [c1]
        simp [Function.update, hzt, hzy]
    · simp only [List.map_cons, List.nodup_cons, List.mem_cons, not_or]
      exact ⟨⟨hnot.1, hnot.2⟩, hnd⟩

theorem list_update_first_split {α : Type} (p : α → Bool) (f : α → α) (l1 : List α) (x : α)
    (l2 : List α) (hx : p x = true) (h1 : ∀ y ∈ l1, p y = false) :
    list_update_first p f (l1 ++ x :: l2) = l1 ++ f x :: l2 := by
  induction l1 with
  | nil => simp [list_update_first, hx]
  | cons a l1 ih =>
    have ha := h1 a (List.mem_cons_self _ _)
    simp [list_update_first, ha, ih (fun y hy => h1 y (List.mem_cons_of_mem _ hy))]

theorem list_update_first_none {α : Type} (p : α → Bool) (f : α → α) (l : List α)
    (h : ∀ y ∈ l, p y = false) : list_update_first p f l = l := by
  induction l with
  | nil => rfl
  | cons a l ih =>
    have ha := h a (List.mem_cons_self _ _)
    simp [list_update_first, ha, ih (fun y hy => h y (List.mem_cons_of_mem _ hy))]

theorem timer_chain_set_start (heap : Nat → Option timer_t) (x : Nat × timer_entry)
    (t : timer_t) (l2 : List (Nat × timer_entry)) (v : Nat) (ht : heap x.1 = some t) :
    ∀ (l1 : List (Nat × timer_entry)) (q p : Nat),
      timer_chain heap q p (l1 ++ x :: l2) → ((l1 ++ x :: l2).map Prod.fst).Nodup →
      timer_chain (Function.update heap x.1 (some { t with start := v })) q p
        (l1 ++ timer_with_start x v :: l2) := by
  intro l1
  induction l1 with
  | nil =>
    intro q p h hnd
    obtain ⟨h1, h2, t2, h3, h4, h5, h6⟩ := h
    have et : t2 = t := by rw [ht] at h3; exact (Option.some.inj h3).symm
    subst et
    simp only [List.nil_append, List.map_cons, List.nodup_cons] at hnd ⊢
    refine ⟨h1, h2, { t2 with start := v }, by simp [timer_with_start], ?_, h5, ?_⟩
    · simp only [timer_with_start, ← h4]
      rfl
    · refine timer_chain_congr heap _ l2 x.1 t2.next (fun y hy => ?_) h6
      have hy1 : y.1 ∈ l2.map Prod.fst := List.mem_map_of_mem _ hy
      have : y.1 ≠ x.1 := fun e => hnd.1 (e ▸ hy1)
      simp [Function.update, this]
  | cons b l1 ih =>
    intro q p h hnd
    obtain ⟨h1, h2, tb, h3, h4, h5, h6⟩ := h
    simp only [List.cons_append, List.map_cons, List.nodup_cons] at hnd
    have hbx : b.1 ≠ x.1 := by
      intro e
      apply hnd.1
      rw [e]
      simp
    refine ⟨h1, h2, tb, by simp [Function.update, hbx, h3], h4, h5, ih b.1 tb.next h6 hnd.2⟩

theorem timer_set_start_spec (s : timer_state) (l1 : List (Nat × timer_entry))
    (x : Nat × timer_entry) (l2 : List (Nat × timer_entry)) (v : Nat)
    (h : timer_list s (l1 ++ x :: l2)) :
    ∃ s2, timer_set_start s x.1 v = .ok s2 ∧ timer_list s2 (l1 ++ timer_with_start x v :: l2) ∧
      s2.timer_table = s.timer_table ∧ ∀ b, b ≠ x.1 → s2.heap b = s.heap b := by
  obtain ⟨hx0, t, ht, _, _, _, _, _⟩ := timer_list_at s l1 x l2 h
  refine ⟨timer_write s x.1 { t with start := v }, ?_, ⟨?_, ?_⟩, rfl, ?_⟩
  · simp [timer_set_start, timer_read_live s x.1 t hx0 ht]
  · exact timer_chain_set_start s.heap x t l2 v ht l1 0 s.timer_table h.1 h.2
  · have := h.2
    simpa [timer_with_start] using this
  · intro b hb
    simp [timer_write, Function.update, hb]

/-- The function `timer_reset` on a well-linked list: it returns, and the
first timer of the callback has `start` advanced by `interval`. -/
theorem timer_reset_spec (fuel : Nat) (s : timer_state) (callback : timer_callback_t)
    (l : List (Nat × timer_entry)) (h : timer_list s l) (hf : l.length < fuel) :
    ∃ s2, timer_reset fuel s callback = .ok s2 ∧
      timer_list s2
        (list_update_first (fun x => decide (x.2.callback = callback)) timer_advanced l) := by
  unfold timer_reset
  rw [timer_get_spec fuel s callback l h hf]
  rcases list_find_split (fun x : Nat × timer_entry => decide (x.2.callback = callback)) l with
    ⟨h1, _, h3⟩ | ⟨l1, x, l2, h1, h2, _, h4, h5⟩
  · rw [h1, list_update_first_none _ _ l h3]
    exact ⟨s, by simp, h⟩
  · rw [h2]
    subst h1
    rw [list_update_first_split _ _ l1 x l2 h4 h5]
    obtain ⟨hx0, t, ht, he, _, _, _, _⟩ := timer_list_at s l1 x l2 h
    obtain ⟨s2, k1, k2, _, _⟩ := timer_set_start_spec s l1 x l2
      (to_uint32 ((x.2.start : Int) + (x.2.interval : Int))) h
    have e1 : t.start = x.2.start := by rw [← he]; rfl
    have e2 : t.interval = x.2.interval := by rw [← he]; rfl
    refine ⟨s2, ?_, k2⟩
    simp [hx0, timer_read_live s x.1 t hx0 ht, e1, e2, k1]

/-- The function `timer_restart` on a well-linked list: it returns, and the
first timer of the callback has `start` set to `now`. -/
theorem timer_restart_spec (fuel : Nat) (s : timer_state) (now : Nat)
    (callback : timer_callback_t) (l : List (Nat × timer_entry)) (h : timer_list s l)
    (hf : l.length < fuel) :
    ∃ s2, timer_restart fuel s now callback = .ok s2 ∧
      timer_list s2
        (list_update_first (fun x => decide (x.2.callback = callback))
          (fun x => timer_with_start x now) l) := by
  unfold timer_restart
  rw [timer_get_spec fuel s callback l h hf]
  rcases list_find_split (fun x : Nat × timer_entry => decide (x.2.callback = callback)) l with
    ⟨h1, _, h3⟩ | ⟨l1, x, l2, h1, h2, _, h4, h5⟩
  · rw [h1, list_update_first_none _ _ l h3]
    exact ⟨s, by simp, h⟩
  · rw [h2]
    subst h1
    rw [list_update_first_split _ _ l1 x l2 h4 h5]
    obtain ⟨hx0, _⟩ := timer_list_at s l1 x l2 h
    obtain ⟨s2, k1, k2, _, _⟩ := timer_set_start_spec s l1 x l2 now h
    exact ⟨s2, by simp [hx0, k1], k2⟩

/-- The loop of `timer_periodic` on a well-linked list with callbacks that do
not touch the timers, entered at the first block of `rest` with the blocks of
`done` before it. -/
theorem timer_periodic_loop_spec {W : Type} (run : timer_callback_t → W → Bool × W)
    (now : Nat) :
    ∀ (rest done : List (Nat × timer_entry)) (s : timer_state) (world : W) (fuel : Nat),
      timer_list s (done ++ rest) → rest.length < fuel →
      ∃ (outcomes : List (Option Bool)) (r : timer_sweep W),
        timer_periodic_loop (timer_callbacks run) now fuel
          (((rest.head?).map Prod.fst).getD 0) s world = .ok r ∧
        outcomes.length = rest.length ∧
        (∀ x ∈ rest.zip outcomes, x.2.isSome = timer_due now x.1) ∧
        r.calls = (rest.zip outcomes).filterMap
          (fun x => x.2.map (fun b => (x.1.2.callback, b))) ∧
        timer_list r.state (done ++ (rest.zip outcomes).filterMap timer_after) ∧
        (∀ b, b ∉ (done ++ rest).map Prod.fst → r.state.heap b = s.heap b) ∧
        outcomes = (timer_sweep_outcomes run now rest world).1 ∧
        r.world = (timer_sweep_outcomes run now rest world).2 := by
  intro rest
  induction rest with
  | nil =>
    intro done s world fuel h hf
    obtain ⟨k, rfl⟩ : ∃ k, fuel = k + 1 := ⟨fuel - 1, by simp at hf; omega⟩
    refine ⟨[], { state := s, world := world, calls := [] }, ?_, rfl, ?_, rfl, ?_, ?_,
      rfl, rfl⟩
    · simp [timer_periodic_loop]
    · intro x hx; cases hx
    · simpa using h
    · intro b _; rfl
  | cons x rest ih =>
    intro done s world fuel h hf
    obtain ⟨k, rfl⟩ : ∃ k, fuel = k + 1 := ⟨fuel - 1, by simp at hf; omega⟩
    have hk : rest.length < k := by simp at hf; omega
    obtain ⟨hx0, t, ht, he, _, _, hnext, _⟩ := timer_list_at s done x rest h
    have e1 : t.start = x.2.start := by rw [← he]; rfl
    have e2 : t.interval = x.2.interval := by rw [← he]; rfl
    have e3 : t.callback = x.2.callback := by rw [← he]; rfl
    rw [timer_periodic_loop]
    simp only [List.head?_cons, Option.map_some', Option.getD_some, hx0, if_false,
      timer_read_live s x.1 t hx0 ht, e1, e2, e3, hnext]
    by_cases hd : to_uint32 ((now : Int) - (x.2.start : Int)) < x.2.interval
    · have h2 : timer_list s ((done ++ [x]) ++ rest) := by simpa using h
      obtain ⟨o, r, k1, k2, k3, k4, k5, k6, k7, k8⟩ := ih (done ++ [x]) s world k h2 hk
      have hnd : timer_due now x = false := by
        simp only [timer_due, decide_eq_false_iff_not]; omega
      refine ⟨none :: o, r, ?_, by simp [k2], ?_, ?_, ?_, ?_,
        by simp [timer_sweep_outcomes, hnd, k7], by simp [timer_sweep_outcomes, hnd, k8]⟩
      · simp only [hd, if_true]
        exact k1
      · intro y hy
        rcases List.mem_cons.1 hy with e | hm
        · rw [e]
          simp only [Option.isSome_none, timer_due]
          symm
          simp only [decide_eq_false_iff_not]
          omega
        · exact k3 y hm
      · simpa [timer_after] using k4
      · simpa [timer_after] using k5
      · intro b hb
        exact k6 b (by simpa using hb)
    · have hdue : timer_due now x = true := by
        simp only [timer_due, decide_eq_true_eq]; omega
      simp only [hd, if_false, timer_callbacks]
      by_cases hr : (run x.2.callback world).1 = true
      · obtain ⟨s2, j1, j2, _, j4⟩ := timer_set_start_spec s done x rest
          (to_uint32 ((x.2.start : Int) + (x.2.interval : Int))) h
        have h2 : timer_list s2 ((done ++ [timer_advanced x]) ++ rest) := by
          simpa [timer_advanced] using j2
        obtain ⟨o, r, k1, k2, k3, k4, k5, k6, k7, k8⟩ :=
          ih (done ++ [timer_advanced x]) s2 (run x.2.callback world).2 k h2 hk
        refine ⟨some true :: o, { r with calls := (x.2.callback, true) :: r.calls }, ?_,
          by simp [k2], ?_, ?_, ?_, ?_,
          by simp [timer_sweep_outcomes, hdue, hr, k7],
          by simp [timer_sweep_outcomes, hdue, k8]⟩
        · simp only [hr, Bool.not_true, Bool.false_eq_true, if_false,
            timer_read_live s x.1 t hx0 ht, e1, e2, j1, k1, timer_logged]
        · intro y hy
          rcases List.mem_cons.1 hy with e | hm
          · rw [e]; simp [hdue]
          · exact k3 y hm
        · simp [k4]
        · simpa [timer_after] using k5
        · intro b hb
          have hb2 : b ∉ ((done ++ [timer_advanced x]) ++ rest).map Prod.fst := by
            simpa [timer_advanced, timer_with_start] using hb
          rw [k6 b hb2]
          apply j4
          intro e
          apply hb
          rw [e]
          simp
      · have hr2 : (run x.2.callback world).1 = false := by simpa using hr
        obtain ⟨s2, j1, j2, _, j4⟩ := timer_unlink_spec s done x rest h
        obtain ⟨o, r, k1, k2, k3, k4, k5, k6, k7, k8⟩ :=
          ih done s2 (run x.2.callback world).2 k j2 hk
        refine ⟨some false :: o, { r with calls := (x.2.callback, false) :: r.calls }, ?_,
          by simp [k2], ?_, ?_, ?_, ?_,
          by simp [timer_sweep_outcomes, hdue, hr2, k7],
          by simp [timer_sweep_outcomes, hdue, k8]⟩
        · simp only [hr2, Bool.not_false, if_true, j1, k1, timer_logged]
        · intro y hy
          rcases List.mem_cons.1 hy with e | hm
          · rw [e]; simp [hdue]
          · exact k3 y hm
        · simp [k4]
        · simpa [timer_after] using k5
        · intro b hb
          have hb2 : b ∉ (done ++ rest).map Prod.fst := by
            intro hm
            apply hb
            simp only [List.map_append, List.map_cons, List.mem_append, List.mem_cons] at hm ⊢
            rcases hm with hm | hm
            · exact Or.inl hm
            · exact Or.inr (Or.inr hm)
          rw [k6 b hb2]
          exact j4 b hb

theorem list_eraseP_eq_filter (callback : timer_callback_t) (l : List (Nat × timer_entry))
    (hu : timer_unique l) :
    l.eraseP (fun x => decide (x.2.callback = callback)) =
      l.filter (fun x => decide (x.2.callback ≠ callback)) := by
  induction l with
  | nil => rfl
  | cons a l ih =>
    simp only [timer_unique, List.map_cons, List.nodup_cons] at hu
    by_cases h : a.2.callback = callback
    · have hnot : ∀ t ∈ l, t.2.callback ≠ callback := by
        intro t ht e
        exact hu.1 (List.mem_map.2 ⟨t, ht, by rw [e, h]⟩)
      have hf : l.filter (fun x => decide (x.2.callback ≠ callback)) = l :=
        List.filter_eq_self.2 (fun t ht => by simpa using hnot t ht)
      rw [List.eraseP_cons_of_pos (by simp [h]), List.filter_cons_of_neg (by simp [h]), hf]
    · rw [List.eraseP_cons_of_neg (by simp [h]), List.filter_cons_of_pos (by simp [h]),
        ih hu.2]

theorem timer_unique_set (timer now : Nat) (callback : timer_callback_t) (interval : Nat)
    (l : List (Nat × timer_entry)) (hu : timer_unique l) :
    timer_unique ((timer, { start := now, interval := interval, callback := callback }) ::
      l.eraseP fun x => decide (x.2.callback = callback)) := by
  rw [list_eraseP_eq_filter callback l hu]
  simp only [timer_unique, List.map_cons, List.nodup_cons]
  constructor
  · intro hm
    obtain ⟨t, ht, hc⟩ := List.mem_map.1 hm
    have := (List.mem_filter.1 ht).2
    simp at this
    exact this hc
  · exact List.Nodup.sublist ((List.filter_sublist _).map _) hu

theorem timer_unique_clear (callback : timer_callback_t) (l : List (Nat × timer_entry))
    (hu : timer_unique l) :
    timer_unique (l.eraseP fun x => decide (x.2.callback = callback)) :=
  List.Nodup.sublist ((List.eraseP_sublist _).map _) hu

theorem list_update_first_map {α β : Type} (p : α → Bool) (f : α → α) (g : α → β)
    (hg : ∀ x, g (f x) = g x) (l : List α) :
    (list_update_first p f l).map g = l.map g := by
  induction l with
  | nil => rfl
  | cons a l ih =>
    by_cases ha : p a = true
    · simp [list_update_first, ha, hg]
    · simp [list_update_first, ha, ih]

theorem list_update_first_mem {α : Type} (p : α → Bool) (f : α → α) (l : List α) (x : α)
    (hx : x ∈ l) (hp : p x = false) : x ∈ list_update_first p f l := by
  induction l with
  | nil => cases hx
  | cons a l ih =>
    rcases List.mem_cons.1 hx with e | hm
    · subst e
      simp [list_update_first, hp]
    · by_cases ha : p a = true
      · simp [list_update_first, ha, hm]
      · simp only [list_update_first, ha, Bool.false_eq_true, if_false]
        exact List.mem_cons_of_mem _ (ih hm)

theorem timer_after_callbacks :
    ∀ (l : List (Nat × timer_entry)) (outcomes : List (Option Bool)),
      (((l.zip outcomes).filterMap timer_after).map fun x => x.2.callback).Sublist
        (l.map fun x => x.2.callback) := by
  intro l
  induction l with
  | nil => intro outcomes; simp
  | cons a l ih =>
    intro outcomes
    cases outcomes with
    | nil => simp
    | cons o os =>
      simp only [List.zip_cons_cons, List.filterMap_cons, List.map_cons]
      cases o with
      | none => simpa [timer_after] using (ih os).cons₂ a.2.callback
      | some b =>
        cases b with
        | false => simpa [timer_after] using (ih os).cons a.2.callback
        | true =>
          simpa [timer_after, timer_advanced, timer_with_start] using
            (ih os).cons₂ a.2.callback

theorem timer_after_length (l : List (Nat × timer_entry)) (outcomes : List (Option Bool)) :
    ((l.zip outcomes).filterMap timer_after).length ≤ l.length := by
  have := (timer_after_callbacks l outcomes).length_le
  simpa using this

theorem list_zip_mem_left {α β : Type} :
    ∀ (l : List α) (m : List β) (x : α), l.length = m.length → x ∈ l →
      ∃ o, (x, o) ∈ l.zip m := by
  intro l
  induction l with
  | nil => intro m x _ hx; cases hx
  | cons a l ih =>
    intro m x hlen hx
    cases m with
    | nil => simp at hlen
    | cons b m =>
      rcases List.mem_cons.1 hx with e | hm
      · exact ⟨b, by simp [e]⟩
      · obtain ⟨o, ho⟩ := ih m x (by simpa using hlen) hm
        exact ⟨o, by simp [ho]⟩

/-- What a sweep does for one timer of the list, from the outcomes of the
sweep. -/
theorem timer_after_mem (now : Nat) (l : List (Nat × timer_entry))
    (outcomes : List (Option Bool)) (calls : List (timer_callback_t × Bool))
    (hlen : outcomes.length = l.length)
    (hdue : ∀ x ∈ l.zip outcomes, x.2.isSome = timer_due now x.1)
    (hcalls : calls = (l.zip outcomes).filterMap
      (fun x => x.2.map (fun b => (x.1.2.callback, b))))
    (x : Nat × timer_entry) (hx : x ∈ l) :
    (timer_due now x = false → x ∈ (l.zip outcomes).filterMap timer_after) ∧
    (timer_due now x = true →
      ((x.2.callback, true) ∈ calls ∧
        timer_advanced x ∈ (l.zip outcomes).filterMap timer_after) ∨
      (x.2.callback, false) ∈ calls) := by
  obtain ⟨o, ho⟩ := list_zip_mem_left l outcomes x hlen.symm hx
  have hd := hdue (x, o) ho
  simp only at hd
  constructor
  · intro hnd
    rw [hnd] at hd
    have : o = none := by cases o <;> simp_all
    subst this
    exact List.mem_filterMap.2 ⟨(x, none), ho, rfl⟩
  · intro hyes
    rw [hyes] at hd
    cases o with
    | none => simp at hd
    | some b =>
      cases b with
      | true =>
        left
        refine ⟨?_, List.mem_filterMap.2 ⟨(x, some true), ho, rfl⟩⟩
        rw [hcalls]
        exact List.mem_filterMap.2 ⟨(x, some true), ho, rfl⟩
      | false =>
        right
        rw [hcalls]
        exact List.mem_filterMap.2 ⟨(x, some false), ho, rfl⟩

/-- The list after one call of the interface that returns, on a well-linked
list, with callbacks that do not touch the timers. -/
theorem timer_step_spec {W : Type} (fuel : Nat) (run : timer_callback_t → W → Bool × W)
    (s : timer_state) (world : W) (call : timer_call) (r : timer_sweep W)
    (l : List (Nat × timer_entry)) (h : timer_list s l) (hf : l.length < fuel)
    (hstep : timer_step fuel (timer_callbacks run) s world call = .ok r) :
    (∀ timer now callback interval, call = .set timer now callback interval →
      timer_calloc fuel s callback timer = true →
      timer_list r.state
        ((timer, { start := now, interval := interval, callback := callback }) ::
          l.eraseP fun x => decide (x.2.callback = callback))) ∧
    (∀ callback, call = .clear callback →
      timer_list r.state (l.eraseP fun x => decide (x.2.callback = callback))) ∧
    (∀ callback, call = .reset callback →
      timer_list r.state
        (list_update_first (fun x => decide (x.2.callback = callback)) timer_advanced l)) ∧
    (∀ now callback, call = .restart now callback →
      timer_list r.state
        (list_update_first (fun x => decide (x.2.callback = callback))
          (fun x => timer_with_start x now) l)) ∧
    (∀ callback, call = .get callback → timer_list r.state l) ∧
    (∀ now, call = .periodic now →
      ∃ outcomes : List (Option Bool), outcomes.length = l.length ∧
        (∀ x ∈ l.zip outcomes, x.2.isSome = timer_due now x.1) ∧
        r.calls = (l.zip outcomes).filterMap
          (fun x => x.2.map (fun b => (x.1.2.callback, b))) ∧
        timer_list r.state ((l.zip outcomes).filterMap timer_after) ∧
        outcomes = (timer_sweep_outcomes run now l world).1 ∧
        r.world = (timer_sweep_outcomes run now l world).2) := by
  refine ⟨fun timer now callback interval hc hfresh => ?_, fun callback hc => ?_,
    fun callback hc => ?_, fun now callback hc => ?_, fun callback hc => ?_,
    fun now hc => ?_⟩
  · subst hc
    simp only [timer_step] at hstep
    have h0 : timer ≠ 0 := by
      intro e
      obtain ⟨s1, k1, _⟩ := timer_clear_spec fuel s callback l h hf
      simp [timer_set, k1, e] at hstep
    have hfr : ∀ s1, timer_clear fuel s callback = .ok s1 → s1.heap timer = none := by
      intro s1 hs1
      simp only [timer_calloc, hs1, Bool.or_eq_true, beq_iff_eq, Option.isNone_iff_eq_none]
        at hfresh
      exact hfresh.resolve_left h0
    obtain ⟨s2, k1, k2⟩ := timer_set_spec fuel s timer now callback interval l h hf h0 hfr
    rw [k1] at hstep
    simp only [Except.ok.injEq] at hstep
    rw [← hstep]
    exact k2
  · subst hc
    simp only [timer_step] at hstep
    obtain ⟨s2, k1, k2, _⟩ := timer_clear_spec fuel s callback l h hf
    rw [k1] at hstep
    simp only [Except.ok.injEq] at hstep
    rw [← hstep]
    exact k2
  · subst hc
    simp only [timer_step] at hstep
    obtain ⟨s2, k1, k2⟩ := timer_reset_spec fuel s callback l h hf
    rw [k1] at hstep
    simp only [Except.ok.injEq] at hstep
    rw [← hstep]
    exact k2
  · subst hc
    simp only [timer_step] at hstep
    obtain ⟨s2, k1, k2⟩ := timer_restart_spec fuel s now callback l h hf
    rw [k1] at hstep
    simp only [Except.ok.injEq] at hstep
    rw [← hstep]
    exact k2
  · subst hc
    simp only [timer_step, timer_get_spec fuel s callback l h hf, Except.ok.injEq] at hstep
    rw [← hstep]
    exact h
  · subst hc
    simp only [timer_step, timer_periodic] at hstep
    obtain ⟨o, r2, k1, k2, k3, k4, k5, _, k7, k8⟩ :=
      timer_periodic_loop_spec run now l [] s world fuel (by simpa using h) hf
    rw [timer_chain_head s.heap l 0 s.timer_table h.1, k1] at hstep
    simp only [Except.ok.injEq] at hstep
    rw [← hstep]
    exact ⟨o, k2, k3, k4, by simpa using k5, k7, k8⟩

/-- One call that returns keeps the list well linked, keeps at most one
timer per callback, and adds at most one block. -/
theorem timer_step_unique {W : Type} (fuel : Nat) (run : timer_callback_t → W → Bool × W)
    (s : timer_state) (world : W) (call : timer_call) (r : timer_sweep W)
    (l : List (Nat × timer_entry)) (h : timer_list s l) (hf : l.length < fuel)
    (hu : timer_unique l)
    (hc : ∀ timer now callback interval, call = .set timer now callback interval →
      timer_calloc fuel s callback timer = true)
    (hstep : timer_step fuel (timer_callbacks run) s world call = .ok r) :
    ∃ l2, timer_list r.state l2 ∧ timer_unique l2 ∧ l2.length ≤ l.length + 1 := by
  obtain ⟨p1, p2, p3, p4, p5, p6⟩ := timer_step_spec fuel run s world call r l h hf hstep
  cases call with
  | set timer now callback interval =>
    refine ⟨_, p1 timer now callback interval rfl (hc timer now callback interval rfl),
      timer_unique_set timer now callback interval l hu, ?_⟩
    have := (List.eraseP_sublist (p := fun x : Nat × timer_entry =>
      decide (x.2.callback = callback)) l).length_le
    simp only [List.length_cons]
    omega
  | clear callback =>
    refine ⟨_, p2 callback rfl, timer_unique_clear callback l hu, ?_⟩
    have := (List.eraseP_sublist (p := fun x : Nat × timer_entry =>
      decide (x.2.callback = callback)) l).length_le
    omega
  | reset callback =>
    refine ⟨_, p3 callback rfl, ?_, ?_⟩
    · unfold timer_unique
      rw [list_update_first_map (fun x : Nat × timer_entry => decide (x.2.callback = callback))
        timer_advanced (fun x => x.2.callback) (fun x => rfl) l]
      exact hu
    · have := congrArg List.length (list_update_first_map
        (fun x : Nat × timer_entry => decide (x.2.callback = callback)) timer_advanced
        (fun x => x.1) (fun x => rfl) l)
      simp only [List.length_map] at this
      omega
  | restart now callback =>
    refine ⟨_, p4 now callback rfl, ?_, ?_⟩
    · unfold timer_unique
      rw [list_update_first_map (fun x : Nat × timer_entry => decide (x.2.callback = callback))
        (fun x => timer_with_start x now) (fun x => x.2.callback) (fun x => rfl) l]
      exact hu
    · have := congrArg List.length (list_update_first_map
        (fun x : Nat × timer_entry => decide (x.2.callback = callback))
        (fun x => timer_with_start x now) (fun x => x.1) (fun x => rfl) l)
      simp only [List.length_map] at this
      omega
  | get callback => exact ⟨l, p5 callback rfl, hu, by omega⟩
  | periodic now =>
    obtain ⟨o, _, _, _, k, _⟩ := p6 now rfl
    refine ⟨_, k, List.Nodup.sublist (timer_after_callbacks l o) hu, ?_⟩
    have := timer_after_length l o
    omega

theorem timer_run_unique {W : Type} (fuel : Nat) (run : timer_callback_t → W → Bool × W) :
    ∀ (calls : List timer_call) (s : timer_state) (world : W) (l : List (Nat × timer_entry))
      (s2 : timer_state) (w2 : W),
      timer_list s l → timer_unique l → l.length + calls.length < fuel →
      timer_run fuel (timer_callbacks run) s world calls = some (s2, w2) →
      ∃ l2, timer_list s2 l2 ∧ timer_unique l2 ∧ l2.length ≤ l.length + calls.length := by
  intro calls
  induction calls with
  | nil =>
    intro s world l s2 w2 h hu _ hrun
    simp only [timer_run, Option.some.injEq, Prod.mk.injEq] at hrun
    rw [← hrun.1]
    exact ⟨l, h, hu, by simp⟩
  | cons call calls ih =>
    intro s world l s2 w2 h hu hf hrun
    simp only [List.length_cons] at hf
    simp only [timer_run] at hrun
    split at hrun
    · rename_i hadm
      cases hs : timer_step fuel (timer_callbacks run) s world call with
      | error fault => simp [hs] at hrun
      | ok r =>
        simp only [hs] at hrun
        have hc : ∀ timer now callback interval, call = .set timer now callback interval →
            timer_calloc fuel s callback timer = true := by
          intro timer now callback interval e
          subst e
          exact hadm
        obtain ⟨l1, j1, j2, j3⟩ := timer_step_unique fuel run s world call r l h (by omega)
          hu hc hs
        obtain ⟨l2, k1, k2, k3⟩ := ih r.state r.world l1 s2 w2 j1 j2 (by omega) hrun
        exact ⟨l2, k1, k2, by simp only [List.length_cons]; omega⟩
    · cases hrun

theorem sample_timers_list :
    timer_list sample_timers
      [(2, { start := 105, interval := 5, callback := 2 }),
       (1, { start := 100, interval := 10, callback := 1 })] :=
  ⟨⟨rfl, by decide, { start := 105, interval := 5, callback := 2, prev := 0, next := 1 }, rfl,
    rfl, rfl,
    ⟨rfl, by decide, { start := 100, interval := 10, callback := 1, prev := 2, next := 0 },
      rfl, rfl, rfl, rfl⟩⟩, by decide⟩

theorem and_shifted_byte_mask (z k : Nat) : z &&& (255 <<< k) = (z >>> k % 256) <<< k := by
  have e : (z >>> k) % 256 = (z >>> k) &&& 255 := (Nat.and_pow_two_sub_one_eq_mod _ 8).symm
  rw [e]
  apply Nat.eq_of_testBit_eq
  intro i
  simp only [Nat.testBit_and, Nat.testBit_shiftLeft, Nat.testBit_shiftRight]
  by_cases h : k ≤ i
  · have e2 : k + (i - k) = i := by omega
    simp [h, e2]
  · simp [h]

theorem htonl_eq (x : Nat) (h : x < 4294967296) :
    htonl x = 16777216 * (x % 256) + 65536 * (x / 256 % 256) + 256 * (x / 65536 % 256) +
      x / 16777216 := by
  have m3 : (0xff000000 : Nat) = 255 <<< 24 := by decide
  have m2 : (0x00ff0000 : Nat) = 255 <<< 16 := by decide
  have m1 : (0x0000ff00 : Nat) = 255 <<< 8 := by decide
  have m0 : x &&& 0x000000ff = x % 256 := Nat.and_pow_two_sub_one_eq_mod x 8
  have b3 : x / 16777216 < 256 := by omega
  have p3 : (x &&& 0xff000000) >>> 24 = x / 16777216 := by
    rw [m3, and_shifted_byte_mask]
    simp only [Nat.shiftLeft_eq, Nat.shiftRight_eq_div_pow]
    omega
  have p2 : (x &&& 0x00ff0000) >>> 8 = 256 * (x / 65536 % 256) := by
    rw [m2, and_shifted_byte_mask]
    simp only [Nat.shiftLeft_eq, Nat.shiftRight_eq_div_pow]
    omega
  have p1 : ((x &&& 0x0000ff00) <<< 8) % 4294967296 = 65536 * (x / 256 % 256) := by
    rw [m1, and_shifted_byte_mask]
    simp only [Nat.shiftLeft_eq, Nat.shiftRight_eq_div_pow]
    omega
  have p0 : ((x &&& 0x000000ff) <<< 24) % 4294967296 = 16777216 * (x % 256) := by
    rw [m0]
    simp only [Nat.shiftLeft_eq]
    omega
  have o1 : x / 16777216 ||| 256 * (x / 65536 % 256) =
      256 * (x / 65536 % 256) + x / 16777216 := by
    rw [Nat.lor_comm]
    exact (Nat.mul_add_lt_is_or (i := 8) b3 _).symm
  have o2 : (256 * (x / 65536 % 256) + x / 16777216) ||| 65536 * (x / 256 % 256) =
      65536 * (x / 256 % 256) + (256 * (x / 65536 % 256) + x / 16777216) := by
    rw [Nat.lor_comm]
    exact (Nat.mul_add_lt_is_or (i := 16) (by omega) _).symm
  have o3 : (65536 * (x / 256 % 256) + (256 * (x / 65536 % 256) + x / 16777216)) |||
      16777216 * (x % 256) =
      16777216 * (x % 256) +
        (65536 * (x / 256 % 256) + (256 * (x / 65536 % 256) + x / 16777216)) := by
    rw [Nat.lor_comm]
    exact (Nat.mul_add_lt_is_or (i := 24) (by omega) _).symm
  rw [htonl, p3, p2, p1, p0, o1, o2, o3]
  omega

theorem uint32_byte_fields (a b c d : Nat) (_ : a < 256) (hb : b < 256) (hc : c < 256)
    (hd : d < 256) :
    (16777216 * a + 65536 * b + 256 * c + d) % 256 = d ∧
    (16777216 * a + 65536 * b + 256 * c + d) / 256 % 256 = c ∧
    (16777216 * a + 65536 * b + 256 * c + d) / 65536 % 256 = b ∧
    (16777216 * a + 65536 * b + 256 * c + d) / 16777216 = a :=
  ⟨by omega, by omega, by omega, by omega⟩

theorem htonl_bytes (a b c d : Nat) (ha : a < 256) (hb : b < 256) (hc : c < 256) (hd : d < 256) :
    htonl (16777216 * a + 65536 * b + 256 * c + d) = 16777216 * d + 65536 * c + 256 * b + a := by
  rw [htonl_eq _ (by omega)]
  obtain ⟨e0, e1, e2, e3⟩ := uint32_byte_fields a b c d ha hb hc hd
  rw [e0, e1, e2, e3]

theorem uint32_bytes (y : Nat) (hy : y < 4294967296) :
    ∃ a b c d, a < 256 ∧ b < 256 ∧ c < 256 ∧ d < 256 ∧
      y = 16777216 * a + 65536 * b + 256 * c + d :=
  ⟨y / 16777216, y / 65536 % 256, y / 256 % 256, y % 256, by omega, by omega, by omega,
    by omega, by omega⟩

theorem clock_tick_below (s : clock_state) (h : s.microtime < 999) :
    clock_tick s = { timestamp := s.timestamp, microtime := s.microtime + 1 } := by
  have e : (s.microtime + 1) % 65536 = s.microtime + 1 := by omega
  simp only [clock_tick, e]
  rw [if_neg (by omega)]

theorem clock_tick_wrap (s : clock_state) (h : s.microtime = 999) :
    clock_tick s = { timestamp := (s.timestamp + 1) % 4294967296, microtime := 0 } := by
  simp [clock_tick, h]

theorem clock_ticks_add (a b : Nat) : ∀ s, clock_ticks (a + b) s = clock_ticks b (clock_ticks a s) := by
  induction a with
  | zero => intro s; simp [clock_ticks]
  | succ a ih =>
    intro s
    rw [Nat.add_right_comm]
    simp only [clock_ticks]
    exact ih _

theorem clock_ticks_below (k : Nat) :
    ∀ s : clock_state, s.microtime + k < 1000 →
      clock_ticks k s = { timestamp := s.timestamp, microtime := s.microtime + k } := by
  induction k with
  | zero => intro s _; rfl
  | succ k ih =>
    intro s h
    simp only [clock_ticks]
    rw [clock_tick_below s (by omega), ih _ (by simp only; omega)]
    simp only [clock_state.mk.injEq, true_and]
    omega

theorem arp_flush_young (s : arp_state) (i : Fin ARP_TABLE_SIZE)
    (h : modular_age s.arp_time (s.arp_table i) + 1 < 120) :
    (arp_flush s).2.arp_table i = s.arp_table i ∧
    modular_age (arp_flush s).2.arp_time ((arp_flush s).2.arp_table i) =
      modular_age s.arp_time (s.arp_table i) + 1 := by
  have h1 := s.arp_time.isLt
  have h2 := (s.arp_table i).time.isLt
  have ht : (to_uint8 ((s.arp_time.val : Int) + 1)).val = (s.arp_time.val + 1) % 256 := by
    simp only [to_uint8]; omega
  simp only [modular_age] at h
  have h3 : ¬ ((to_uint8 ((s.arp_time.val : Int) + 1)).val : Int) -
      ((s.arp_table i).time.val : Int) ≥ ARP_ENTRY_MAX_AGE := by
    simp only [ARP_ENTRY_MAX_AGE, ht]; omega
  have e : (arp_flush s).2.arp_table i = s.arp_table i := by simp [arp_flush, h3]
  refine ⟨e, ?_⟩
  rw [e]
  simp only [modular_age, arp_flush, ht]
  omega

theorem arp_flush_times_young (k : Nat) :
    ∀ (s : arp_state) (i : Fin ARP_TABLE_SIZE),
      modular_age s.arp_time (s.arp_table i) + k < 120 →
      (arp_flush_times k s).arp_table i = s.arp_table i := by
  induction k with
  | zero => intro s i _; rfl
  | succ k ih =>
    intro s i h
    obtain ⟨e, ea⟩ := arp_flush_young s i (by omega)
    simp only [arp_flush_times]
    rw [ih (arp_flush s).2 i (by rw [ea]; omega), e]

theorem arp_flush_ip (s : arp_state) (i : Fin ARP_TABLE_SIZE) :
    ((arp_flush s).2.arp_table i).ip_addr = (s.arp_table i).ip_addr ∨
    ((arp_flush s).2.arp_table i).ip_addr = ip_zero_addr := by
  simp only [arp_flush]
  split
  · right; rfl
  · left; rfl

theorem arp_flush_times_ip (k : Nat) :
    ∀ (s : arp_state) (i : Fin ARP_TABLE_SIZE),
      ((arp_flush_times k s).arp_table i).ip_addr = (s.arp_table i).ip_addr ∨
      ((arp_flush_times k s).arp_table i).ip_addr = ip_zero_addr := by
  induction k with
  | zero => intro s i; left; rfl
  | succ k ih =>
    intro s i
    simp only [arp_flush_times]
    rcases ih (arp_flush s).2 i with h | h
    · rcases arp_flush_ip s i with h2 | h2
      · left; rw [h, h2]
      · right; rw [h, h2]
    · right; exact h

theorem arp_update_first (s : arp_state) (ip_addr : ip_addr_t) (mac_addr : mac_addr_t) :
    ∃ i, (arp_update s ip_addr mac_addr).arp_table i =
        { time := s.arp_time, mac_addr := mac_addr, ip_addr := ip_addr } ∧
      ∀ j, j ≠ i → arp_in_use ((arp_update s ip_addr mac_addr).arp_table j) →
        ((arp_update s ip_addr mac_addr).arp_table j).ip_addr = ip_addr → i.val < j.val := by
  rcases arp_update_cases s ip_addr mac_addr with ⟨i, _, hip, hlow, he⟩ | ⟨hmiss, e, _, he⟩
  · rw [he]
    refine ⟨i, by simp [hip], fun j hj hu hj2 => ?_⟩
    simp only [Function.update_noteq hj] at hu hj2
    by_contra hc
    have hlt : j.val < i.val := by
      have : j.val ≠ i.val := fun h => hj (Fin.ext h)
      omega
    exact hlow j hlt ⟨hu, hj2⟩
  · rw [he]
    refine ⟨e, by simp, fun j hj hu hj2 => ?_⟩
    simp only [Function.update_noteq hj] at hu hj2
    exact absurd hj2 (hmiss j hu)

theorem icmp_echo_reply_ip_header (cfg : host_config) (packet : Buffer) (c : Nat)
    (hdest : load_ip packet ip_dest_addr_off = cfg.ip_host_addr) :
    be_word_sum (buffer_at (store_wire_u16 (icmp_echo_reply_fields cfg packet) 36 c) 14) 20 =
      be_word_sum (buffer_at packet 14) 20 := by
  simp [be_word_sum, buffer_at, store_wire_u16, icmp_echo_reply_fields, store_ip, store_mac,
    store_u8, store_u16, load_ip, load_mac, ← hdest]
  omega

theorem arp_flush_times_add (a b : Nat) :
    ∀ s, arp_flush_times (a + b) s = arp_flush_times b (arp_flush_times a s) := by
  induction a with
  | zero => intro s; simp [arp_flush_times]
  | succ a ih =>
    intro s
    rw [Nat.add_right_comm]
    simp only [arp_flush_times]
    exact ih _

theorem arp_flush_all_young (s : arp_state)
    (h : ∀ i, ip_addr_is_empty (s.arp_table i).ip_addr = false →
      modular_age s.arp_time (s.arp_table i) + 1 < 120) :
    (arp_flush s).2 =
      { arp_time := to_uint8 ((s.arp_time.val : Int) + 1), arp_table := s.arp_table } := by
  have e : (arp_flush s).2.arp_table = s.arp_table := by
    funext i
    by_cases hu : ip_addr_is_empty (s.arp_table i).ip_addr = false
    · exact (arp_flush_young s i (h i hu)).1
    · simp only [Bool.not_eq_false] at hu
      simp [arp_flush, hu]
  have e2 : (arp_flush s).2 =
      { arp_time := (arp_flush s).2.arp_time, arp_table := (arp_flush s).2.arp_table } := rfl
  rw [e2, e]
  rfl

theorem arp_flush_times_all_young (k : Nat) :
    ∀ s : arp_state,
      (∀ i, ip_addr_is_empty (s.arp_table i).ip_addr = false →
        modular_age s.arp_time (s.arp_table i) + k < 120) →
      arp_flush_times k s =
        { arp_time := to_uint8 ((s.arp_time.val : Int) + k), arp_table := s.arp_table } := by
  induction k with
  | zero =>
    intro s _
    simp only [arp_flush_times]
    have : to_uint8 ((s.arp_time.val : Int) + (0 : Nat)) = s.arp_time := by
      apply Fin.ext
      have := to_uint8_val ((s.arp_time.val : Int) + (0 : Nat))
      have := s.arp_time.isLt
      omega
    rw [this]
  | succ k ih =>
    intro s h
    simp only [arp_flush_times]
    rw [arp_flush_all_young s (fun i hu => by have := h i hu; omega), ih _ (fun i hu => by
      have h1 := h i hu
      have h2 := s.arp_time.isLt
      have h3 := (s.arp_table i).time.isLt
      have e1 := to_uint8_val ((s.arp_time.val : Int) + 1)
      simp only [modular_age] at h1 ⊢
      omega)]
    congr 1
    apply Fin.ext
    have e1 := to_uint8_val ((s.arp_time.val : Int) + 1)
    have e2 := to_uint8_val (((to_uint8 ((s.arp_time.val : Int) + 1)).val : Int) + (k : Int))
    have e3 := to_uint8_val ((s.arp_time.val : Int) + ((k + 1 : Nat) : Int))
    simp only at e2 ⊢
    omega

theorem year_is_leap_iff (year : Nat) :
    year_is_leap year = true ↔ year % 4 = 0 ∧ (year % 100 ≠ 0 ∨ year % 400 = 0) := by
  simp [year_is_leap]

theorem gregorian_leap_iff (year : Nat) :
    gregorian_leap year = true ↔ year % 4 = 0 ∧ (year % 100 ≠ 0 ∨ year % 400 = 0) := by
  simp [gregorian_leap, Nat.dvd_iff_mod_eq_zero]

theorem year_is_leap_eq (year : Nat) : year_is_leap year = gregorian_leap year := by
  rw [Bool.eq_iff_iff, year_is_leap_iff, gregorian_leap_iff]

theorem year_day_count_eq (year : Nat) : year_day_count year = gregorian_year_length year := by
  simp only [year_day_count, gregorian_year_length, year_is_leap_eq]

theorem year_day_count_cases (year : Nat) :
    year_day_count year = 365 ∨ year_day_count year = 366 := by
  simp only [year_day_count]
  split_ifs
  · right; rfl
  · left; rfl

theorem time_decode_years_spec (fuel : Nat) :
    ∀ date n : Nat, date / 365 < fuel → 1970 + n + date / 365 < 65536 →
      ∃ rest m, time_decode_years fuel date (1970 + n) = some (rest, 1970 + m) ∧
        rest < year_day_count (1970 + m) ∧
        gregorian_days_to_year m + rest = gregorian_days_to_year n + date ∧
        n ≤ m ∧ m ≤ n + date / 365 := by
  induction fuel with
  | zero => intro date n h; omega
  | succ fuel ih =>
    intro date n hf hy
    simp only [time_decode_years]
    by_cases hge : date ≥ year_day_count (1970 + n)
    · rw [if_pos hge]
      have hc := year_day_count_cases (1970 + n)
      have hd : (date - year_day_count (1970 + n)) / 365 + 1 ≤ date / 365 := by
        rcases hc with h | h <;> rw [h] at hge ⊢ <;> omega
      have hyear : (1970 + n + 1) % 65536 = 1970 + (n + 1) := by omega
      rw [hyear]
      obtain ⟨rest, m, h1, h2, h3, h4, h5⟩ :=
        ih (date - year_day_count (1970 + n)) (n + 1) (by omega) (by omega)
      refine ⟨rest, m, h1, h2, ?_, by omega, by omega⟩
      rw [h3]
      simp only [gregorian_days_to_year, ← year_day_count_eq]
      omega
    · rw [if_neg hge]
      exact ⟨date, n, rfl, by omega, rfl, le_refl _, by omega⟩

theorem gregorian_days_to_year_eq (n : Nat) :
    gregorian_days_to_year n + (n + 69) / 100 = 365 * n + (n + 1) / 4 + (n + 369) / 400 := by
  induction n with
  | zero => rfl
  | succ n ih =>
    simp only [gregorian_days_to_year, gregorian_year_length]
    by_cases h : gregorian_leap (1970 + n) = true
    · rw [if_pos h]
      rw [gregorian_leap_iff] at h
      omega
    · rw [if_neg h]
      rw [gregorian_leap_iff] at h
      omega
theorem month_day_count_eq (year month : Nat) (h : month < 12) :
    month_day_count year month = some (gregorian_month_length year (month + 1)) := by
  rw [month_day_count, year_is_leap_eq]
  cases hg : gregorian_leap year <;> interval_cases month <;>
    simp [_month_tab, gregorian_month_length, hg]

theorem gregorian_days_to_month_twelve (year : Nat) :
    gregorian_days_to_month year 12 = gregorian_year_length year := by
  cases hg : gregorian_leap year <;>
    simp [gregorian_days_to_month, gregorian_month_length, gregorian_year_length, hg]

theorem gregorian_month_length_le (year month : Nat) :
    gregorian_month_length year month ≤ 31 := by
  simp only [gregorian_month_length]
  split_ifs <;> omega

theorem time_decode_months_spec (year : Nat) (fuel : Nat) :
    ∀ date month : Nat, month < 12 → 12 - month ≤ fuel →
      gregorian_days_to_month year month + date < gregorian_year_length year →
      ∃ rest m, time_decode_months year fuel date month = some (rest, m) ∧ m < 12 ∧
        rest < gregorian_month_length year (m + 1) ∧
        gregorian_days_to_month year m + rest = gregorian_days_to_month year month + date := by
  induction fuel with
  | zero => intro date month h hf; omega
  | succ fuel ih =>
    intro date month hm hf hd
    simp only [time_decode_months, month_day_count_eq year month hm]
    by_cases hge : date ≥ gregorian_month_length year (month + 1)
    · rw [if_pos hge]
      have hnext : gregorian_days_to_month year (month + 1) =
          gregorian_days_to_month year month + gregorian_month_length year (month + 1) := rfl
      have hm2 : month + 1 < 12 := by
        by_contra hc
        have e : month + 1 = 12 := by omega
        have := gregorian_days_to_month_twelve year
        rw [← e, hnext] at this
        omega
      have e256 : (month + 1) % 256 = month + 1 := by omega
      rw [e256]
      obtain ⟨rest, m, h1, h2, h3, h4⟩ :=
        ih (date - gregorian_month_length year (month + 1)) (month + 1) hm2 (by omega)
          (by rw [hnext]; omega)
      exact ⟨rest, m, h1, h2, h3, by rw [h4, hnext]; omega⟩
    · rw [if_neg hge]
      exact ⟨date, month, rfl, hm, by omega, rfl⟩

theorem timer_sweep_outcomes_append {W : Type} (run : timer_callback_t → W → Bool × W)
    (now : Nat) :
    ∀ (l1 l2 : List (Nat × timer_entry)) (world : W),
      timer_sweep_outcomes run now (l1 ++ l2) world =
        ((timer_sweep_outcomes run now l1 world).1 ++
            (timer_sweep_outcomes run now l2 (timer_sweep_outcomes run now l1 world).2).1,
          (timer_sweep_outcomes run now l2 (timer_sweep_outcomes run now l1 world).2).2) := by
  intro l1
  induction l1 with
  | nil => intro l2 world; rfl
  | cons a l1 ih =>
    intro l2 world
    by_cases hd : timer_due now a = true
    · simp only [List.cons_append, timer_sweep_outcomes, hd, if_true, List.append_eq, ih]
    · simp only [List.cons_append, timer_sweep_outcomes, hd, Bool.false_eq_true, if_false,
        List.append_eq, ih]

theorem timer_sweep_outcomes_length {W : Type} (run : timer_callback_t → W → Bool × W)
    (now : Nat) :
    ∀ (l : List (Nat × timer_entry)) (world : W),
      (timer_sweep_outcomes run now l world).1.length = l.length := by
  intro l
  induction l with
  | nil => intro world; rfl
  | cons a l ih =>
    intro world
    by_cases hd : timer_due now a = true
    · simp [timer_sweep_outcomes, hd, ih]
    · simp [timer_sweep_outcomes, hd, ih]

/-- The outcome of the sweep of the specification for the timer `x` of the
list: when `x` is due, what its callback returns on the state the callbacks
of the timers before `x` left. -/
theorem timer_sweep_outcomes_at {W : Type} (run : timer_callback_t → W → Bool × W)
    (now : Nat) (l1 : List (Nat × timer_entry)) (x : Nat × timer_entry)
    (rest : List (Nat × timer_entry)) (world : W) :
    (x, if timer_due now x then
          some (run x.2.callback (timer_sweep_outcomes run now l1 world).2).1
        else none) ∈
      (l1 ++ x :: rest).zip (timer_sweep_outcomes run now (l1 ++ x :: rest) world).1 := by
  rw [timer_sweep_outcomes_append]
  simp only
  rw [List.zip_append (timer_sweep_outcomes_length run now l1 world).symm]
  apply List.mem_append_right
  by_cases hd : timer_due now x = true
  · simp [timer_sweep_outcomes, hd]
  · simp [timer_sweep_outcomes, hd]

/-- Where the round trip of `udp_checksum` holds: for a datagram of `n`
octets, `8 <= n <= 65534`, whose checksum field (octets 6 and 7) is zero, and
for every source and destination address, `udp_checksum` returns a value `c`,
and with `c` written in network byte order into the checksum field
`udp_checksum` over the same `n` octets with the same addresses returns 0. -/
theorem udp_checksum_roundtrip_below (n : Nat) (d : Buffer) (src_addr dest_addr : ip_addr_t)
    (h8 : 8 ≤ n) (hmax : n ≤ 65534) (h6 : d 6 = 0) (h7 : d 7 = 0) :
    ∃ c, udp_checksum n d src_addr dest_addr = some c ∧
      udp_checksum n (store_wire_u16 d 6 c) src_addr dest_addr = some 0 := by
  refine ⟨_, udp_checksum_eq n d src_addr dest_addr hmax, ?_⟩
  rw [udp_checksum_eq n _ src_addr dest_addr hmax]
  generalize ht : (to_uint16 (n + IP_PROTOCOL_UDP) + be_word_sum d (n + n % 2) +
          (if n % 2 = 0 then 0 else 256 * (d n).val) +
          pseudo_header_word src_addr.a0 src_addr.a1 +
          pseudo_header_word dest_addr.a0 dest_addr.a1 +
          pseudo_header_word src_addr.a2 src_addr.a3 +
          pseudo_header_word dest_addr.a2 dest_addr.a3) % 4294967296 = t
  have htlt : t < 4294967296 := by rw [← ht]; omega
  obtain ⟨hsum, hzero⟩ := checksum_roundtrip_arith t htlt
  have hc := checksum_finish_le t
  have e1 : be_word_sum (store_wire_u16 d 6 (checksum_finish t)) (n + n % 2) =
      be_word_sum d (n + n % 2) + checksum_finish t :=
    be_word_sum_store_wire d 6 _ _ (by omega) (by omega) h6 h7 (by omega)
  have e2 : store_wire_u16 d 6 (checksum_finish t) n = d n :=
    store_wire_u16_other d 6 _ n (by omega) (by omega)
  rw [e1, e2]
  have e3 : (to_uint16 (n + IP_PROTOCOL_UDP) + (be_word_sum d (n + n % 2) + checksum_finish t) +
          (if n % 2 = 0 then 0 else 256 * (d n).val) +
          pseudo_header_word src_addr.a0 src_addr.a1 +
          pseudo_header_word dest_addr.a0 dest_addr.a1 +
          pseudo_header_word src_addr.a2 src_addr.a3 +
          pseudo_header_word dest_addr.a2 dest_addr.a3) % 4294967296 =
        t + checksum_finish t := by
    rw [← ht] at hsum ⊢
    omega
  rw [e3, hzero]

/-! ## The claims -/

/-- Claim C1.  After `arp_init` and any sequence of `arp_update`, `arp_flush`
and `arp_decode` calls, two different slots of the ARP table that are both in
use never hold the same IP address. -/
theorem arp_table_unique_ips (s0 : arp_state) (calls : List arp_call)
    (i j : Fin ARP_TABLE_SIZE) :
    i ≠ j →
    ip_addr_is_empty ((arp_run (arp_init s0) calls).arp_table i).ip_addr = false →
    ip_addr_is_empty ((arp_run (arp_init s0) calls).arp_table j).ip_addr = false →
    ((arp_run (arp_init s0) calls).arp_table i).ip_addr ≠
      ((arp_run (arp_init s0) calls).arp_table j).ip_addr := by
  intro hij hi _ heq
  exact hij (arp_unique_run calls (arp_init s0) (arp_unique_init s0) i j hi heq)

/-- Witness of C1: two bindings learnt from an update and from the ARP request
of scenario S2 occupy slots 0 and 1. -/
theorem arp_table_unique_ips_witness :
    (0 : Fin ARP_TABLE_SIZE) ≠ 1 ∧
    ip_addr_is_empty ((arp_run (arp_init arp_boot)
      [.update ⟨10, 0, 1, 2⟩ (sample_mac 2), .flush,
       .decode sample_host 42 sample_arp_request]).arp_table 0).ip_addr = false ∧
    ip_addr_is_empty ((arp_run (arp_init arp_boot)
      [.update ⟨10, 0, 1, 2⟩ (sample_mac 2), .flush,
       .decode sample_host 42 sample_arp_request]).arp_table 1).ip_addr = false ∧
    ((arp_run (arp_init arp_boot)
      [.update ⟨10, 0, 1, 2⟩ (sample_mac 2), .flush,
       .decode sample_host 42 sample_arp_request]).arp_table 0).ip_addr ≠
    ((arp_run (arp_init arp_boot)
      [.update ⟨10, 0, 1, 2⟩ (sample_mac 2), .flush,
       .decode sample_host 42 sample_arp_request]).arp_table 1).ip_addr :=
  ⟨by decide, by decide, by decide,
    arp_table_unique_ips arp_boot _ 0 1 (by decide) (by decide) (by decide)⟩

/-- Claim C2.  An outbound frame whose destination is not `255.255.255.255` and
whose resolution target (the destination on the host's subnet, the default
router otherwise) is held by the in-use entry `i` of a table with unique
addresses: `arp_encode` returns the original length, the Ethernet destination
is the MAC of entry `i`, the Ethernet source is the host MAC, the ethertype is
`0x0800`, and every byte from offset 14 on is unchanged. -/
theorem arp_encode_resolved (cfg : host_config) (s : arp_state) (length : Nat)
    (packet : Buffer) (i : Fin ARP_TABLE_SIZE)
    (huniq : arp_unique s.arp_table)
    (hb : load_ip packet ip_dest_addr_off ≠ ip_broadcast_addr)
    (hused : ip_addr_is_empty (s.arp_table i).ip_addr = false)
    (hi : (s.arp_table i).ip_addr = arp_target cfg (load_ip packet ip_dest_addr_off)) :
    (arp_encode cfg s length packet).1 = length ∧
    load_mac (arp_encode cfg s length packet).2 mac_dest_addr_off = (s.arp_table i).mac_addr ∧
    load_mac (arp_encode cfg s length packet).2 mac_src_addr_off = cfg.mac_host_addr ∧
    wire_u16 (arp_encode cfg s length packet).2 mac_type_off = 0x0800 ∧
    ∀ k, 14 ≤ k → (arp_encode cfg s length packet).2 k = packet k := by
  have hlow : ∀ j : Fin ARP_TABLE_SIZE, j.val < i.val →
      (s.arp_table j).ip_addr ≠ arp_target cfg (load_ip packet ip_dest_addr_off) := by
    intro j hj hc
    have := huniq i j hused (hi.trans hc.symm)
    rw [this] at hj
    exact lt_irrefl _ hj
  rw [arp_encode_hit cfg s length packet i hb hi hlow]
  obtain ⟨h1, h2, h3, h4, h5⟩ := arp_encode_finish_fields cfg length
    (store_mac packet mac_dest_addr_off (s.arp_table i).mac_addr)
  refine ⟨h1, ?_, h3, h4, ?_⟩
  · rw [h2]; simp [load_mac, store_mac]
  · intro k hk
    rw [h5 k hk]
    have : k ≠ 0 ∧ k ≠ 1 ∧ k ≠ 2 ∧ k ≠ 3 ∧ k ≠ 4 ∧ k ≠ 5 := by omega
    simp [store_mac, this]

/-- Witness of C2, scenario S4: with the router `10.0.1.1` in the table, a
frame to `8.8.8.8` is resolved against the router's entry. -/
theorem arp_encode_resolved_witness :
    load_ip (sample_udp_frame ⟨8, 8, 8, 8⟩) ip_dest_addr_off ≠ ip_broadcast_addr ∧
    arp_target sample_host (load_ip (sample_udp_frame ⟨8, 8, 8, 8⟩) ip_dest_addr_off) =
      ⟨10, 0, 1, 1⟩ ∧
    (arp_encode sample_host (arp_update (arp_init arp_boot) ⟨10, 0, 1, 1⟩ (sample_mac 1)) 47
      (sample_udp_frame ⟨8, 8, 8, 8⟩)).1 = 47 ∧
    load_mac (arp_encode sample_host (arp_update (arp_init arp_boot) ⟨10, 0, 1, 1⟩ (sample_mac 1))
      47 (sample_udp_frame ⟨8, 8, 8, 8⟩)).2 mac_dest_addr_off = sample_mac 1 :=
  ⟨by decide, by decide,
    (arp_encode_resolved sample_host (arp_update (arp_init arp_boot) ⟨10, 0, 1, 1⟩ (sample_mac 1))
      47 (sample_udp_frame ⟨8, 8, 8, 8⟩) 0
      (arp_unique_update _ _ _ (arp_unique_init arp_boot)) (by decide) (by decide)
      (by decide)).1,
    (arp_encode_resolved sample_host (arp_update (arp_init arp_boot) ⟨10, 0, 1, 1⟩ (sample_mac 1))
      47 (sample_udp_frame ⟨8, 8, 8, 8⟩) 0
      (arp_unique_update _ _ _ (arp_unique_init arp_boot)) (by decide) (by decide)
      (by decide)).2.1⟩

/-- Counterexample to C3 as stated: host `10.0.1.30/24`, router `10.0.1.1`,
empty table, frame to `255.255.255.255`.  The destination is off the host's
subnet, so the resolution target of the claim is the router, which is
non-zero and held by no entry; yet `arp_encode` returns the original length
47, not 42, and sends the IPv4 frame to the broadcast MAC. -/
theorem arp_encode_request_counterexample :
    ip_mask_compare (load_ip (sample_udp_frame ip_broadcast_addr) ip_dest_addr_off)
      sample_host.ip_host_addr sample_host.ip_netmask = false ∧
    ip_addr_is_empty sample_host.ip_default_router = false ∧
    (∀ j, ((arp_init arp_boot).arp_table j).ip_addr ≠ sample_host.ip_default_router) ∧
    (arp_encode sample_host (arp_init arp_boot) 47 (sample_udp_frame ip_broadcast_addr)).1 = 47 ∧
    (arp_encode sample_host (arp_init arp_boot) 47 (sample_udp_frame ip_broadcast_addr)).1 ≠ 42 ∧
    wire_u16 (arp_encode sample_host (arp_init arp_boot) 47
      (sample_udp_frame ip_broadcast_addr)).2 mac_type_off = 0x0800 := by
  decide

/-- Claim C3, amended.  An outbound frame whose destination is not
`255.255.255.255` and whose resolution target is non-zero and held by no
in-use entry: `arp_encode` returns 42 and the buffer is an ARP request:
Ethernet destination broadcast, Ethernet source the host MAC, ethertype
`0x0806`, hardware type 1, protocol type `0x0800`, hardware length 6, protocol
length 4, opcode 1, sender the host (MAC, IP), target MAC zero and target IP
the resolution target, the 16-bit fields in network byte order. -/
theorem arp_encode_request (cfg : host_config) (s : arp_state) (length : Nat)
    (packet : Buffer)
    (hb : load_ip packet ip_dest_addr_off ≠ ip_broadcast_addr)
    (hnz : ip_addr_is_empty (arp_target cfg (load_ip packet ip_dest_addr_off)) = false)
    (hmiss : ∀ j, ip_addr_is_empty (s.arp_table j).ip_addr = false →
      (s.arp_table j).ip_addr ≠ arp_target cfg (load_ip packet ip_dest_addr_off)) :
    (arp_encode cfg s length packet).1 = 42 ∧
    load_mac (arp_encode cfg s length packet).2 mac_dest_addr_off = mac_broadcast_addr ∧
    load_mac (arp_encode cfg s length packet).2 mac_src_addr_off = cfg.mac_host_addr ∧
    wire_u16 (arp_encode cfg s length packet).2 mac_type_off = 0x0806 ∧
    wire_u16 (arp_encode cfg s length packet).2 arp_hardware_type_off = 1 ∧
    wire_u16 (arp_encode cfg s length packet).2 arp_protocol_type_off = 0x0800 ∧
    (arp_encode cfg s length packet).2 arp_hardware_length_off = 6 ∧
    (arp_encode cfg s length packet).2 arp_protocol_length_off = 4 ∧
    wire_u16 (arp_encode cfg s length packet).2 arp_opcode_off = 1 ∧
    load_mac (arp_encode cfg s length packet).2 arp_mac_src_addr_off = cfg.mac_host_addr ∧
    load_ip (arp_encode cfg s length packet).2 arp_ip_src_addr_off = cfg.ip_host_addr ∧
    load_mac (arp_encode cfg s length packet).2 arp_mac_dest_addr_off = mac_zero_addr ∧
    load_ip (arp_encode cfg s length packet).2 arp_ip_dest_addr_off =
      arp_target cfg (load_ip packet ip_dest_addr_off) := by
  have hall : ∀ j : Fin ARP_TABLE_SIZE,
      (s.arp_table j).ip_addr ≠ arp_target cfg (load_ip packet ip_dest_addr_off) := by
    intro j hc
    by_cases hu : ip_addr_is_empty (s.arp_table j).ip_addr = false
    · exact hmiss j hu hc
    · rw [hc, hnz] at hu; exact hu rfl
  have e1 : htons ARP_OPCODE_REQUEST = 256 := by decide
  have e2 : htons ARP_HARDWARE_TYPE = 256 := by decide
  have e3 : htons MAC_TYPE_IP4 = 8 := by decide
  have e4 : htons MAC_TYPE_ARP = 0x0608 := by decide
  rw [arp_encode_miss cfg s length packet hb hall, e1, e2, e3, e4]
  refine ⟨rfl, ?_, ?_, ?_, ?_, ?_, ?_, ?_, ?_, ?_, ?_, ?_, ?_⟩ <;>
    (simp [load_mac, load_ip, wire_u16, store_mac, store_ip, store_u16, store_u8, low_byte,
      mac_broadcast_addr, mac_zero_addr]; try decide)

/-- Witness of C3 as amended, scenario S3: a frame to `10.0.1.99` with the
table empty becomes an ARP request for `10.0.1.99`. -/
theorem arp_encode_request_witness :
    arp_target sample_host (load_ip (sample_udp_frame ⟨10, 0, 1, 99⟩) ip_dest_addr_off) =
      ⟨10, 0, 1, 99⟩ ∧
    (arp_encode sample_host (arp_init arp_boot) 47 (sample_udp_frame ⟨10, 0, 1, 99⟩)).1 = 42 ∧
    load_ip (arp_encode sample_host (arp_init arp_boot) 47
      (sample_udp_frame ⟨10, 0, 1, 99⟩)).2 arp_ip_dest_addr_off = ⟨10, 0, 1, 99⟩ :=
  ⟨by decide,
    (arp_encode_request sample_host (arp_init arp_boot) 47 (sample_udp_frame ⟨10, 0, 1, 99⟩)
      (by decide) (by decide) (by decide)).1,
    (arp_encode_request sample_host (arp_init arp_boot) 47 (sample_udp_frame ⟨10, 0, 1, 99⟩)
      (by decide) (by decide) (by decide)).2.2.2.2.2.2.2.2.2.2.2.2⟩

/-- Claim C4.  A frame of length at least 42 whose opcode is REQUEST (1) and
whose target IP is the host's: `arp_decode` returns 42, and in the buffer the
opcode is REPLY (2), the ARP sender is the host (MAC, IP), the ARP target is
the request's sender (MAC, IP), the Ethernet destination is the request's
sender MAC, the Ethernet source is the host MAC, and the ethertype, hardware
type, protocol type and the two length fields are unchanged. -/
theorem arp_decode_request_reply (cfg : host_config) (s : arp_state) (length : Nat)
    (packet : Buffer) (hlen : 42 ≤ length)
    (hop : wire_u16 packet arp_opcode_off = 1)
    (htgt : load_ip packet arp_ip_dest_addr_off = cfg.ip_host_addr) :
    (arp_decode cfg s length packet).1 = 42 ∧
    wire_u16 (arp_decode cfg s length packet).2.2 arp_opcode_off = 2 ∧
    load_mac (arp_decode cfg s length packet).2.2 arp_mac_src_addr_off = cfg.mac_host_addr ∧
    load_ip (arp_decode cfg s length packet).2.2 arp_ip_src_addr_off = cfg.ip_host_addr ∧
    load_mac (arp_decode cfg s length packet).2.2 arp_mac_dest_addr_off =
      load_mac packet arp_mac_src_addr_off ∧
    load_ip (arp_decode cfg s length packet).2.2 arp_ip_dest_addr_off =
      load_ip packet arp_ip_src_addr_off ∧
    load_mac (arp_decode cfg s length packet).2.2 mac_dest_addr_off =
      load_mac packet arp_mac_src_addr_off ∧
    load_mac (arp_decode cfg s length packet).2.2 mac_src_addr_off = cfg.mac_host_addr ∧
    wire_u16 (arp_decode cfg s length packet).2.2 mac_type_off = wire_u16 packet mac_type_off ∧
    wire_u16 (arp_decode cfg s length packet).2.2 arp_hardware_type_off =
      wire_u16 packet arp_hardware_type_off ∧
    wire_u16 (arp_decode cfg s length packet).2.2 arp_protocol_type_off =
      wire_u16 packet arp_protocol_type_off ∧
    (arp_decode cfg s length packet).2.2 arp_hardware_length_off =
      packet arp_hardware_length_off ∧
    (arp_decode cfg s length packet).2.2 arp_protocol_length_off =
      packet arp_protocol_length_off := by
  rw [arp_decode_request_eq cfg s length packet hlen hop htgt]
  refine ⟨rfl, ?_, ?_, ?_, ?_, ?_, ?_, ?_, ?_, ?_, ?_, ?_, ?_⟩ <;>
    (simp [load_mac, load_ip, wire_u16, store_mac, store_ip, store_u16, low_byte]; try decide)

/-- Witness of C4, scenario S2: the request of `10.0.1.50` for `10.0.1.30`
is answered. -/
theorem arp_decode_request_reply_witness :
    (42 ≤ 42 ∧ wire_u16 sample_arp_request arp_opcode_off = 1 ∧
      load_ip sample_arp_request arp_ip_dest_addr_off = sample_host.ip_host_addr) ∧
    (arp_decode sample_host (arp_init arp_boot) 42 sample_arp_request).1 = 42 ∧
    wire_u16 (arp_decode sample_host (arp_init arp_boot) 42 sample_arp_request).2.2
      arp_opcode_off = 2 :=
  ⟨by decide,
    (arp_decode_request_reply sample_host (arp_init arp_boot) 42 sample_arp_request
      (by decide) (by decide) (by decide)).1,
    (arp_decode_request_reply sample_host (arp_init arp_boot) 42 sample_arp_request
      (by decide) (by decide) (by decide)).2.1⟩

/-- Claim C5.  For a frame of length at least 42 whose opcode is REQUEST or
REPLY and whose target IP is the host's, the ARP state after `arp_decode` is
the state `arp_update` gives for the sender's IP and MAC, `arp_time` is
unchanged, and some slot holds the sender's IP and MAC with the current
`arp_time`; for every other frame the ARP state (table and `arp_time`) is
unchanged. -/
theorem arp_decode_table (cfg : host_config) (s : arp_state) (length : Nat)
    (packet : Buffer) :
    if 42 ≤ length ∧
        (wire_u16 packet arp_opcode_off = 1 ∨ wire_u16 packet arp_opcode_off = 2) ∧
        load_ip packet arp_ip_dest_addr_off = cfg.ip_host_addr
    then
      (arp_decode cfg s length packet).2.1 =
        arp_update s (load_ip packet arp_ip_src_addr_off)
          (load_mac packet arp_mac_src_addr_off) ∧
      (arp_decode cfg s length packet).2.1.arp_time = s.arp_time ∧
      ∃ i, (arp_decode cfg s length packet).2.1.arp_table i =
        { time := s.arp_time, mac_addr := load_mac packet arp_mac_src_addr_off,
          ip_addr := load_ip packet arp_ip_src_addr_off }
    else (arp_decode cfg s length packet).2.1 = s := by
  have h := arp_decode_state cfg s length packet
  simp only [sizeof_arp_header_t, ARP_OPCODE_REQUEST, ARP_OPCODE_REPLY] at h
  split
  · rename_i hc
    rw [if_pos hc] at h
    rw [h]
    exact ⟨rfl, arp_update_present s _ _⟩
  · rename_i hc
    rw [if_neg hc] at h
    exact h

set_option maxRecDepth 10000 in
/-- Claim C6, evaluated at the failing input.  In the full table
`arp_full_state` (`arp_time` 5) slot 0 has the modular age 11 and slot 1 the
modular age 5, and `10.0.1.200` is not in the table; `arp_update` overwrites
slot 1 and leaves slot 0, the entry of maximal modular age, in place. -/
theorem arp_update_evicts_younger :
    arp_full_state.arp_time = 5 ∧
    (∀ k, ip_addr_is_empty (arp_full_state.arp_table k).ip_addr = false) ∧
    (∀ k, (arp_full_state.arp_table k).ip_addr ≠ ⟨10, 0, 1, 200⟩) ∧
    arp_full_state.arp_table 0 = ⟨250, sample_mac 100, ⟨10, 0, 1, 100⟩⟩ ∧
    arp_full_state.arp_table 1 = ⟨0, sample_mac 101, ⟨10, 0, 1, 101⟩⟩ ∧
    modular_age arp_full_state.arp_time (arp_full_state.arp_table 0) = 11 ∧
    modular_age arp_full_state.arp_time (arp_full_state.arp_table 1) = 5 ∧
    (arp_update arp_full_state ⟨10, 0, 1, 200⟩ (sample_mac 200)).arp_table 0 =
      arp_full_state.arp_table 0 ∧
    (arp_update arp_full_state ⟨10, 0, 1, 200⟩ (sample_mac 200)).arp_table 1 =
      ⟨5, sample_mac 200, ⟨10, 0, 1, 200⟩⟩ := by
  unfold arp_full_state
  rw [arp_flush_times_late 250, arp_flush_times_late 6]
  · decide
  · decide
  · decide

/-- Claim C7, evaluated at the failing input.  In `arp_wrapped_state`
`arp_time` is 63 and slot 0 holds `10.0.1.2` with time 200.  `arp_flush`
returns `true` and makes `arp_time` 64, the age of slot 0 taken modulo 256 is
then 120, and the entry is still in place with its address. -/
theorem arp_flush_skips_wrapped_entry :
    arp_wrapped_state.arp_time = 63 ∧
    arp_wrapped_state.arp_table 0 = ⟨200, sample_mac 2, ⟨10, 0, 1, 2⟩⟩ ∧
    (arp_flush arp_wrapped_state).1 = true ∧
    (arp_flush arp_wrapped_state).2.arp_time = 64 ∧
    modular_age (arp_flush arp_wrapped_state).2.arp_time (arp_wrapped_state.arp_table 0) = 120 ∧
    (arp_flush arp_wrapped_state).2.arp_table 0 = ⟨200, sample_mac 2, ⟨10, 0, 1, 2⟩⟩ := by
  unfold arp_wrapped_state arp_late_state
  rw [arp_flush_times_late 200, arp_flush_times_late 119]
  · decide
  · decide
  · decide

/-- Claim C8, evaluated at the failing input.  `10.0.1.2` is learnt at
`arp_time` 200, then `arp_flush` runs 121 times: slot 0 still holds
`10.0.1.2` and is in use. -/
theorem arp_entry_outlives_max_age :
    arp_late_state.arp_time = 200 ∧
    (arp_flush_times 121
      (arp_update arp_late_state ⟨10, 0, 1, 2⟩ (sample_mac 2))).arp_table 0 =
      ⟨200, sample_mac 2, ⟨10, 0, 1, 2⟩⟩ ∧
    ip_addr_is_empty ((arp_flush_times 121
      (arp_update arp_late_state ⟨10, 0, 1, 2⟩ (sample_mac 2))).arp_table 0).ip_addr = false := by
  unfold arp_late_state
  rw [arp_flush_times_late 200, arp_flush_times_late 121]
  · decide
  · decide
  · decide

/-- Claim C9.  In a table with unique addresses whose in-use entry `i` holds the
non-zero address `ip_addr`, `arp_update` sets the MAC of entry `i` to
`mac_addr` and its time to the current `arp_time`, and leaves the IP of entry
`i`, every other slot and `arp_time` unchanged. -/
theorem arp_update_refresh (s : arp_state) (ip_addr : ip_addr_t) (mac_addr : mac_addr_t)
    (i : Fin ARP_TABLE_SIZE)
    (huniq : arp_unique s.arp_table)
    (hnz : ip_addr_is_empty ip_addr = false)
    (hi : (s.arp_table i).ip_addr = ip_addr) :
    ((arp_update s ip_addr mac_addr).arp_table i).mac_addr = mac_addr ∧
    ((arp_update s ip_addr mac_addr).arp_table i).time = s.arp_time ∧
    ((arp_update s ip_addr mac_addr).arp_table i).ip_addr = (s.arp_table i).ip_addr ∧
    (∀ j, j ≠ i → (arp_update s ip_addr mac_addr).arp_table j = s.arp_table j) ∧
    (arp_update s ip_addr mac_addr).arp_time = s.arp_time := by
  have hused : arp_in_use (s.arp_table i) := by rw [arp_in_use, hi]; exact hnz
  rcases arp_update_cases s ip_addr mac_addr with ⟨k, _, hk, _, he⟩ | ⟨hmiss, _⟩
  · have hki : i = k := huniq i k hused (hi.trans hk.symm)
    subst hki
    rw [he]
    refine ⟨by simp, by simp, by simp, fun j hj => ?_, rfl⟩
    simp [Function.update_noteq hj]
  · exact absurd hi (hmiss i hused)

/-- Witness of C9: the binding of `10.0.1.2` is refreshed with a new MAC. -/
theorem arp_update_refresh_witness :
    ip_addr_is_empty (⟨10, 0, 1, 2⟩ : ip_addr_t) = false ∧
    ((arp_update (arp_init arp_boot) ⟨10, 0, 1, 2⟩ (sample_mac 2)).arp_table 0).ip_addr =
      ⟨10, 0, 1, 2⟩ ∧
    ((arp_update (arp_update (arp_init arp_boot) ⟨10, 0, 1, 2⟩ (sample_mac 2))
      ⟨10, 0, 1, 2⟩ (sample_mac 9)).arp_table 0).mac_addr = sample_mac 9 :=
  ⟨by decide, by decide,
    (arp_update_refresh (arp_update (arp_init arp_boot) ⟨10, 0, 1, 2⟩ (sample_mac 2))
      ⟨10, 0, 1, 2⟩ (sample_mac 9) 0
      (arp_unique_update _ _ _ (arp_unique_init arp_boot)) (by decide) (by decide)).1⟩

/-- Claim C10.  For a non-zero `ip_addr` that no in-use entry holds,
`arp_update` writes `(ip_addr, mac_addr, arp_time)` into exactly one slot `e`
and leaves the other nine slots and `arp_time` unchanged; `e` is the
lowest-index unused slot when the table has one, and on a full table `e` held
a binding, which is the one removed. -/
theorem arp_update_insert (s : arp_state) (ip_addr : ip_addr_t) (mac_addr : mac_addr_t)
    (hnz : ip_addr_is_empty ip_addr = false)
    (hmiss : ∀ j, ip_addr_is_empty (s.arp_table j).ip_addr = false →
      (s.arp_table j).ip_addr ≠ ip_addr) :
    ∃ e : Fin ARP_TABLE_SIZE,
      (arp_update s ip_addr mac_addr).arp_table e =
        { time := s.arp_time, mac_addr := mac_addr, ip_addr := ip_addr } ∧
      (arp_update s ip_addr mac_addr).arp_table e ≠ s.arp_table e ∧
      (∀ j, j ≠ e → (arp_update s ip_addr mac_addr).arp_table j = s.arp_table j) ∧
      (arp_update s ip_addr mac_addr).arp_time = s.arp_time ∧
      (∀ k, ip_addr_is_empty (s.arp_table k).ip_addr = true →
        ip_addr_is_empty (s.arp_table e).ip_addr = true ∧ e ≤ k) ∧
      ((∀ k, ip_addr_is_empty (s.arp_table k).ip_addr = false) →
        ip_addr_is_empty (s.arp_table e).ip_addr = false) := by
  have hall : ∀ j, (s.arp_table j).ip_addr ≠ ip_addr := by
    intro j hc
    by_cases hu : ip_addr_is_empty (s.arp_table j).ip_addr = false
    · exact hmiss j hu hc
    · rw [hc, hnz] at hu; exact hu rfl
  rcases arp_update_cases s ip_addr mac_addr with ⟨k, _, hk, _, _⟩ | ⟨_, e, hslot, he⟩
  · exact absurd hk (hall k)
  · refine ⟨e, ?_, ?_, ?_, ?_, ?_, ?_⟩
    · rw [he]; simp
    · rw [he]
      intro hc
      have := congrArg arp_entry_t.ip_addr hc
      simp only [Function.update_same] at this
      exact hall e this.symm
    · intro j hj; rw [he]; simp [Function.update_noteq hj]
    · rw [he]
    · intro k hk
      rcases hslot with ⟨hfree, hlow⟩ | hfull
      · refine ⟨hfree, ?_⟩
        by_contra hlt
        have hlt2 : k.val < e.val := by
          have := Fin.le_def.not.1 hlt
          omega
        have := hlow k hlt2
        rw [arp_in_use, hk] at this; cases this
      · have := hfull k
        rw [arp_in_use, hk] at this; cases this
    · intro hfull; exact hfull e

/-- Witness of C10: a second address goes to slot 1, the first unused slot. -/
theorem arp_update_insert_witness :
    ip_addr_is_empty (⟨10, 0, 1, 3⟩ : ip_addr_t) = false ∧
    ∃ e : Fin ARP_TABLE_SIZE,
      (arp_update (arp_update (arp_init arp_boot) ⟨10, 0, 1, 2⟩ (sample_mac 2))
        ⟨10, 0, 1, 3⟩ (sample_mac 3)).arp_table e =
        { time := 0, mac_addr := sample_mac 3, ip_addr := ⟨10, 0, 1, 3⟩ } :=
  ⟨by decide,
    (arp_update_insert (arp_update (arp_init arp_boot) ⟨10, 0, 1, 2⟩ (sample_mac 2))
      ⟨10, 0, 1, 3⟩ (sample_mac 3) (by decide) (by decide)).imp fun _ h => h.1⟩

/-- Claim C11.  For every ARP state, every `ip_addr` and every `mac_addr`, a
second `arp_update(ip_addr, mac_addr)` directly after the first leaves the
state (table and `arp_time`) as the first call left it. -/
theorem arp_update_idempotent (s : arp_state) (ip_addr : ip_addr_t) (mac_addr : mac_addr_t) :
    arp_update (arp_update s ip_addr mac_addr) ip_addr mac_addr =
      arp_update s ip_addr mac_addr := by
  rcases arp_update_cases s ip_addr mac_addr with ⟨i, hiu, hip, hmin, he⟩ | ⟨hmiss, e, hslot, he⟩
  · -- the first call refreshed slot `i`
    have hips : ∀ j, ((arp_update s ip_addr mac_addr).arp_table j).ip_addr =
        (s.arp_table j).ip_addr := by
      intro j
      rw [he]
      by_cases hj : j = i
      · subst hj; simp
      · simp [Function.update_noteq hj]
    rcases arp_update_cases (arp_update s ip_addr mac_addr) ip_addr mac_addr with
      ⟨k, hku, hkp, hkmin, hke⟩ | ⟨hmiss2, _⟩
    · have hki : k = i := by
        apply Fin.ext
        rcases Nat.lt_trichotomy k.val i.val with hlt | heq | hgt
        · exfalso
          apply hmin k hlt
          rw [arp_in_use, hips] at hku
          rw [hips] at hkp
          exact ⟨hku, hkp⟩
        · exact heq
        · exfalso
          apply hkmin i hgt
          simp only [arp_in_use, hips]
          exact ⟨hiu, hip⟩
      rw [hke, hki, hips]
      rw [he]
      simp [Function.update_idem]
    · exfalso
      refine hmiss2 i ?_ ?_
      · rw [arp_in_use, hips]; exact hiu
      · rw [hips]; exact hip
  · -- the first call wrote a whole entry into slot `e`
    have hat : (arp_update s ip_addr mac_addr).arp_table e =
        { time := s.arp_time, mac_addr := mac_addr, ip_addr := ip_addr } := by
      rw [he]; simp
    have hother : ∀ j, j ≠ e → (arp_update s ip_addr mac_addr).arp_table j = s.arp_table j := by
      intro j hj; rw [he]; simp [Function.update_noteq hj]
    have htime : (arp_update s ip_addr mac_addr).arp_time = s.arp_time := by rw [he]
    rcases arp_update_cases (arp_update s ip_addr mac_addr) ip_addr mac_addr with
      ⟨k, hku, hkp, _, hke⟩ | ⟨hmiss2, e2, hslot2, hke⟩
    · have hk : k = e := by
        by_contra hne
        rw [arp_in_use, hother k hne] at hku
        rw [hother k hne] at hkp
        exact hmiss k hku hkp
      rw [hke, hk, hat, htime]
      rw [he]
      simp [Function.update_idem]
    · have hempty : ip_addr_is_empty ip_addr = true := by
        by_contra hc
        simp only [Bool.not_eq_true] at hc
        refine hmiss2 e ?_ ?_
        · rw [arp_in_use, hat]; exact hc
        · rw [hat]
      have he2 : e2 = e := by
        rcases hslot2 with ⟨hf2, hlow2⟩ | hfull2
        · apply Fin.ext
          rcases Nat.lt_trichotomy e2.val e.val with hlt | heq | hgt
          · exfalso
            have hne : e2 ≠ e := fun h => by rw [h] at hlt; exact lt_irrefl _ hlt
            have hfree : ip_addr_is_empty (s.arp_table e2).ip_addr = true := by
              rw [hother e2 hne] at hf2; exact hf2
            rcases hslot with ⟨_, hlow⟩ | hfull
            · have := hlow e2 hlt
              rw [arp_in_use, hfree] at this; cases this
            · have := hfull e2
              rw [arp_in_use, hfree] at this; cases this
          · exact heq
          · exfalso
            have := hlow2 e hgt
            rw [arp_in_use, hat, hempty] at this; cases this
        · exfalso
          have := hfull2 e
          rw [arp_in_use, hat, hempty] at this; cases this
      rw [hke, he2, htime]
      rw [he]
      simp [Function.update_idem]

/-- Claim C12, evaluated at the failing input.  For the three octets
`45 00 01` followed in memory by `02`, `ip_checksum` with length 3 returns
`0xB7FD`, while the complement of the one's-complement sum of the words
`4500 0100` is `0xB9FF`; with `00` behind the same three octets it returns
`0xB9FF`: the value depends on the octet at index 3. -/
theorem ip_checksum_odd_length_overread :
    ip_checksum 3 (buffer_of [0x45, 0x00, 0x01, 0x02]) = some 0xB7FD ∧
    inet_checksum (buffer_of [0x45, 0x00, 0x01, 0x02]) 3 = 0xB9FF ∧
    ip_checksum 3 (buffer_of [0x45, 0x00, 0x01, 0x00]) = some 0xB9FF ∧
    (∀ i, i < 3 → buffer_of [0x45, 0x00, 0x01, 0x02] i = buffer_of [0x45, 0x00, 0x01, 0x00] i) := by
  refine ⟨by decide, by decide, by decide, ?_⟩
  intro i hi
  interval_cases i <;> rfl

/-- Claim C13.  For a 20-byte IPv4 header whose checksum field (octets 10 and
11) is zero, `ip_checksum` returns a value `c`, and with `c` written in
network byte order into the checksum field `ip_checksum` over the 20 octets
returns `0xFFFF` or `0x0000` (it returns `0x0000`). -/
theorem ip_checksum_roundtrip (h : Buffer) (h10 : h 10 = 0) (h11 : h 11 = 0) :
    ∃ c, ip_checksum 20 h = some c ∧
      (ip_checksum 20 (store_wire_u16 h 10 c) = some 0xFFFF ∨
       ip_checksum 20 (store_wire_u16 h 10 c) = some 0x0000) := by
  refine ⟨65535 - ones_complement_fold (be_word_sum h 20), ?_, Or.inr ?_⟩
  · rw [ip_checksum_eq 20 h (by omega)]
    simp
  · rw [ip_checksum_eq 20 _ (by omega)]
    have e : be_word_sum (store_wire_u16 h 10 (65535 - ones_complement_fold (be_word_sum h 20)))
        20 = be_word_sum h 20 + (65535 - ones_complement_fold (be_word_sum h 20)) :=
      be_word_sum_store_wire h 10 _ 20 (by omega) (by omega) h10 h11 (by omega)
    simp only [Nat.reduceMod, Nat.add_zero, if_true, e, ones_complement_fold_roundtrip]

/-- Witness of C13: the header of scenario S1; its checksum is `0x6427`. -/
theorem ip_checksum_roundtrip_witness :
    sample_ip_header 10 = 0 ∧ sample_ip_header 11 = 0 ∧
    ip_checksum 20 sample_ip_header = some 0x6427 ∧
    ∃ c, ip_checksum 20 sample_ip_header = some c ∧
      (ip_checksum 20 (store_wire_u16 sample_ip_header 10 c) = some 0xFFFF ∨
       ip_checksum 20 (store_wire_u16 sample_ip_header 10 c) = some 0x0000) :=
  ⟨by decide, by decide, by decide,
    ip_checksum_roundtrip sample_ip_header (by decide) (by decide)⟩

set_option maxRecDepth 20000 in
/-- Claim C14, evaluated at the failing inputs.  For the 13-octet datagram of
scenario S5 followed in memory by the octet `01`, from `10.0.1.100` to
`10.0.1.30`, `udp_checksum` returns `0xA078` where the checksum of the
specification is `0xA179`; for the 8-octet datagram `04 00 00 07 00 08 00 00`
from `192.168.1.1` to `192.168.1.2` it returns `0x7884` where the checksum of
the specification is `0x7883`. -/
theorem udp_checksum_disagrees :
    udp_checksum 13 (sample_udp_datagram 1) ⟨10, 0, 1, 100⟩ ⟨10, 0, 1, 30⟩ = some 0xA078 ∧
    udp_checksum_spec (sample_udp_datagram 1) 13 ⟨10, 0, 1, 100⟩ ⟨10, 0, 1, 30⟩ = 0xA179 ∧
    udp_checksum 8 (buffer_of [0x04, 0x00, 0x00, 0x07, 0x00, 0x08, 0x00, 0x00])
      ⟨192, 168, 1, 1⟩ ⟨192, 168, 1, 2⟩ = some 0x7884 ∧
    udp_checksum_spec (buffer_of [0x04, 0x00, 0x00, 0x07, 0x00, 0x08, 0x00, 0x00]) 8
      ⟨192, 168, 1, 1⟩ ⟨192, 168, 1, 2⟩ = 0x7883 ∧
    pseudo_header_word 192 168 = 0xFFFFC0A8 := by
  decide

/-- Claim C15, evaluated at the failing input.  For a datagram of 65535
octets, the largest length a `uint16_t` holds, `udp_checksum` does not
return, whatever the octets and the addresses are: the loop counter `i` is a
`uint16_t` like `length`, `i += 2` goes from 65534 to 0, and `i < length`
holds at every test, for every bound on the iterations.  So no checksum is
computed for the datagram with the checksum field zero, and none with the
checksum written into the field.  The case is received from the network:
`udp_decode` passes the UDP length field of the frame to `udp_checksum`, and
for the 42-byte frame to the bound port 7 with the length field 65535 and the
checksum field `0x0001` it does not return. -/
theorem udp_checksum_roundtrip_no_return :
    (∀ (d : Buffer) (fuel sum : Nat), checksum_loop 65535 d fuel 0 sum = none) ∧
    (∀ (d : Buffer) (src_addr dest_addr : ip_addr_t),
      udp_checksum 65535 d src_addr dest_addr = none) ∧
    ((8 : Nat) ≤ 65535 ∧ sample_udp_datagram 0 6 = 0 ∧ sample_udp_datagram 0 7 = 0 ∧
      udp_checksum 65535 (sample_udp_datagram 0) ⟨10, 0, 1, 100⟩ ⟨10, 0, 1, 30⟩ = none ∧
      ∀ c, udp_checksum 65535 (store_wire_u16 (sample_udp_datagram 0) 6 c)
        ⟨10, 0, 1, 100⟩ ⟨10, 0, 1, 30⟩ = none) ∧
    (wire_u16 (sample_udp_header 65535 1 []) udp_dest_port_off = 7 ∧
      wire_u16 (sample_udp_header 65535 1 []) udp_length_off = 65535 ∧
      wire_u16 (sample_udp_header 65535 1 []) udp_checksum_off = 1 ∧
      udp_decode sample_udp_bindings 42 (sample_udp_header 65535 1 []) =
        .error .no_return) := by
  refine ⟨fun d fuel sum => checksum_loop_never_ends d fuel 0 sum (by decide) (by decide),
    fun d src_addr dest_addr => udp_checksum_never_returns d src_addr dest_addr,
    ⟨by decide, by decide, by decide, udp_checksum_never_returns _ _ _,
      fun c => udp_checksum_never_returns _ _ _⟩,
    by decide, by decide, by decide, ?_⟩
  rw [udp_decode_eq sample_udp_bindings 42 (sample_udp_header 65535 1 []) 0
    { port := 7, callback := echo_udp sample_host } (by decide) rfl (by decide)
    (fun j hj => absurd hj (Nat.not_lt_zero _))]
  have h1 : wire_u16 (sample_udp_header 65535 1 []) udp_checksum_off ≠ 0 := by decide
  have h2 : wire_u16 (sample_udp_header 65535 1 []) udp_length_off = 65535 := by decide
  rw [if_pos h1, h2, udp_checksum_never_returns]

/-- Claim C16, evaluated at the failing inputs.  After `udp_bind(7, echo_udp)`,
`udp_bind(9, echo_udp)` and `udp_unbind(7)` the port 9 is bound in slot 1 and
slot 0 still points to the freed block of port 7.  For the 47-byte frame to
port 9 with the wire checksum zero the lookup of `udp_decode` reads
`udp_bindings[0]->port` from the freed block: the callback of port 9 is not
reached on a defined path.  With `echo_udp` bound on port 7 alone, the
42-byte frame to port 7 with the UDP length field 65535 and the wire checksum
`0x0001` makes `udp_decode` call `udp_checksum` with the length 65535, which
does not return: the frame is neither answered with the callback's result nor
dropped with 0. -/
theorem udp_decode_bound_port_faults :
    udp_table_view sample_rebound_bindings =
      [.freed 7, .live 9, .null, .null, .null, .null, .null, .null, .null, .null] ∧
    (wire_u16 (sample_udp_request 9 0) udp_dest_port_off = 9 ∧
      wire_u16 (sample_udp_request 9 0) udp_checksum_off = 0 ∧
      udp_decode sample_rebound_bindings 47 (sample_udp_request 9 0) =
        .error .use_after_free) ∧
    (udp_table_view sample_udp_bindings =
        [.live 7, .null, .null, .null, .null, .null, .null, .null, .null, .null] ∧
      wire_u16 (sample_udp_header 65535 1 []) udp_dest_port_off = 7 ∧
      wire_u16 (sample_udp_header 65535 1 []) udp_length_off = 65535 ∧
      wire_u16 (sample_udp_header 65535 1 []) udp_checksum_off = 1 ∧
      udp_decode sample_udp_bindings 42 (sample_udp_header 65535 1 []) =
        .error .no_return) := by
  refine ⟨by decide, ⟨by decide, by decide, rfl⟩, by decide, by decide, by decide,
    by decide, ?_⟩
  rw [udp_decode_eq sample_udp_bindings 42 (sample_udp_header 65535 1 []) 0
    { port := 7, callback := echo_udp sample_host } (by decide) rfl (by decide)
    (fun j hj => absurd hj (Nat.not_lt_zero _))]
  have h1 : wire_u16 (sample_udp_header 65535 1 []) udp_checksum_off ≠ 0 := by decide
  have h2 : wire_u16 (sample_udp_header 65535 1 []) udp_length_off = 65535 := by decide
  rw [if_pos h1, h2, udp_checksum_never_returns]

/-- Claim C17, evaluated at the failing inputs.  With the empty binding table
the lookup of `udp_decode` reads `udp_bindings[0]->port` through a null
pointer; with `echo_udp` bound on port 7 and a frame for port 9 it reads
`udp_bindings[1]->port` through a null pointer.  No value is returned. -/
theorem udp_decode_unbound_null_dereference :
    wire_u16 (sample_udp_request 9 0) udp_dest_port_off = 9 ∧
    udp_decode (fun _ => .null) 47 (sample_udp_request 9 0) = .error .null_dereference ∧
    udp_decode sample_udp_bindings 47 (sample_udp_request 9 0) =
      .error .null_dereference :=
  ⟨by decide, rfl, rfl⟩

/-- Claim C18.  A frame of length at least 98 with ICMP type 8 and code 0
whose Ethernet destination is the host MAC and whose IP destination is the
host IP: `icmp_decode` returns with the Ethernet source and destination
exchanged, the IP source and destination exchanged, ICMP type 0 and code 0,
and every octet from offset 38 on (identifier, sequence number, payload)
unchanged.  The IP protocol field is not read by `icmp_decode`. -/
theorem icmp_decode_echo_swap (cfg : host_config) (length : Nat) (packet : Buffer)
    (hlen : 98 ≤ length)
    (htype : packet icmp_type_off = 8) (hcode : packet icmp_code_off = 0)
    (hmac : load_mac packet mac_dest_addr_off = cfg.mac_host_addr)
    (hip : load_ip packet ip_dest_addr_off = cfg.ip_host_addr) :
    ∃ reply, icmp_decode cfg length packet = some (98, reply) ∧
      load_mac reply mac_dest_addr_off = load_mac packet mac_src_addr_off ∧
      load_mac reply mac_src_addr_off = load_mac packet mac_dest_addr_off ∧
      load_ip reply ip_dest_addr_off = load_ip packet ip_src_addr_off ∧
      load_ip reply ip_src_addr_off = load_ip packet ip_dest_addr_off ∧
      reply icmp_type_off = 0 ∧ reply icmp_code_off = 0 ∧
      ∀ i, 38 ≤ i → reply i = packet i := by
  refine ⟨store_wire_u16 (icmp_echo_reply_fields cfg packet) 36
    (65535 - ones_complement_fold
      (be_word_sum (buffer_at (icmp_echo_reply_fields cfg packet) 34) 64)),
    ?_, ?_, ?_, ?_, ?_, ?_, ?_, ?_⟩
  · rw [icmp_decode_eq cfg length packet htype hcode, if_neg (by omega)]
  · simp [icmp_echo_reply_fields, load_mac, load_ip, store_mac, store_ip, store_u8, store_u16,
      store_wire_u16]
  · rw [hmac]
    simp [icmp_echo_reply_fields, load_mac, load_ip, store_mac, store_ip, store_u8, store_u16,
      store_wire_u16]
  · simp [icmp_echo_reply_fields, load_mac, load_ip, store_mac, store_ip, store_u8, store_u16,
      store_wire_u16]
  · rw [hip]
    simp [icmp_echo_reply_fields, load_mac, load_ip, store_mac, store_ip, store_u8, store_u16,
      store_wire_u16]
  · simp [icmp_echo_reply_fields, store_u8, store_u16, store_wire_u16, ICMP_CODE_ECHO_REPLY]
  · simp [icmp_echo_reply_fields, store_u8, store_u16, store_wire_u16, ICMP_TYPE_ECHO_REPLY]
  · intro i hi
    have : i ≠ 0 ∧ i ≠ 1 ∧ i ≠ 2 ∧ i ≠ 3 ∧ i ≠ 4 ∧ i ≠ 5 ∧ i ≠ 6 ∧ i ≠ 7 ∧ i ≠ 8 ∧ i ≠ 9 ∧
        i ≠ 10 ∧ i ≠ 11 ∧ i ≠ 26 ∧ i ≠ 27 ∧ i ≠ 28 ∧ i ≠ 29 ∧ i ≠ 30 ∧ i ≠ 31 ∧ i ≠ 32 ∧
        i ≠ 33 ∧ i ≠ 34 ∧ i ≠ 35 ∧ i ≠ 36 ∧ i ≠ 37 := by omega
    simp [icmp_echo_reply_fields, store_mac, store_ip, store_u8, store_u16, store_wire_u16, this]

/-- Witness of C18, scenario S1: the echo request with 56 payload octets. -/
theorem icmp_decode_echo_swap_witness :
    (98 ≤ 98 ∧ sample_echo_request (List.replicate 56 0) icmp_type_off = 8 ∧
      sample_echo_request (List.replicate 56 0) icmp_code_off = 0 ∧
      load_mac (sample_echo_request (List.replicate 56 0)) mac_dest_addr_off =
        sample_host.mac_host_addr ∧
      load_ip (sample_echo_request (List.replicate 56 0)) ip_dest_addr_off =
        sample_host.ip_host_addr) ∧
    ∃ reply, icmp_decode sample_host 98 (sample_echo_request (List.replicate 56 0)) =
        some (98, reply) ∧
      load_mac reply mac_dest_addr_off = sample_mac 1 :=
  ⟨by decide,
    (icmp_decode_echo_swap sample_host 98 (sample_echo_request (List.replicate 56 0))
      (by decide) (by decide) (by decide) (by decide) (by decide)).imp
      fun _ h => ⟨h.1, h.2.1.trans (by decide)⟩⟩

/-- Counterexample to C19 as stated.  The echo request with 32 payload octets
has IP length 60 and frame length 74, and `icmp_decode` returns 0; the echo
request with 100 payload octets has IP length 128 and frame length 142, and
`icmp_decode` returns 98. -/
theorem icmp_decode_length_counterexample :
    sample_echo_request (List.replicate 32 0) icmp_type_off = 8 ∧
    sample_echo_request (List.replicate 32 0) icmp_code_off = 0 ∧
    wire_u16 (sample_echo_request (List.replicate 32 0)) 16 + 14 = 74 ∧
    Option.map Prod.fst (icmp_decode sample_host 74 (sample_echo_request (List.replicate 32 0)))
      = some 0 ∧
    sample_echo_request (List.replicate 100 0) icmp_type_off = 8 ∧
    sample_echo_request (List.replicate 100 0) icmp_code_off = 0 ∧
    wire_u16 (sample_echo_request (List.replicate 100 0)) 16 + 14 = 142 ∧
    Option.map Prod.fst (icmp_decode sample_host 142 (sample_echo_request (List.replicate 100 0)))
      = some 98 := by
  decide

/-- Claim C19, amended.  For a frame with ICMP type 8 and code 0,
`icmp_decode` returns 98, the size of `struct icmp_header_t`, when the frame
length is at least 98 and 0 when it is shorter; for a frame received with
length = IP length + 14 and 56 payload octets (IP length 84) the value is the
IP length + 14. -/
theorem icmp_decode_length (cfg : host_config) (length : Nat) (packet : Buffer)
    (htype : packet icmp_type_off = 8) (hcode : packet icmp_code_off = 0) :
    (∃ reply, icmp_decode cfg length packet = some (if 98 ≤ length then 98 else 0, reply)) ∧
    (wire_u16 packet 16 = 84 → length = wire_u16 packet 16 + 14 →
      ∃ reply, icmp_decode cfg length packet = some (wire_u16 packet 16 + 14, reply)) := by
  have h := icmp_decode_eq cfg length packet htype hcode
  constructor
  · by_cases hl : length < 98
    · rw [h, if_pos hl, if_neg (by omega)]; exact ⟨_, rfl⟩
    · rw [h, if_neg hl, if_pos (by omega)]; exact ⟨_, rfl⟩
  · intro h84 hlen
    rw [h, if_neg (by omega), h84]
    exact ⟨_, rfl⟩

/-- Witness of C19 as amended, scenario S1: frame length 98, IP length 84. -/
theorem icmp_decode_length_witness :
    (sample_echo_request (List.replicate 56 0) icmp_type_off = 8 ∧
      sample_echo_request (List.replicate 56 0) icmp_code_off = 0 ∧
      wire_u16 (sample_echo_request (List.replicate 56 0)) 16 = 84) ∧
    ∃ reply, icmp_decode sample_host 98 (sample_echo_request (List.replicate 56 0)) =
      some (wire_u16 (sample_echo_request (List.replicate 56 0)) 16 + 14, reply) :=
  ⟨by decide,
    (icmp_decode_length sample_host 98 (sample_echo_request (List.replicate 56 0))
      (by decide) (by decide)).2 (by decide) (by decide)⟩

set_option maxRecDepth 20000 in
/-- Counterexample to C20 as stated.  The echo request with the 58 payload
octets `00 .. 00 AB CD` has IP length 86, frame length 100 and a valid ICMP
checksum.  `icmp_decode` answers it, and `icmp_checksum` over the ICMP portion
of the reply, IP length - 20 = 66 octets from offset 34, is `0x5432`, not 0;
over the first 64 octets it is 0. -/
theorem icmp_decode_checksum_counterexample :
    wire_u16 (sample_echo_request (List.replicate 56 0 ++ [0xAB, 0xCD])) 16 = 86 ∧
    icmp_checksum 66 (buffer_at (sample_echo_request (List.replicate 56 0 ++ [0xAB, 0xCD])) 34)
      = some 0 ∧
    Option.map Prod.fst
      (icmp_decode sample_host 100 (sample_echo_request (List.replicate 56 0 ++ [0xAB, 0xCD])))
      = some 98 ∧
    Option.bind
      (icmp_decode sample_host 100 (sample_echo_request (List.replicate 56 0 ++ [0xAB, 0xCD])))
      (fun r => icmp_checksum (86 - 20) (buffer_at r.2 34)) = some 0x5432 ∧
    Option.bind
      (icmp_decode sample_host 100 (sample_echo_request (List.replicate 56 0 ++ [0xAB, 0xCD])))
      (fun r => icmp_checksum 64 (buffer_at r.2 34)) = some 0 := by
  decide

/-- Claim C20, amended.  For every echo request answered by `icmp_decode`
(length at least 98, type 8, code 0) the checksum field of the reply holds, in
network byte order, the value of `icmp_checksum` over the 64 octets from
offset 34 (the ICMP header and 56 payload octets) with the checksum field
zeroed, and `icmp_checksum` over these 64 octets of the reply is 0. -/
theorem icmp_decode_checksum (cfg : host_config) (length : Nat) (packet : Buffer)
    (hlen : 98 ≤ length)
    (htype : packet icmp_type_off = 8) (hcode : packet icmp_code_off = 0) :
    ∃ reply c, icmp_decode cfg length packet = some (98, reply) ∧
      icmp_checksum 64 (buffer_at (store_u16 reply icmp_checksum_off 0) 34) = some c ∧
      wire_u16 reply icmp_checksum_off = c ∧
      icmp_checksum 64 (buffer_at reply 34) = some 0 := by
  have hz36 : icmp_echo_reply_fields cfg packet 36 = 0 := by
    simp [icmp_echo_reply_fields, store_u16, low_byte]
  have hz37 : icmp_echo_reply_fields cfg packet 37 = 0 := by
    simp [icmp_echo_reply_fields, store_u16, low_byte]
  have hc := ones_complement_fold_lt
    (be_word_sum (buffer_at (icmp_echo_reply_fields cfg packet) 34) 64)
  generalize hcdef : 65535 - ones_complement_fold
    (be_word_sum (buffer_at (icmp_echo_reply_fields cfg packet) 34) 64) = c at hc
  have hsum : ip_checksum 64 (buffer_at (icmp_echo_reply_fields cfg packet) 34) = some c := by
    rw [ip_checksum_eq 64 _ (by omega), ← hcdef]; simp
  have hclear : store_u16 (store_wire_u16 (icmp_echo_reply_fields cfg packet) 36 c)
      icmp_checksum_off 0 = icmp_echo_reply_fields cfg packet := by
    funext i
    by_cases h1 : i = 36
    · subst h1; simp [store_u16, hz36, low_byte]
    · by_cases h2 : i = 37
      · subst h2; simp [store_u16, hz37, low_byte]
      · simp [store_u16, store_wire_u16, h1, h2]
  have hshift : buffer_at (store_wire_u16 (icmp_echo_reply_fields cfg packet) 36 c) 34 =
      store_wire_u16 (buffer_at (icmp_echo_reply_fields cfg packet) 34) 2 c := by
    funext i
    simp only [buffer_at, store_wire_u16]
    have a : (34 + i = 36) ↔ (i = 2) := by omega
    have b : (34 + i = 36 + 1) ↔ (i = 2 + 1) := by omega
    simp only [a, b]
  refine ⟨store_wire_u16 (icmp_echo_reply_fields cfg packet) 36 c, c, ?_, ?_, ?_, ?_⟩
  · rw [icmp_decode_eq cfg length packet htype hcode, if_neg (by omega), hcdef]
  · rw [hclear, icmp_checksum_eq_ip, hsum]
  · simp only [wire_u16, store_wire_u16, icmp_checksum_off, if_true, low_byte]
    simp
    omega
  · rw [hshift, icmp_checksum_eq_ip, ip_checksum_eq 64 _ (by omega)]
    have e := be_word_sum_store_wire (buffer_at (icmp_echo_reply_fields cfg packet) 34) 2 c 64
      (by omega) hc (by simp [buffer_at, hz36]) (by simp [buffer_at, hz37]) (by omega)
    simp only [Nat.reduceMod, Nat.add_zero, if_true, e]
    rw [← hcdef, ones_complement_fold_roundtrip]

/-- Witness of C20 as amended, scenario S1: the reply carries the checksum
`0xFFFD`. -/
theorem icmp_decode_checksum_witness :
    (98 ≤ 98 ∧ sample_echo_request (List.replicate 56 0) icmp_type_off = 8 ∧
      sample_echo_request (List.replicate 56 0) icmp_code_off = 0 ∧
      Option.map (fun r => wire_u16 r.2 icmp_checksum_off)
        (icmp_decode sample_host 98 (sample_echo_request (List.replicate 56 0)))
        = some 0xFFFD) ∧
    ∃ reply c, icmp_decode sample_host 98 (sample_echo_request (List.replicate 56 0)) =
        some (98, reply) ∧
      icmp_checksum 64 (buffer_at (store_u16 reply icmp_checksum_off 0) 34) = some c ∧
      wire_u16 reply icmp_checksum_off = c ∧
      icmp_checksum 64 (buffer_at reply 34) = some 0 :=
  ⟨by decide,
    icmp_decode_checksum sample_host 98 (sample_echo_request (List.replicate 56 0))
      (by decide) (by decide) (by decide)⟩

/-- Claim C21.  `net_decode` returns 0 and leaves the packet buffer, the ARP
state and both binding tables as they were for every frame that is shorter
than 14 bytes, or whose ethertype (read in network byte order) is neither
`0x0806` nor `0x0800`, or whose ethertype is `0x0800` and that is shorter than
34 bytes, or whose ethertype is `0x0800` and whose protocol field is none of
1, 17 and 6. -/
theorem net_decode_drops (cfg : host_config) (s : net_state) (length : Nat) (packet : Buffer)
    (h : length < 14 ∨
      (wire_u16 packet mac_type_off ≠ 0x0806 ∧ wire_u16 packet mac_type_off ≠ 0x0800) ∨
      (wire_u16 packet mac_type_off = 0x0800 ∧ length < 34) ∨
      (wire_u16 packet mac_type_off = 0x0800 ∧ (packet ip_protocol_off).val ≠ 1 ∧
        (packet ip_protocol_off).val ≠ 17 ∧ (packet ip_protocol_off).val ≠ 6)) :
    net_decode cfg s length packet = .ok (0, s, packet) := by
  unfold net_decode
  simp only [htons_load_u16, MAC_TYPE_ARP, MAC_TYPE_IP4, IP_PROTOCOL_ICMP, IP_PROTOCOL_UDP,
    IP_PROTOCOL_TCP, sizeof_mac_header_t, sizeof_ip_header_t]
  rcases h with h | ⟨h1, h2⟩ | ⟨h1, h2⟩ | ⟨h1, h2, h3, h4⟩
  · rw [if_pos h]
  · by_cases hl : length < 14
    · rw [if_pos hl]
    · rw [if_neg hl, if_neg h1, if_neg h2]
  · by_cases hl : length < 14
    · rw [if_pos hl]
    · rw [if_neg hl, if_neg (by rw [h1]; decide), if_pos h1, if_pos h2]
  · by_cases hl : length < 14
    · rw [if_pos hl]
    · rw [if_neg hl, if_neg (by rw [h1]; decide), if_pos h1]
      by_cases hl2 : length < 34
      · rw [if_pos hl2]
      · rw [if_neg hl2, if_neg h2, if_neg h3, if_neg h4]

/-- Witness of C21: a 10-byte runt, an IPv6 frame (ethertype `0x86DD`), an
IPv4 frame cut to 20 bytes and an IGMP frame (protocol 2) are dropped. -/
theorem net_decode_drops_witness :
    (wire_u16 (sample_frame 0x86DD 17) mac_type_off = 0x86DD ∧
      wire_u16 (sample_frame 0x0800 2) mac_type_off = 0x0800 ∧
      (sample_frame 0x0800 2 ip_protocol_off).val = 2) ∧
    net_decode sample_host sample_net_state 10 (sample_frame 0x0800 17) =
      .ok (0, sample_net_state, sample_frame 0x0800 17) ∧
    net_decode sample_host sample_net_state 60 (sample_frame 0x86DD 17) =
      .ok (0, sample_net_state, sample_frame 0x86DD 17) ∧
    net_decode sample_host sample_net_state 20 (sample_frame 0x0800 17) =
      .ok (0, sample_net_state, sample_frame 0x0800 17) ∧
    net_decode sample_host sample_net_state 60 (sample_frame 0x0800 2) =
      .ok (0, sample_net_state, sample_frame 0x0800 2) :=
  ⟨by decide,
    net_decode_drops sample_host sample_net_state 10 (sample_frame 0x0800 17)
      (Or.inl (by decide)),
    net_decode_drops sample_host sample_net_state 60 (sample_frame 0x86DD 17)
      (Or.inr (Or.inl (by decide))),
    net_decode_drops sample_host sample_net_state 20 (sample_frame 0x0800 17)
      (Or.inr (Or.inr (Or.inl (by decide)))),
    net_decode_drops sample_host sample_net_state 60 (sample_frame 0x0800 2)
      (Or.inr (Or.inr (Or.inr (by decide))))⟩

set_option maxRecDepth 20000 in
/-- Claim C22, evaluated at the failing inputs: 42-byte frames to port 7 with
`echo_udp` bound there.  With the UDP length field 1000 and no checksum the
frame is accepted and 1034 is returned as the reply length; with the length
field 4 it is accepted and 38 is returned.  With the length field 10 and the
checksum `0x7CE8` the frame is accepted when the two octets behind it in the
buffer are `68 69` and dropped when they are zero, so the checksum has read
the octets 42 and 43.  With the length field 65535 and a checksum that is not
zero the call does not return. -/
theorem udp_decode_length_field_unchecked :
    (wire_u16 (sample_udp_header 1000 0 []) udp_length_off = 1000 ∧
      udp_outcome (udp_decode sample_udp_bindings 42 (sample_udp_header 1000 0 [])) =
        some (1034, some 0)) ∧
    (wire_u16 (sample_udp_header 4 0 []) udp_length_off = 4 ∧
      udp_outcome (udp_decode sample_udp_bindings 42 (sample_udp_header 4 0 [])) =
        some (38, some 0)) ∧
    ((∀ i, i < 42 →
        sample_udp_header 10 0x7CE8 [0x68, 0x69] i = sample_udp_header 10 0x7CE8 [] i) ∧
      udp_outcome (udp_decode sample_udp_bindings 42 (sample_udp_header 10 0x7CE8 [0x68, 0x69])) =
        some (44, some 0) ∧
      udp_outcome (udp_decode sample_udp_bindings 42 (sample_udp_header 10 0x7CE8 [])) =
        some (0, none)) ∧
    (wire_u16 (sample_udp_header 65535 1 []) udp_length_off = 65535 ∧
      udp_decode sample_udp_bindings 42 (sample_udp_header 65535 1 []) = .error .no_return) := by
  refine ⟨by decide, by decide, ⟨by decide, by decide, by decide⟩, by decide, ?_⟩
  rw [udp_decode_eq sample_udp_bindings 42 (sample_udp_header 65535 1 []) 0
    { port := 7, callback := echo_udp sample_host } (by decide) rfl (by decide)
    (fun j hj => absurd hj (Nat.not_lt_zero _))]
  have h1 : wire_u16 (sample_udp_header 65535 1 []) udp_checksum_off ≠ 0 := by decide
  have h2 : wire_u16 (sample_udp_header 65535 1 []) udp_length_off = 65535 := by decide
  rw [if_pos h1, h2, udp_checksum_never_returns]

/-- Claim C23.  When `k` is the lowest slot of the table that holds `NULL` and
`calloc` returns a block, `udp_bind(port, callback)` returns `true` and the
table after the call is the table before with slot `k` pointing to
`(port, callback)`, every other slot as it was.  When no slot holds `NULL`,
`udp_bind` returns `false` and the table is as it was.  (When `calloc` returns
`NULL` the call returns `false` and the table is as it was.) -/
theorem udp_bind_first_free (udp_bindings : Fin UDP_MAX_BINDINGS → udp_slot)
    (port : Nat) (callback : udp_inbound_t) :
    (∀ k : Fin UDP_MAX_BINDINGS, udp_bindings k = .null →
      (∀ j : Fin UDP_MAX_BINDINGS, j.val < k.val → udp_bindings j ≠ .null) →
      udp_bind udp_bindings true port callback =
        (true, Function.update udp_bindings k (.live { port := port, callback := callback })) ∧
      udp_bind udp_bindings false port callback = (false, udp_bindings)) ∧
    ((∀ j : Fin UDP_MAX_BINDINGS, udp_bindings j ≠ .null) →
      ∀ allocated, udp_bind udp_bindings allocated port callback = (false, udp_bindings)) := by
  refine ⟨fun k hk hlow => ⟨?_, ?_⟩, fun hall allocated => ?_⟩
  · rw [udp_bind_eq udp_bindings true port callback k hk hlow, if_pos rfl]
  · rw [udp_bind_eq udp_bindings false port callback k hk hlow]
    simp
  · exact udp_bind_full udp_bindings allocated port callback hall

/-- Witness of C23: `udp_bind(7, echo_udp)` on the empty table fills slot 0,
and `udp_bind(11, echo_udp)` on the table that holds the ports 1 to 10 is
refused. -/
theorem udp_bind_first_free_witness :
    udp_bind (fun _ => .null) true 7 (echo_udp sample_host) =
      (true, Function.update (fun _ => .null) 0
        (.live { port := 7, callback := echo_udp sample_host })) ∧
    (∀ j, (sample_full_bindings j).view = .live (j.val + 1)) ∧
    udp_bind sample_full_bindings true 11 (echo_udp sample_host) =
      (false, sample_full_bindings) :=
  ⟨((udp_bind_first_free (fun _ => .null) 7 (echo_udp sample_host)).1 0 rfl
      (fun j hj => absurd hj (Nat.not_lt_zero _))).1,
    by decide,
    (udp_bind_first_free sample_full_bindings 11 (echo_udp sample_host)).2
      (fun j h => by
        have hall : ∀ i : Fin UDP_MAX_BINDINGS,
            (sample_full_bindings i).view = .live (i.val + 1) := by decide
        have hv := hall j
        rw [h] at hv
        exact slot_view.noConfusion hv) true⟩

/-- Counterexample to C24 as stated.  `udp_bind(7, echo_udp)` called twice on
the empty table fills the slots 0 and 1 with the port 7: the table reached
holds the same port in two slots. -/
theorem udp_bind_unique_ports_counterexample :
    (udp_run (fun _ => .null)
        [.bind true 7 (echo_udp sample_host), .bind true 7 (echo_udp sample_host)]).map
      udp_table_view =
      some [.live 7, .live 7, .null, .null, .null, .null, .null, .null, .null, .null] ∧
    ¬ ∀ t, udp_run (fun _ => .null)
        [.bind true 7 (echo_udp sample_host), .bind true 7 (echo_udp sample_host)] = some t →
      udp_unique t := by
  refine ⟨by decide, fun h => ?_⟩
  have h01 := h _ rfl 0 1 7 (by decide) (by decide)
  exact absurd h01 (by decide)

/-- Claim C24, amended.  In every table reached from the empty table by a
sequence of `udp_bind` and `udp_unbind` calls that return, in which
`udp_bind` is never called for a port that a live binding holds at the time
of the call, no two live bindings hold the same port. -/
theorem udp_bind_unique_ports (calls : List udp_call) (t : Fin UDP_MAX_BINDINGS → udp_slot)
    (hfresh : udp_calls_fresh (fun _ => .null) calls = true)
    (hrun : udp_run (fun _ => .null) calls = some t) : udp_unique t :=
  udp_unique_run calls (fun _ => .null) t
    (fun i j port hi _ => by simp [udp_slot.view] at hi) hfresh hrun

/-- Witness of C24: the ports 7 and 9 are bound, 7 is unbound and bound
again. -/
theorem udp_bind_unique_ports_witness :
    udp_calls_fresh (fun _ => .null)
      [.bind true 7 (echo_udp sample_host), .bind true 9 (echo_udp sample_host), .unbind 7,
       .bind true 7 (echo_udp sample_host)] = true ∧
    (udp_run (fun _ => .null)
      [.bind true 7 (echo_udp sample_host), .bind true 9 (echo_udp sample_host), .unbind 7,
       .bind true 7 (echo_udp sample_host)]).map udp_table_view =
      some [.freed 7, .live 9, .live 7, .null, .null, .null, .null, .null, .null, .null] ∧
    udp_unique (udp_bind (Function.update (udp_bind_ports (fun _ => .null) [7, 9]) 0
      (.freed { port := 7, callback := echo_udp sample_host })) true 7
        (echo_udp sample_host)).2 :=
  ⟨by decide, by decide,
    udp_bind_unique_ports
      [.bind true 7 (echo_udp sample_host), .bind true 9 (echo_udp sample_host), .unbind 7,
       .bind true 7 (echo_udp sample_host)] _ (by decide) rfl⟩

/-- Claim C25, evaluated at the failing inputs.  On the full table (ports 1 to
10) `udp_unbind(1)` returns `true` and leaves the pointer to the freed block
in slot 0: no slot holds `NULL` afterwards, `udp_bind(11, echo_udp)` is still
refused, and for a frame to port 1 `udp_decode` reads the freed block.  With
`echo_udp` bound on port 7 only, `udp_unbind(9)` for the port that is not
bound reads `udp_bindings[1]->port` through a null pointer. -/
theorem udp_unbind_leaves_pointer :
    udp_table_view sample_full_bindings =
      [.live 1, .live 2, .live 3, .live 4, .live 5, .live 6, .live 7, .live 8, .live 9,
       .live 10] ∧
    udp_free_slots sample_full_bindings = 0 ∧
    udp_unbind sample_full_bindings 1 = .ok (true, sample_unbound_bindings) ∧
    udp_table_view sample_unbound_bindings =
      [.freed 1, .live 2, .live 3, .live 4, .live 5, .live 6, .live 7, .live 8, .live 9,
       .live 10] ∧
    udp_free_slots sample_unbound_bindings = 0 ∧
    (udp_bind sample_unbound_bindings true 11 (echo_udp sample_host)).1 = false ∧
    udp_table_view (udp_bind sample_unbound_bindings true 11 (echo_udp sample_host)).2 =
      udp_table_view sample_unbound_bindings ∧
    wire_u16 (sample_udp_request 1 0) udp_dest_port_off = 1 ∧
    udp_decode sample_unbound_bindings 47 (sample_udp_request 1 0) = .error .use_after_free ∧
    udp_unbind sample_udp_bindings 9 = .error .null_dereference :=
  ⟨by decide, by decide, rfl, by decide, by decide, by decide, by decide, by decide, rfl, rfl⟩

/-- Claim C26, evaluated at the failing inputs.  On the empty table
`tcp_bind(port, callback)` returns `false` and stores nothing, for every port
and callback, where `udp_bind` returns `true` and fills slot 0: the loop of
`tcp_bind` goes on while the slot is `NULL` and the function ends with
`return false`.  On a table whose slot 0 holds the port 80 and whose other
slots are free, `tcp_bind(443, callback)` overwrites slot 0 and returns
`false`. -/
theorem tcp_bind_never_binds (allocated : Bool) (port : Nat) (callback : tcp_inbound_t) :
    tcp_bind (fun _ => .null) allocated port callback = (false, fun _ => .null) ∧
    (udp_bind (fun _ => .null) true port callback).1 = true ∧
    udp_table_view (udp_bind (fun _ => .null) true port callback).2 =
      [.live port, .null, .null, .null, .null, .null, .null, .null, .null, .null] ∧
    (tcp_bind (fun i => if i = 0 then .live { port := 80, callback := callback } else .null)
      true 443 callback).1 = false ∧
    tcp_table_view
      (tcp_bind (fun i => if i = 0 then .live { port := 80, callback := callback } else .null)
        true 443 callback).2 =
      [.live 443, .null, .null, .null, .null, .null, .null, .null, .null, .null] := by
  refine ⟨?_, rfl, rfl, rfl, rfl⟩
  have h : tcp_bind_lookup (fun _ => .null) TCP_MAX_BINDINGS 0 = TCP_MAX_BINDINGS := rfl
  unfold tcp_bind
  simp only [h, lt_irrefl, dite_false]

/-- Claim C28.  The timer list of the state is `l` (addresses and members of
the blocks, well linked), the callbacks `run` work on a state of their own
and do not touch the timers, `clock_time ()` is `now`, and the loop bound
exceeds the length of the list.  Then `timer_periodic` returns, and there is
one outcome per timer, in list order: `none` for a timer whose callback was
not called, `some b` for a timer whose callback was called once and returned
`b`.  The outcome is `some` exactly for the timers with
`(now - start) mod 2^32 >= interval`; the calls made are those of the
outcomes, in list order; and the list after the sweep is the list before in
the same order, with the timers of outcome `none` as they were, the timers of
outcome `some true` with `start` advanced by `interval` (modulo 2^32) and the
timers of outcome `some false` removed.  The outcomes are those of the sweep
of the specification: the outcome of a due timer `x` is the value
`run x.callback w` returns, `w` being the state the callbacks of the timers
before `x` left, and the state of the callbacks after the sweep is the one
these calls leave. -/
theorem timer_periodic_fires_due {W : Type} (fuel : Nat)
    (run : timer_callback_t → W → Bool × W) (now : Nat) (s : timer_state) (world : W)
    (l : List (Nat × timer_entry)) (h : timer_list s l) (hf : l.length < fuel) :
    ∃ (outcomes : List (Option Bool)) (r : timer_sweep W),
      timer_periodic fuel (timer_callbacks run) now s world = .ok r ∧
      outcomes.length = l.length ∧
      (∀ x ∈ l.zip outcomes,
        x.2.isSome = decide (x.1.2.interval ≤ to_uint32 ((now : Int) - (x.1.2.start : Int)))) ∧
      r.calls = (l.zip outcomes).filterMap
        (fun x => x.2.map (fun b => (x.1.2.callback, b))) ∧
      timer_list r.state ((l.zip outcomes).filterMap fun x =>
        match x.2 with
        | none => some x.1
        | some true =>
          some (x.1.1, { x.1.2 with
            start := to_uint32 ((x.1.2.start : Int) + (x.1.2.interval : Int)) })
        | some false => none) ∧
      outcomes = (timer_sweep_outcomes run now l world).1 ∧
      r.world = (timer_sweep_outcomes run now l world).2 ∧
      ∀ (l1 : List (Nat × timer_entry)) (x : Nat × timer_entry)
        (rest : List (Nat × timer_entry)), l = l1 ++ x :: rest →
        x.2.interval ≤ to_uint32 ((now : Int) - (x.2.start : Int)) →
        (x, some (run x.2.callback (timer_sweep_outcomes run now l1 world).2).1) ∈
          l.zip outcomes := by
  obtain ⟨o, r, k1, k2, k3, k4, k5, _, k7, k8⟩ :=
    timer_periodic_loop_spec run now l [] s world fuel (by simpa using h) hf
  refine ⟨o, r, ?_, k2, k3, k4, ?_, k7, k8, ?_⟩
  · rw [timer_periodic, timer_chain_head s.heap l 0 s.timer_table h.1]
    exact k1
  · simpa using k5
  · intro l1 x rest hl hdue
    have hmem := timer_sweep_outcomes_at run now l1 x rest world
    have hd : timer_due now x = true := by
      simp only [timer_due, decide_eq_true_eq]; exact hdue
    rw [hd, if_pos rfl, ← hl, ← k7] at hmem
    exact hmem

set_option maxRecDepth 10000 in
/-- Witness of C28: in the list with the timers `(105, 5, 2)` at address 2
and `(100, 10, 1)` at address 1 the sweep at clock value 111 calls the
callback 2, which returns `false`, then the callback 1, which returns `true`;
afterwards the block at address 1 is the only one, with `start` 110, and the
state of the callbacks has counted two calls. -/
theorem timer_periodic_fires_due_witness :
    (timer_list sample_timers
        [(2, { start := 105, interval := 5, callback := 2 }),
         (1, { start := 100, interval := 10, callback := 1 })] ∧ 2 < 3) ∧
    timer_observe [1, 2] (timer_periodic 3 (timer_callbacks sample_run) 111 sample_timers 0) =
      some ([(2, false), (1, true)], 1,
        [some { start := 110, interval := 10, callback := 1, prev := 0, next := 0 }, none]) ∧
    ∃ (outcomes : List (Option Bool)) (r : timer_sweep Nat),
      timer_periodic 3 (timer_callbacks sample_run) 111 sample_timers 0 = .ok r ∧
      outcomes = [some false, some true] ∧ r.world = 2 ∧
      r.calls = [(2, false), (1, true)] :=
  ⟨⟨sample_timers_list, by decide⟩, by decide,
    (timer_periodic_fires_due 3 sample_run 111 sample_timers 0 _ sample_timers_list
      (by decide)).imp fun _ h => h.imp fun _ h2 =>
        ⟨h2.1, h2.2.2.2.2.2.1.trans (by decide), h2.2.2.2.2.2.2.1.trans (by decide),
          h2.2.2.2.1.trans (by rw [h2.2.2.2.2.2.1]; decide)⟩⟩

/-- Claim C29.  A timer state reached from the state at program start by
calls of `timer_set`, `timer_clear`, `timer_reset`, `timer_restart`,
`timer_get` and `timer_periodic` that return (the callbacks do not touch the
timers, `calloc` returns blocks that are not live, the loop bound exceeds the
number of calls) has a well-linked timer list with at most one timer per
callback.  In such a state `timer_set (callback, interval)` at clock value
`now`, with `calloc` returning the block `timer`, returns; afterwards the
list is the new timer `(now, interval, callback)` in the block `timer`
followed by the timers of the other callbacks as they were and in their
order, `timer_table` points to the new block, and `timer_get (callback)`
returns it. -/
theorem timer_one_per_callback {W : Type} (fuel : Nat)
    (run : timer_callback_t → W → Bool × W) (world : W) (calls : List timer_call)
    (s : timer_state) (w : W) (hf : calls.length < fuel)
    (hrun : timer_run fuel (timer_callbacks run) timer_boot world calls = some (s, w)) :
    ∃ l, timer_list s l ∧ (l.map fun x => x.2.callback).Nodup ∧
      ∀ (timer now : Nat) (callback : timer_callback_t) (interval : Nat),
        timer ≠ 0 → timer_calloc fuel s callback timer = true →
        ∃ s2, timer_set fuel s timer now callback interval = .ok s2 ∧
          timer_list s2
            ((timer, { start := now, interval := interval, callback := callback }) ::
              l.filter fun x => decide (x.2.callback ≠ callback)) ∧
          s2.timer_table = timer ∧ timer_get (fuel + 1) s2 callback = .ok timer := by
  obtain ⟨l, h1, h2, h3⟩ := timer_run_unique fuel run calls timer_boot world [] s w
    ⟨rfl, by simp⟩ (by simp [timer_unique]) (by simpa using hf) hrun
  simp only [List.length_nil, Nat.zero_add] at h3
  refine ⟨l, h1, h2, fun timer now callback interval h0 hfresh => ?_⟩
  have hfr : ∀ s1, timer_clear fuel s callback = .ok s1 → s1.heap timer = none := by
    intro s1 hs1
    simp only [timer_calloc, hs1, Bool.or_eq_true, beq_iff_eq, Option.isNone_iff_eq_none]
      at hfresh
    exact hfresh.resolve_left h0
  obtain ⟨s2, k1, k2⟩ := timer_set_spec fuel s timer now callback interval l h1 (by omega) h0
    hfr
  rw [list_eraseP_eq_filter callback l h2] at k2
  refine ⟨s2, k1, k2, ?_, ?_⟩
  · exact k2.1.1
  · rw [timer_get_spec (fuel + 1) s2 callback _ k2 ?_]
    · simp
    · have := List.length_filter_le (fun x : Nat × timer_entry =>
        decide (x.2.callback ≠ callback)) l
      simp only [List.length_cons]
      omega

set_option maxRecDepth 10000 in
/-- Witness of C29: after `sample_timer_calls` the timer of the callback 3
is in the block at address 2 and the timer of the callback 1, with `start`
advanced to 110, in the block at address 1; `timer_set (1, 3)` at clock value
120 with a new block at address 3 puts the new timer of the callback 1
first. -/
theorem timer_one_per_callback_witness :
    (sample_timer_calls.length < 5 ∧
      timer_run 5 (timer_callbacks sample_run) timer_boot 0 sample_timer_calls =
        some (sample_timer_state, 2)) ∧
    (sample_timer_state.timer_table = 2 ∧
      sample_timer_state.heap 2 =
        some { start := 112, interval := 7, callback := 3, prev := 0, next := 1 } ∧
      sample_timer_state.heap 1 =
        some { start := 110, interval := 10, callback := 1, prev := 2, next := 0 } ∧
      sample_timer_state.heap 3 = none ∧
      timer_calloc 5 sample_timer_state 1 3 = true) ∧
    ∃ l, timer_list sample_timer_state l ∧ (l.map fun x => x.2.callback).Nodup ∧
      ∃ s2, timer_set 5 sample_timer_state 3 120 1 3 = .ok s2 ∧ s2.timer_table = 3 ∧
        timer_get 6 s2 1 = .ok 3 :=
  ⟨⟨by decide, rfl⟩, by decide,
    (timer_one_per_callback 5 sample_run 0 sample_timer_calls sample_timer_state 2
      (by decide) rfl).imp fun _ h =>
        ⟨h.1, h.2.1, (h.2.2 3 120 1 3 (by decide) (by decide)).imp fun _ h2 =>
          ⟨h2.1, h2.2.2.1, h2.2.2.2⟩⟩⟩

/-- Claim C30.  Let `x` be a timer (a block with its members) of the
well-linked list `l` of the state and let one call of the interface return,
with callbacks that do not touch the timers.  The state after the call has a
well-linked list `l2`, and: after `timer_set` or `timer_clear` for another
callback `x` is in `l2` as it was; after `timer_reset` or `timer_restart`
`l2` holds the same blocks in the same order with their callbacks and
intervals (only a `start` is written), and `x` is as it was when the call was
for another callback; after `timer_get` the state is the state before; after
a sweep of `timer_periodic` in which `x` is not due, `x` is in `l2` as it
was; when `x` is due, its callback was called on the state `w` that the
callbacks of the timers before `x` left, and either `run x.callback w`
returned `true` and `x` is in `l2` with `start` advanced, or
`run x.callback w` returned `false`.  So the block of `x` is missing
afterwards only in the cases `timer_clear (x.callback)`,
`timer_set (x.callback, _)` and a sweep that called the callback of `x` and
got the result `false` from it. -/
theorem timer_leaves_only_by_clear_or_false {W : Type} (fuel : Nat)
    (run : timer_callback_t → W → Bool × W) (s : timer_state) (world : W)
    (call : timer_call) (r : timer_sweep W) (l : List (Nat × timer_entry))
    (x : Nat × timer_entry) (h : timer_list s l) (hf : l.length < fuel) (hx : x ∈ l)
    (hc : ∀ timer now callback interval, call = .set timer now callback interval →
      timer_calloc fuel s callback timer = true)
    (hstep : timer_step fuel (timer_callbacks run) s world call = .ok r) :
    ∃ l2, timer_list r.state l2 ∧
      (∀ timer now callback interval, call = .set timer now callback interval →
        x.2.callback ≠ callback → x ∈ l2) ∧
      (∀ callback, call = .clear callback → x.2.callback ≠ callback → x ∈ l2) ∧
      (∀ callback, call = .reset callback →
        l2.map (fun y => (y.1, y.2.callback, y.2.interval)) =
          l.map (fun y => (y.1, y.2.callback, y.2.interval)) ∧
        (x.2.callback ≠ callback → x ∈ l2)) ∧
      (∀ now callback, call = .restart now callback →
        l2.map (fun y => (y.1, y.2.callback, y.2.interval)) =
          l.map (fun y => (y.1, y.2.callback, y.2.interval)) ∧
        (x.2.callback ≠ callback → x ∈ l2)) ∧
      (∀ callback, call = .get callback → l2 = l ∧ r.state = s) ∧
      (∀ now, call = .periodic now →
        (to_uint32 ((now : Int) - (x.2.start : Int)) < x.2.interval → x ∈ l2) ∧
        (x.2.interval ≤ to_uint32 ((now : Int) - (x.2.start : Int)) →
          ((x.2.callback, true) ∈ r.calls ∧
            (x.1, { x.2 with
              start := to_uint32 ((x.2.start : Int) + (x.2.interval : Int)) }) ∈ l2) ∨
          (x.2.callback, false) ∈ r.calls) ∧
        l2 = (l.zip (timer_sweep_outcomes run now l world).1).filterMap timer_after ∧
        r.calls = (l.zip (timer_sweep_outcomes run now l world).1).filterMap
          (fun y => y.2.map (fun b => (y.1.2.callback, b))) ∧
        r.world = (timer_sweep_outcomes run now l world).2 ∧
        ∀ (l1 rest : List (Nat × timer_entry)), l = l1 ++ x :: rest →
          x.2.interval ≤ to_uint32 ((now : Int) - (x.2.start : Int)) →
          ((run x.2.callback (timer_sweep_outcomes run now l1 world).2).1 = true ∧
            (x.2.callback, true) ∈ r.calls ∧
            (x.1, { x.2 with
              start := to_uint32 ((x.2.start : Int) + (x.2.interval : Int)) }) ∈ l2) ∨
          ((run x.2.callback (timer_sweep_outcomes run now l1 world).2).1 = false ∧
            (x.2.callback, false) ∈ r.calls)) := by
  obtain ⟨p1, p2, p3, p4, p5, p6⟩ := timer_step_spec fuel run s world call r l h hf hstep
  cases call with
  | set timer now callback interval =>
    refine ⟨_, p1 timer now callback interval rfl (hc timer now callback interval rfl), ?_,
      ?_, ?_, ?_, ?_, ?_⟩
    · intro t n c i e hne
      cases e
      exact List.mem_cons_of_mem _ ((List.mem_eraseP_of_neg (by simpa using hne)).2 hx)
    all_goals intros; simp_all
  | clear callback =>
    refine ⟨_, p2 callback rfl, ?_, ?_, ?_, ?_, ?_, ?_⟩
    · intros; simp_all
    · intro c e hne
      cases e
      exact (List.mem_eraseP_of_neg (by simpa using hne)).2 hx
    all_goals intros; simp_all
  | reset callback =>
    refine ⟨_, p3 callback rfl, ?_, ?_, ?_, ?_, ?_, ?_⟩
    · intros; simp_all
    · intros; simp_all
    · intro c e
      cases e
      exact ⟨list_update_first_map (fun x : Nat × timer_entry => decide (x.2.callback = callback))
          timer_advanced (fun y => (y.1, y.2.callback, y.2.interval)) (fun _ => rfl) l,
        fun hne => list_update_first_mem _ _ l x hx (by simpa using hne)⟩
    all_goals intros; simp_all
  | restart now callback =>
    refine ⟨_, p4 now callback rfl, ?_, ?_, ?_, ?_, ?_, ?_⟩
    · intros; simp_all
    · intros; simp_all
    · intros; simp_all
    · intro n c e
      cases e
      exact ⟨list_update_first_map (fun x : Nat × timer_entry => decide (x.2.callback = callback))
          (fun x => timer_with_start x now) (fun y => (y.1, y.2.callback, y.2.interval))
          (fun _ => rfl) l,
        fun hne => list_update_first_mem _ _ l x hx (by simpa using hne)⟩
    all_goals intros; simp_all
  | get callback =>
    refine ⟨l, p5 callback rfl, ?_, ?_, ?_, ?_, ?_, ?_⟩
    · intros; simp_all
    · intros; simp_all
    · intros; simp_all
    · intros; simp_all
    · intro c e
      cases e
      refine ⟨rfl, ?_⟩
      simp only [timer_step, timer_get_spec fuel s callback l h hf, Except.ok.injEq] at hstep
      rw [← hstep]
    · intros; simp_all
  | periodic now =>
    obtain ⟨o, k1, k2, k3, k4, k7, k8⟩ := p6 now rfl
    refine ⟨_, k4, ?_, ?_, ?_, ?_, ?_, ?_⟩
    · intros; simp_all
    · intros; simp_all
    · intros; simp_all
    · intros; simp_all
    · intros; simp_all
    · intro n e
      cases e
      obtain ⟨m1, m2⟩ := timer_after_mem now l o r.calls k1 k2 k3 x hx
      refine ⟨fun hlt => m1 ?_, fun hle => m2 ?_, by rw [k7], by rw [k3, k7], k8, ?_⟩
      · simp only [timer_due, decide_eq_false_iff_not]; omega
      · simp only [timer_due, decide_eq_true_eq]; exact hle
      · intro l1 rest hl hdue
        have hmem := timer_sweep_outcomes_at run now l1 x rest world
        have hd : timer_due now x = true := by
          simp only [timer_due, decide_eq_true_eq]; exact hdue
        rw [hd, if_pos rfl, ← hl, ← k7] at hmem
        cases hb : (run x.2.callback (timer_sweep_outcomes run now l1 world).2).1 with
        | true =>
          rw [hb] at hmem
          left
          refine ⟨rfl, ?_, List.mem_filterMap.2 ⟨(x, some true), hmem, rfl⟩⟩
          rw [k3]
          exact List.mem_filterMap.2 ⟨(x, some true), hmem, rfl⟩
        | false =>
          rw [hb] at hmem
          right
          refine ⟨rfl, ?_⟩
          rw [k3]
          exact List.mem_filterMap.2 ⟨(x, some false), hmem, rfl⟩

set_option maxRecDepth 10000 in
/-- Witness of C30: in the list with the timers `(105, 5, 2)` at address 2
and `(100, 10, 1)` at address 1, the sweep at clock value 107 finds no timer
due and leaves both blocks as they are, `timer_clear (2)` frees the block at
address 2 and leaves the timer at address 1 with its members, and the sweep
at clock value 111 calls the callback 1 after the callback 2 and, as it
returns `true`, keeps its timer with `start` 110. -/
theorem timer_leaves_only_by_clear_or_false_witness :
    (timer_list sample_timers
        [(2, { start := 105, interval := 5, callback := 2 }),
         (1, { start := 100, interval := 10, callback := 1 })] ∧ 2 < 3 ∧
      timer_observe [1, 2] (timer_step 3 (timer_callbacks sample_run) sample_timers 0
        (.periodic 107)) =
        some ([], 2,
          [some { start := 100, interval := 10, callback := 1, prev := 2, next := 0 },
           some { start := 105, interval := 5, callback := 2, prev := 0, next := 1 }]) ∧
      timer_observe [1, 2] (timer_step 3 (timer_callbacks sample_run) sample_timers 0
        (.clear 2)) =
        some ([], 1,
          [some { start := 100, interval := 10, callback := 1, prev := 0, next := 0 },
           none])) ∧
    (∃ l2, timer_list (timer_sweep_of (timer_step 3 (timer_callbacks sample_run)
        sample_timers 0 (.periodic 107)) 0).state l2 ∧
      (1, { start := 100, interval := 10, callback := 1 }) ∈ l2) ∧
    (∃ l2, timer_list (timer_sweep_of (timer_step 3 (timer_callbacks sample_run)
        sample_timers 0 (.clear 2)) 0).state l2 ∧
      (1, { start := 100, interval := 10, callback := 1 }) ∈ l2) ∧
    (∃ l2, timer_list (timer_sweep_of (timer_step 3 (timer_callbacks sample_run)
        sample_timers 0 (.periodic 111)) 0).state l2 ∧
      (sample_run 1 (timer_sweep_outcomes sample_run 111
        [(2, { start := 105, interval := 5, callback := 2 })] 0).2).1 = true ∧
      (1, { start := 110, interval := 10, callback := 1 }) ∈ l2) :=
  ⟨⟨sample_timers_list, by decide, by decide, by decide⟩,
    (timer_leaves_only_by_clear_or_false 3 sample_run sample_timers 0 (.periodic 107)
      (timer_sweep_of (timer_step 3 (timer_callbacks sample_run) sample_timers 0
        (.periodic 107)) 0) _
      (1, { start := 100, interval := 10, callback := 1 }) sample_timers_list (by decide)
      (by decide) (fun _ _ _ _ e => by cases e) rfl).imp
      fun _ h => ⟨h.1, (h.2.2.2.2.2.2 107 rfl).1 (by decide)⟩,
    (timer_leaves_only_by_clear_or_false 3 sample_run sample_timers 0 (.clear 2)
      (timer_sweep_of (timer_step 3 (timer_callbacks sample_run) sample_timers 0
        (.clear 2)) 0) _
      (1, { start := 100, interval := 10, callback := 1 }) sample_timers_list (by decide)
      (by decide) (fun _ _ _ _ e => by cases e) rfl).imp
      fun _ h => ⟨h.1, h.2.2.1 2 rfl (by decide)⟩,
    (timer_leaves_only_by_clear_or_false 3 sample_run sample_timers 0 (.periodic 111)
      (timer_sweep_of (timer_step 3 (timer_callbacks sample_run) sample_timers 0
        (.periodic 111)) 0) _
      (1, { start := 100, interval := 10, callback := 1 }) sample_timers_list (by decide)
      (by decide) (fun _ _ _ _ e => by cases e) rfl).imp
      fun _ h => ⟨h.1, by decide,
        ((h.2.2.2.2.2.2 111 rfl).2.2.2.2.2
          [(2, { start := 105, interval := 5, callback := 2 })] [] rfl (by decide)).elim
          (fun a => a.2.2) (fun b => absurd b.1 (by decide))⟩⟩

set_option maxRecDepth 10000 in
/-- Claim C31, evaluated.  The timer list holds the timer of the callback 2
(block 2, start 105, interval 5) followed by the timer of the callback 1
(block 1, start 100, interval 10), and `timer_periodic` runs at clock value
111, when both are due.  `timer_periodic` reads `timer_next` before the call
and uses `timer` and `timer_next` after it.

* The callback 2 calls `timer_clear (1)`, the timer that follows its own, and
  returns `true`: `timer_next` points to the freed block 1 and the next
  iteration reads `timer->next` through it.
* The callback 2 calls `timer_clear (2)`, its own timer, and returns `true`:
  `timer->start += timer->interval` is made on the freed block 2.
* The callback 2 calls `timer_clear (2)` and returns `false`: the block 2 is
  unlinked and freed a second time.
* The callback 2 calls `timer_set (2, 7)` and `calloc` returns a new block 3:
  the block 2 was freed by the call and `timer->start += timer->interval` is
  made on it.
* The callback 2 calls `timer_set (2, 7)` and `calloc` returns the block 2
  again: the sweep returns, and the timer just set has `start` 118, not the
  111 that `timer_set` gave it.
* The callback 2 calls `timer_set (1, 7)` and `calloc` returns a new block 3:
  `timer_next` points to the freed block 1.

The sweep does tolerate a callback that clears a timer the sweep has passed:
when the callback 1 calls `timer_clear (2)` the sweep returns with the timer
of 1 alone in the list. -/
theorem timer_periodic_callback_mutation :
    timer_fault (timer_periodic 5 (sample_clearing_run 2 1 true) 111 sample_timers 0) =
      some .use_after_free ∧
    timer_fault (timer_periodic 5 (sample_clearing_run 2 2 true) 111 sample_timers 0) =
      some .use_after_free ∧
    timer_fault (timer_periodic 5 (sample_clearing_run 2 2 false) 111 sample_timers 0) =
      some .use_after_free ∧
    timer_fault (timer_periodic 5 (sample_setting_run 3 2) 111 sample_timers 0) =
      some .use_after_free ∧
    timer_observe [1, 2] (timer_periodic 5 (sample_setting_run 2 2) 111 sample_timers 0) =
      some ([(2, true), (1, true)], 2,
        [some { start := 110, interval := 10, callback := 1, prev := 2, next := 0 },
         some { start := 118, interval := 7, callback := 2, prev := 0, next := 1 }]) ∧
    timer_fault (timer_periodic 5 (sample_setting_run 3 1) 111 sample_timers 0) =
      some .use_after_free ∧
    timer_observe [1, 2] (timer_periodic 5 (sample_clearing_run 1 2 true) 111 sample_timers 0) =
      some ([(2, true), (1, true)], 1,
        [some { start := 110, interval := 10, callback := 1, prev := 0, next := 0 }, none]) := by
  refine ⟨by decide, by decide, by decide, by decide, by decide, by decide, by decide⟩

/-- Claim C32.  For every 16-bit `x`, `htons (htons x) = x`, and the low
byte of `htons x` is the high byte of `x` and the high byte of `htons x` is
the low byte of `x`.  For every 32-bit `y`, `htonl (htonl y) = y`, and the
bytes of `htonl y`, from the lowest to the highest, are the bytes of `y` from
the highest to the lowest. -/
theorem htons_htonl_involution (x y : Nat) (hx : x < 65536) (hy : y < 4294967296) :
    (htons (htons x) = x ∧ htons x % 256 = x / 256 ∧ htons x / 256 = x % 256) ∧
    (htonl (htonl y) = y ∧
      htonl y % 256 = y / 16777216 ∧
      htonl y / 256 % 256 = y / 65536 % 256 ∧
      htonl y / 65536 % 256 = y / 256 % 256 ∧
      htonl y / 16777216 = y % 256) := by
  have e1 := htons_eq x hx
  have e2 := htons_eq (htons x) (by omega)
  obtain ⟨a, b, c, d, ha, hb, hc, hd, rfl⟩ := uint32_bytes y hy
  rw [htonl_bytes a b c d ha hb hc hd, htonl_bytes d c b a hd hc hb ha]
  obtain ⟨f0, f1, f2, f3⟩ := uint32_byte_fields a b c d ha hb hc hd
  obtain ⟨g0, g1, g2, g3⟩ := uint32_byte_fields d c b a hd hc hb ha
  rw [f0, f1, f2, f3, g0, g1, g2, g3]
  exact ⟨⟨by omega, by omega, by omega⟩, rfl, rfl, rfl, rfl, rfl⟩

/-- Witness of C32: `htons 0x1234 = 0x3412` and `htonl 0x12345678 =
0x78563412`. -/
theorem htons_htonl_involution_witness :
    ((0x1234 : Nat) < 65536 ∧ (0x12345678 : Nat) < 4294967296) ∧
    htons 0x1234 = 0x3412 ∧ htonl 0x12345678 = 0x78563412 ∧
    (htons (htons 0x1234) = 0x1234 ∧ htons 0x1234 % 256 = 0x1234 / 256 ∧
      htons 0x1234 / 256 = 0x1234 % 256) ∧
    (htonl (htonl 0x12345678) = 0x12345678 ∧
      htonl 0x12345678 % 256 = 0x12345678 / 16777216 ∧
      htonl 0x12345678 / 256 % 256 = 0x12345678 / 65536 % 256 ∧
      htonl 0x12345678 / 65536 % 256 = 0x12345678 / 256 % 256 ∧
      htonl 0x12345678 / 16777216 = 0x12345678 % 256) :=
  ⟨⟨by decide, by decide⟩, by decide, by decide,
    htons_htonl_involution 0x1234 0x12345678 (by decide) (by decide)⟩

/-- Claim C33.  In a clock state with `microtime < 1000`: `clock_tick`
leaves `timestamp` as it is and adds one to `microtime` when
`microtime < 999`; it sets `microtime` to 0 and adds one to `timestamp`
modulo 2^32 when `microtime = 999`; `microtime < 1000` holds again after
`clock_tick` and after `clock_set_time`; and 1000 consecutive calls of
`clock_tick` add one to `timestamp` modulo 2^32 and leave `microtime` at the
value it had. -/
theorem clock_tick_carries (s : clock_state) (time : Nat) (h : s.microtime < 1000) :
    (s.microtime < 999 →
      clock_tick s = { timestamp := s.timestamp, microtime := s.microtime + 1 }) ∧
    (s.microtime = 999 →
      clock_tick s = { timestamp := (s.timestamp + 1) % 4294967296, microtime := 0 }) ∧
    (clock_tick s).microtime < 1000 ∧
    (clock_set_time s time).microtime < 1000 ∧
    (clock_set_time s time).timestamp = time ∧
    clock_ticks 1000 s =
      { timestamp := (s.timestamp + 1) % 4294967296, microtime := s.microtime } := by
  refine ⟨clock_tick_below s, clock_tick_wrap s, ?_, by simp [clock_set_time], rfl, ?_⟩
  · by_cases h9 : s.microtime = 999
    · rw [clock_tick_wrap s h9]; simp
    · rw [clock_tick_below s (by omega)]; simp only; omega
  · have e : 1000 = (999 - s.microtime) + (1 + s.microtime) := by omega
    rw [e, clock_ticks_add, clock_ticks_below _ s (by omega), clock_ticks_add]
    simp only [clock_ticks]
    rw [clock_tick_wrap _ (by simp only; omega), clock_ticks_below _ _ (by simp only; omega)]
    simp

/-- Witness of C33: from second 4294967295 (the largest `uint32_t`) and
millisecond 998 one tick gives millisecond 999, the next gives second 0 and
millisecond 0, and 1000 ticks give second 0 and millisecond 998. -/
theorem clock_tick_carries_witness :
    (998 : Nat) < 1000 ∧
    clock_tick { timestamp := 4294967295, microtime := 998 } =
      { timestamp := 4294967295, microtime := 999 } ∧
    clock_tick { timestamp := 4294967295, microtime := 999 } =
      { timestamp := 0, microtime := 0 } ∧
    clock_ticks 1000 { timestamp := 4294967295, microtime := 998 } =
      { timestamp := 0, microtime := 998 } :=
  ⟨by decide, by decide, by decide,
    (clock_tick_carries { timestamp := 4294967295, microtime := 998 } 0 (by decide)).2.2.2.2.2⟩

/-- Claim C34.  An outbound IPv4 frame whose destination IP is
`255.255.255.255`, in any state of the ARP table: `arp_encode` returns the
original length, the Ethernet destination is `FF:FF:FF:FF:FF:FF`, the
Ethernet source is the host MAC, the ethertype is `0x0800` (not the `0x0806`
of an ARP request), and every byte from offset 14 on, after the MAC header,
is unchanged. -/
theorem arp_encode_broadcast (cfg : host_config) (s : arp_state) (length : Nat)
    (packet : Buffer) (hb : load_ip packet ip_dest_addr_off = ip_broadcast_addr) :
    (arp_encode cfg s length packet).1 = length ∧
    load_mac (arp_encode cfg s length packet).2 mac_dest_addr_off = mac_broadcast_addr ∧
    load_mac (arp_encode cfg s length packet).2 mac_src_addr_off = cfg.mac_host_addr ∧
    wire_u16 (arp_encode cfg s length packet).2 mac_type_off = 0x0800 ∧
    wire_u16 (arp_encode cfg s length packet).2 mac_type_off ≠ MAC_TYPE_ARP ∧
    ∀ k, 14 ≤ k → (arp_encode cfg s length packet).2 k = packet k := by
  have hbc : ip_addr_compare (load_ip packet ip_dest_addr_off) ip_broadcast_addr = true :=
    (ip_addr_compare_iff _ _).2 hb
  have e : arp_encode cfg s length packet =
      arp_encode_finish cfg length (store_mac packet mac_dest_addr_off mac_broadcast_addr) := by
    unfold arp_encode
    rw [if_pos hbc]
  rw [e]
  obtain ⟨h1, h2, h3, h4, h5⟩ := arp_encode_finish_fields cfg length
    (store_mac packet mac_dest_addr_off mac_broadcast_addr)
  refine ⟨h1, ?_, h3, h4, ?_, ?_⟩
  · rw [h2]; simp [load_mac, store_mac]
  · rw [h4]; decide
  · intro k hk
    rw [h5 k hk]
    have : k ≠ 0 ∧ k ≠ 1 ∧ k ≠ 2 ∧ k ≠ 3 ∧ k ≠ 4 ∧ k ≠ 5 := by omega
    simp [store_mac, this]

/-- Witness of C34: host `10.0.1.30`, the table after `arp_init`, and the
47-byte UDP frame to `255.255.255.255`. -/
theorem arp_encode_broadcast_witness :
    load_ip (sample_udp_frame ip_broadcast_addr) ip_dest_addr_off = ip_broadcast_addr ∧
    (arp_encode sample_host (arp_init arp_boot) 47 (sample_udp_frame ip_broadcast_addr)).1 = 47 ∧
    load_mac (arp_encode sample_host (arp_init arp_boot) 47
      (sample_udp_frame ip_broadcast_addr)).2 mac_dest_addr_off = mac_broadcast_addr ∧
    load_mac (arp_encode sample_host (arp_init arp_boot) 47
      (sample_udp_frame ip_broadcast_addr)).2 mac_src_addr_off = sample_host.mac_host_addr :=
  ⟨by decide,
    (arp_encode_broadcast sample_host (arp_init arp_boot) 47
      (sample_udp_frame ip_broadcast_addr) (by decide)).1,
    (arp_encode_broadcast sample_host (arp_init arp_boot) 47
      (sample_udp_frame ip_broadcast_addr) (by decide)).2.1,
    (arp_encode_broadcast sample_host (arp_init arp_boot) 47
      (sample_udp_frame ip_broadcast_addr) (by decide)).2.2.1⟩

/-- Claim C35, evaluated.  `queue_packet` stores nothing and returns `false`
for every frame, and `queue_get_table` returns `NULL`.  Host `10.0.1.30/24`
with the table after `arp_init` sends the 47-byte UDP frame to `10.0.1.99`,
for which no entry exists: `arp_encode` calls `queue_packet`, which reports
`false`, ignores the value, and returns 42 with the ARP request written over
the frame (ethertype `0x0806`; the byte at offset 14 was `0x45`, the first
byte of the IP header, and is 0, and the source address `10.0.1.30` at offset
26 is overwritten).  Afterwards the queue table is `NULL` and the original
frame is held nowhere. -/
theorem arp_encode_miss_frame_lost :
    (∀ (length : Nat) (packet : Buffer), queue_packet length packet = false) ∧
    queue_get_table = 0 ∧
    (∀ j, ((arp_init arp_boot).arp_table j).ip_addr ≠
      arp_target sample_host (load_ip (sample_udp_frame ⟨10, 0, 1, 99⟩) ip_dest_addr_off)) ∧
    (arp_encode sample_host (arp_init arp_boot) 47 (sample_udp_frame ⟨10, 0, 1, 99⟩)).1 = 42 ∧
    wire_u16 (arp_encode sample_host (arp_init arp_boot) 47
      (sample_udp_frame ⟨10, 0, 1, 99⟩)).2 mac_type_off = 0x0806 ∧
    sample_udp_frame ⟨10, 0, 1, 99⟩ 14 = 0x45 ∧
    (arp_encode sample_host (arp_init arp_boot) 47 (sample_udp_frame ⟨10, 0, 1, 99⟩)).2 14 = 0 ∧
    load_ip (sample_udp_frame ⟨10, 0, 1, 99⟩) ip_src_addr_off = ⟨10, 0, 1, 30⟩ ∧
    load_ip (arp_encode sample_host (arp_init arp_boot) 47
      (sample_udp_frame ⟨10, 0, 1, 99⟩)).2 ip_src_addr_off ≠ ⟨10, 0, 1, 30⟩ ∧
    queue_packet 47 (sample_udp_frame ⟨10, 0, 1, 99⟩) = false := by
  refine ⟨fun _ _ => rfl, rfl, by decide, by decide, by decide, by decide, by decide,
    by decide, by decide, rfl⟩

/-- Claim C36.  A frame shorter than the 42 bytes of `arp_header_t`, or a
REQUEST (opcode 1) whose target IP is not the host address, or a REPLY
(opcode 2), or a frame whose opcode is neither 1 nor 2: `arp_decode` returns
0 and the packet buffer is as it was. -/
theorem arp_decode_no_reply (cfg : host_config) (s : arp_state) (length : Nat)
    (packet : Buffer)
    (h : length < 42 ∨
      (wire_u16 packet arp_opcode_off = 1 ∧
        load_ip packet arp_ip_dest_addr_off ≠ cfg.ip_host_addr) ∨
      wire_u16 packet arp_opcode_off = 2 ∨
      (wire_u16 packet arp_opcode_off ≠ 1 ∧ wire_u16 packet arp_opcode_off ≠ 2)) :
    (arp_decode cfg s length packet).1 = 0 ∧ (arp_decode cfg s length packet).2.2 = packet := by
  unfold arp_decode
  rw [htons_load_u16]
  simp only [ip_addr_compare_eq_decide, ARP_OPCODE_REQUEST, ARP_OPCODE_REPLY,
    sizeof_arp_header_t]
  by_cases hl : length < 42
  · simp [hl]
  · by_cases h1 : wire_u16 packet arp_opcode_off = 1
    · have hc : load_ip packet arp_ip_dest_addr_off ≠ cfg.ip_host_addr := by
        rcases h with h | h | h | h
        · exact absurd h hl
        · exact h.2
        · rw [h1] at h; exact absurd h (by decide)
        · exact absurd h1 h.1
      simp [hl, h1, hc]
    · by_cases h2 : wire_u16 packet arp_opcode_off = 2
      · by_cases hc : load_ip packet arp_ip_dest_addr_off = cfg.ip_host_addr <;>
          simp [hl, h2, hc]
      · simp [hl, h1, h2]

/-- Witness of C36: the 42-byte request of `10.0.1.50` for `10.0.1.30` cut
to 41 bytes, and the same request in full received by the host
`10.0.1.31`. -/
theorem arp_decode_no_reply_witness :
    ((41 : Nat) < 42 ∧
      (arp_decode sample_host (arp_init arp_boot) 41 sample_arp_request).1 = 0 ∧
      (arp_decode sample_host (arp_init arp_boot) 41 sample_arp_request).2.2 =
        sample_arp_request) ∧
    ((wire_u16 sample_arp_request arp_opcode_off = 1 ∧
        load_ip sample_arp_request arp_ip_dest_addr_off ≠ ⟨10, 0, 1, 31⟩) ∧
      (arp_decode { sample_host with ip_host_addr := ⟨10, 0, 1, 31⟩ } (arp_init arp_boot) 42
        sample_arp_request).1 = 0) :=
  ⟨⟨by decide,
      arp_decode_no_reply sample_host (arp_init arp_boot) 41 sample_arp_request
        (Or.inl (by decide))⟩,
    ⟨by decide,
      (arp_decode_no_reply { sample_host with ip_host_addr := ⟨10, 0, 1, 31⟩ }
        (arp_init arp_boot) 42 sample_arp_request (Or.inr (Or.inl (by decide)))).1⟩⟩

/-- Claim C37.  In any state of the table and for any value of `arp_time`,
`arp_update (ip_addr, mac_addr)` with a non-zero `ip_addr` followed by
`k < 120` calls of `arp_flush` leaves a slot `i` that holds `ip_addr` with
`mac_addr` and the time of the update, is in use, and is the first slot that
holds `ip_addr`; so `arp_encode` for a frame whose resolution target is
`ip_addr` sends it to `mac_addr`. -/
theorem arp_binding_kept_below_max_age (s : arp_state) (ip_addr : ip_addr_t)
    (mac_addr : mac_addr_t) (k : Nat)
    (hnz : ip_addr_is_empty ip_addr = false) (hk : k < 120) :
    ∃ i,
      (arp_flush_times k (arp_update s ip_addr mac_addr)).arp_table i =
        { time := s.arp_time, mac_addr := mac_addr, ip_addr := ip_addr } ∧
      arp_in_use ((arp_flush_times k (arp_update s ip_addr mac_addr)).arp_table i) ∧
      (∀ j, j.val < i.val →
        ((arp_flush_times k (arp_update s ip_addr mac_addr)).arp_table j).ip_addr ≠ ip_addr) ∧
      ∀ (cfg : host_config) (length : Nat) (packet : Buffer),
        load_ip packet ip_dest_addr_off ≠ ip_broadcast_addr →
        arp_target cfg (load_ip packet ip_dest_addr_off) = ip_addr →
        (arp_encode cfg (arp_flush_times k (arp_update s ip_addr mac_addr)) length packet).1 =
          length ∧
        load_mac (arp_encode cfg (arp_flush_times k (arp_update s ip_addr mac_addr)) length
          packet).2 mac_dest_addr_off = mac_addr := by
  obtain ⟨i, hi, hfirst⟩ := arp_update_first s ip_addr mac_addr
  have htime : (arp_update s ip_addr mac_addr).arp_time = s.arp_time :=
    (arp_update_present s ip_addr mac_addr).1
  have hage : modular_age (arp_update s ip_addr mac_addr).arp_time
      ((arp_update s ip_addr mac_addr).arp_table i) = 0 := by
    rw [hi, htime]
    have := s.arp_time.isLt
    simp only [modular_age]
    omega
  have hkeep : (arp_flush_times k (arp_update s ip_addr mac_addr)).arp_table i =
      { time := s.arp_time, mac_addr := mac_addr, ip_addr := ip_addr } := by
    rw [arp_flush_times_young k _ i (by rw [hage]; omega), hi]
  have hz : ip_zero_addr ≠ ip_addr := by
    intro h
    rw [← h] at hnz
    exact absurd hnz (by decide)
  have hlow : ∀ j, j.val < i.val →
      ((arp_flush_times k (arp_update s ip_addr mac_addr)).arp_table j).ip_addr ≠ ip_addr := by
    intro j hj hc
    rcases arp_flush_times_ip k (arp_update s ip_addr mac_addr) j with h | h
    · rw [h] at hc
      have hne : j ≠ i := fun e => by rw [e] at hj; exact lt_irrefl _ hj
      have := hfirst j hne (by rw [arp_in_use, hc]; exact hnz) hc
      omega
    · rw [h] at hc
      exact hz hc
  refine ⟨i, hkeep, by rw [hkeep]; exact hnz, hlow, ?_⟩
  intro cfg length packet hb htgt
  rw [arp_encode_hit cfg _ length packet i hb (by rw [hkeep, htgt])
    (fun j hj => by rw [htgt]; exact hlow j hj)]
  obtain ⟨h1, h2, _⟩ := arp_encode_finish_fields cfg length
    (store_mac packet mac_dest_addr_off
      ((arp_flush_times k (arp_update s ip_addr mac_addr)).arp_table i).mac_addr)
  refine ⟨h1, ?_⟩
  rw [h2, hkeep]
  simp [load_mac, store_mac]

/-- Witness of C37: `10.0.1.2` is learnt at `arp_time` 200 and `arp_flush`
runs 119 times, `arp_time` passing from 255 to 0 on the way. -/
theorem arp_binding_kept_below_max_age_witness :
    (ip_addr_is_empty ⟨10, 0, 1, 2⟩ = false ∧ 119 < 120) ∧
    ∃ i,
      (arp_flush_times 119 (arp_update arp_late_state ⟨10, 0, 1, 2⟩ (sample_mac 2))).arp_table i =
        { time := arp_late_state.arp_time, mac_addr := sample_mac 2, ip_addr := ⟨10, 0, 1, 2⟩ } ∧
      arp_in_use ((arp_flush_times 119
        (arp_update arp_late_state ⟨10, 0, 1, 2⟩ (sample_mac 2))).arp_table i) :=
  ⟨⟨by decide, by decide⟩,
    (arp_binding_kept_below_max_age arp_late_state ⟨10, 0, 1, 2⟩ (sample_mac 2) 119
      (by decide) (by decide)).imp fun _ h => ⟨h.1, h.2.1⟩⟩

/-- Claim C38.  A frame whose 20-byte IP header (at offset 14) has a valid
checksum, `ip_checksum` over it being 0, and whose destination IP is the host
address: `icmp_echo_reply` returns a reply, and `ip_checksum` over the IP
header of the reply is 0 again.  The function exchanges the two addresses of
the header, which leaves the sum of its 16-bit words as it was, and writes no
other byte of it. -/
theorem icmp_echo_reply_keeps_ip_checksum (cfg : host_config) (length : Nat)
    (packet : Buffer)
    (hsum : ip_checksum 20 (buffer_at packet 14) = some 0)
    (hdest : load_ip packet ip_dest_addr_off = cfg.ip_host_addr) :
    ∃ reply, icmp_echo_reply cfg length packet = some (98, reply) ∧
      ip_checksum 20 (buffer_at reply 14) = some 0 ∧
      load_ip reply ip_src_addr_off = load_ip packet ip_dest_addr_off ∧
      load_ip reply ip_dest_addr_off = load_ip packet ip_src_addr_off := by
  refine ⟨_, icmp_echo_reply_eq cfg length packet, ?_, ?_, ?_⟩
  · rw [ip_checksum_even 20 _ (by decide) (by decide)] at hsum ⊢
    simp only [inet_checksum] at hsum ⊢
    rw [icmp_echo_reply_ip_header cfg packet _ hdest]
    exact hsum
  · simp [store_wire_u16, icmp_echo_reply_fields, store_ip, store_mac, store_u8, store_u16,
      load_ip, load_mac, ← hdest]
  · simp [store_wire_u16, icmp_echo_reply_fields, store_ip, store_mac, store_u8, store_u16,
      load_ip, load_mac]

set_option maxRecDepth 10000 in
/-- Witness of C38, scenario S1: the echo request of `10.0.1.100` to the host
`10.0.1.30` with 56 payload octets. -/
theorem icmp_echo_reply_keeps_ip_checksum_witness :
    (ip_checksum 20 (buffer_at (sample_echo_request (List.replicate 56 0)) 14) = some 0 ∧
      load_ip (sample_echo_request (List.replicate 56 0)) ip_dest_addr_off =
        sample_host.ip_host_addr) ∧
    ∃ reply, icmp_echo_reply sample_host 98 (sample_echo_request (List.replicate 56 0)) =
        some (98, reply) ∧
      ip_checksum 20 (buffer_at reply 14) = some 0 ∧
      load_ip reply ip_src_addr_off = ⟨10, 0, 1, 30⟩ ∧
      load_ip reply ip_dest_addr_off = ⟨10, 0, 1, 100⟩ :=
  ⟨by decide,
    (icmp_echo_reply_keeps_ip_checksum sample_host 98 (sample_echo_request (List.replicate 56 0))
      (by decide) (by decide)).imp
      fun _ h => ⟨h.1, h.2.1, h.2.2.1.trans (by decide), h.2.2.2.trans (by decide)⟩⟩

set_option maxRecDepth 100000 in
/-- Claim C39, evaluated.  The host `10.0.1.30/24` has no default router
(`0.0.0.0`) and sends the 47-byte UDP frame to `8.8.8.8`, which is off its
subnet, so the resolution target is `0.0.0.0`.  The binding of `10.0.1.2`
was learnt and has expired: every slot of the table is unused, and slot 0
still holds the MAC `AA:AA:AA:AA:AA:02`, since `arp_flush` clears the IP
only.  The lookup of `arp_encode` compares the target with the IP of every
slot and does not test whether the slot is in use: it stops at slot 0, and
`arp_encode` returns the original length 47 with the IPv4 frame addressed to
the stale MAC, where an ARP request of 42 bytes is due.  Right after
`arp_init` the frame goes to the MAC of slot 0 in the same way, here
`00:00:00:00:00:00`. -/
theorem arp_encode_matches_unused_slot :
    arp_target sample_host_no_router
      (load_ip (sample_udp_frame ⟨8, 8, 8, 8⟩) ip_dest_addr_off) = ip_zero_addr ∧
    (∀ i, ip_addr_is_empty (arp_expired_state.arp_table i).ip_addr = true) ∧
    (arp_expired_state.arp_table 0).mac_addr = sample_mac 2 ∧
    (arp_encode sample_host_no_router arp_expired_state 47
      (sample_udp_frame ⟨8, 8, 8, 8⟩)).1 = 47 ∧
    load_mac (arp_encode sample_host_no_router arp_expired_state 47
      (sample_udp_frame ⟨8, 8, 8, 8⟩)).2 mac_dest_addr_off = sample_mac 2 ∧
    wire_u16 (arp_encode sample_host_no_router arp_expired_state 47
      (sample_udp_frame ⟨8, 8, 8, 8⟩)).2 mac_type_off = 0x0800 ∧
    (∀ i, ip_addr_is_empty ((arp_init arp_boot).arp_table i).ip_addr = true) ∧
    (arp_encode sample_host_no_router (arp_init arp_boot) 47
      (sample_udp_frame ⟨8, 8, 8, 8⟩)).1 = 47 ∧
    load_mac (arp_encode sample_host_no_router (arp_init arp_boot) 47
      (sample_udp_frame ⟨8, 8, 8, 8⟩)).2 mac_dest_addr_off = mac_zero_addr := by
  have e : arp_expired_state =
      (arp_flush ⟨119,
        (arp_update (arp_init arp_boot) ⟨10, 0, 1, 2⟩ (sample_mac 2)).arp_table⟩).2 := by
    unfold arp_expired_state
    rw [show (120 : Nat) = 119 + 1 from rfl, arp_flush_times_add,
      arp_flush_times_all_young 119 _ (by decide)]
    rfl
  rw [e]
  refine ⟨by decide, by decide, by decide, by decide, by decide, by decide, by decide,
    by decide, by decide⟩

/-- Claim C40.  For every 32-bit timestamp `t` and every bound of at least
138 iterations on the two loops, `time_decode` returns, with `sec < 60`,
`min < 60`, `hour < 24`, `month < 12`,
`1 <= day_of_month <= month_day_count (year + 1900, month)`,
`day_of_week = (t / 86400 + 4) mod 7` and
`t = 86400 * D + 3600 * hour + 60 * min + sec`, where `D` is the number of
days from 1970-01-01 to the Gregorian date `year + 1900`, `month + 1`,
`day_of_month`; `day_of_year` is the zero-based day of that date within its
year.  `D` is counted with the lengths of the years and months of the
Gregorian calendar, and equals
`365 (Y - 1970) + (Y - 1969) / 4 - (Y - 1901) / 100 + (Y - 1601) / 400 + day_of_year`
for `Y = year + 1900`. -/
theorem time_decode_gregorian (fuel t : Nat) (ht : t < 4294967296) (hf : 138 ≤ fuel) :
    ∃ dt, time_decode fuel t = some dt ∧
      dt.sec < 60 ∧ dt.min < 60 ∧ dt.hour < 24 ∧ dt.month < 12 ∧
      1 ≤ dt.day_of_month ∧
      (∃ days, month_day_count (dt.year + 1900) dt.month = some days ∧
        dt.day_of_month ≤ days) ∧
      dt.day_of_week = (t / 86400 + 4) % 7 ∧
      1970 ≤ dt.year + 1900 ∧
      t = 86400 * gregorian_days_from_epoch (dt.year + 1900) (dt.month + 1) dt.day_of_month +
        3600 * dt.hour + 60 * dt.min + dt.sec ∧
      dt.day_of_year =
        gregorian_day_of_year (dt.year + 1900) (dt.month + 1) dt.day_of_month ∧
      gregorian_days_from_epoch (dt.year + 1900) (dt.month + 1) dt.day_of_month +
          (dt.year + 1900 - 1901) / 100 =
        365 * (dt.year + 1900 - 1970) + (dt.year + 1900 - 1969) / 4 +
          (dt.year + 1900 - 1601) / 400 + dt.day_of_year := by
  have hdate : t / 86400 ≤ 49710 := by omega
  have hq : t / 86400 / 365 ≤ 136 := by omega
  obtain ⟨rest, m, hy1, hy2, hy3, _, hy5⟩ :=
    time_decode_years_spec fuel (t / 86400) 0 (by omega) (by omega)
  have hy1b : time_decode_years fuel (t / 86400) 1970 = some (rest, 1970 + m) := hy1
  obtain ⟨day, month, hm1, hm2, hm3, hm4⟩ :=
    time_decode_months_spec (1970 + m) fuel rest 0 (by omega) (by omega)
      (by rw [← year_day_count_eq]; simpa [gregorian_days_to_month] using hy2)
  have hrest : rest < 366 := by
    rcases year_day_count_cases (1970 + m) with h | h <;> omega
  have hday := gregorian_month_length_le (1970 + m) (month + 1)
  have eyear : (1970 + m + 65536 - 1900) % 65536 + 1900 = 1970 + m := by omega
  have eday : (day + 1) % 256 = day + 1 := by omega
  have edoy : rest % 65536 = rest := by omega
  simp only [gregorian_days_to_year, gregorian_days_to_month, Nat.zero_add] at hy3 hm4
  have hclosed := gregorian_days_to_year_eq m
  have hdec : time_decode fuel t =
      some
        { sec := t % 86400 % 60 % 256,
          min := t % 86400 % 3600 / 60 % 256,
          hour := t % 86400 / 3600 % 256,
          day_of_week := (t / 86400 + 4) % 7 % 256,
          day_of_month := (day + 1) % 256,
          day_of_year := rest % 65536,
          month := month,
          year := (1970 + m + 65536 - 1900) % 65536,
          daylight_saving := false } := by
    simp only [time_decode, hy1b, hm1]
  refine ⟨_, hdec, ?_, ?_, ?_, hm2, ?_, ?_, ?_, ?_, ?_, ?_, ?_⟩
  · simp only; omega
  · simp only; omega
  · simp only; omega
  · simp only; omega
  · simp only
    rw [eyear, eday]
    exact ⟨_, month_day_count_eq (1970 + m) month hm2, by omega⟩
  · simp only; omega
  · simp only; omega
  · simp only
    rw [eyear, eday]
    simp only [gregorian_days_from_epoch, gregorian_day_of_year, Nat.add_sub_cancel,
      Nat.add_sub_cancel_left]
    omega
  · simp only
    rw [eyear, eday, edoy]
    simp only [gregorian_day_of_year, Nat.add_sub_cancel]
    omega
  · simp only
    rw [eyear, eday, edoy]
    have e1 : 1970 + m - 1969 = m + 1 := by omega
    have e2 : 1970 + m - 1601 = m + 369 := by omega
    have e3 : 1970 + m - 1901 = m + 69 := by omega
    simp only [gregorian_days_from_epoch, gregorian_day_of_year, Nat.add_sub_cancel,
      Nat.add_sub_cancel_left, e1, e2, e3]
    omega

/-- Witness of C40: the timestamp 951782400 is 2000-02-29 00:00:00, a
Tuesday and the day 59 of a leap year divisible by 400, 11016 days after
1970-01-01; the largest timestamp 4294967295 is 2106-02-07 06:28:15, a
Sunday. -/
theorem time_decode_gregorian_witness :
    ((951782400 : Nat) < 4294967296 ∧ 138 ≤ 138) ∧
    time_decode 138 951782400 =
      some { sec := 0, min := 0, hour := 0, day_of_week := 2, day_of_month := 29,
             day_of_year := 59, month := 1, year := 100, daylight_saving := false } ∧
    gregorian_days_from_epoch 2000 2 29 = 11016 ∧
    time_decode 138 4294967295 =
      some { sec := 15, min := 28, hour := 6, day_of_week := 0, day_of_month := 7,
             day_of_year := 37, month := 1, year := 206, daylight_saving := false } ∧
    ∃ dt, time_decode 138 951782400 = some dt ∧ dt.sec < 60 ∧ dt.min < 60 ∧ dt.hour < 24 ∧
      dt.month < 12 :=
  ⟨⟨by decide, by decide⟩, by decide, by decide, by decide,
    (time_decode_gregorian 138 951782400 (by decide) (by decide)).imp
      fun _ h => ⟨h.1, h.2.1, h.2.2.1, h.2.2.2.1, h.2.2.2.2.1⟩⟩

end NetAVR
